import Mathlib

/-!
# fungi-seq.cpp: the sequential fairy-ring cellular automaton

A shallow embedding of `src/fungi-seq.cpp` and theorems about it.

Modelling choices.

* A grid (`int **`) is a total map from a row and a column index to an `int`
  cell.  Indices and cells are `Int`.  A freshly allocated grid (`new int[..]`)
  holds arbitrary values, so theorems quantify over every initial content.
* The scratch counters the source passes by pointer (`current_row`,
  `current_column`, `neighbor_row`, ...) only carry the loop indices; they are
  the bound variables of the loops here.
* The engine `yarn` with `uniform01_dist` is a stream `draws : Nat → ℚ`
  together with the number of draws already taken (`Sim.drawn`).  A draw
  is a `double`; the model reads it as the rational it denotes, and a
  comparison of two `double`s is the comparison of the rationals they denote.
  A threshold is the `double` its literal denotes (IEEE 754 binary64, rounded
  to nearest).  0.25 and 0.5 are `double`s.  For 0.001 and 0.0001 the `double`
  lies above the decimal, and the constant is the exact value of the `double`.
  For 0.6 and 0.7 the `double` lies below the decimal and the next `double`
  above it, so a `double` is at most the one exactly when it is at most the
  other; the constant is the decimal (`probSpread_double`,
  `probMaturingToMushrooms_double`).
* `for (i = lo; i <= hi; i++)` is `forTo lo hi`: it runs `hi + 1 - lo` times
  (not at all when that is negative), with `i = lo, lo + 1, ..., hi`.
* An `int` has 32 bits; `INT_MAX` is the largest.  `allocateGrid` yields no
  grid when `ROWS + 2` or `COLUMNS + 2` exceeds it, and `mushrooms` has no
  result when the increment of its time-step counter does.  The functions that
  work on a grid are given one that `allocateGrid` has yielded, so the sums
  `ROWS + 1`, `COLUMNS + 1`, an index plus or minus one, and the row and
  column counters do not exceed `INT_MAX` there and are exact.
* `getopt`, `atoi` and `isprint` are library functions.  `getArguments` runs on
  the list of results `getopt` yields for the command line (the character it
  returns, `atoi(optarg)`, `optopt`); `isprint` is a parameter.
  `exit(EXIT_FAILURE)` is `Except.error`, a return is `Except.ok`.
* `new int[n]` stores nothing: what the allocated memory holds is a parameter
  (`fresh`) of `allocateGrid`.  It throws when `n` is negative or the heap has
  no room; whether the heap has room at each `new` is a parameter (`heap`).
* For the indices a function reads or writes, its loops are run once more with
  a log next to the state (`logged`); the state moves exactly as in the plain
  loops (`forTo_logged_fst`).
-/

namespace Fungi

/-! ## Constants (lines 28-48) -/

/-- The `double` that the literal `0.001` denotes: 0x1.0624dd2f1a9fcp-10, that
is 4611686018427388 / 2^62 = 1152921504606847 / 2^60, a little above 1/1000. -/
def probSpore : ℚ := 1152921504606847 / 1152921504606846976
def probSporeToYoung : ℚ := 0.25
def probSpread : ℚ := 0.6
def probMaturingToMushrooms : ℚ := 0.7
/-- The `double` that the literal `0.0001` denotes: 0x1.a36e2eb1c432dp-14, that
is 7378697629483821 / 2^66, a little above 1/10000. -/
def probDepletedToSpore : ℚ := 7378697629483821 / 73786976294838206464
def probDepletedToEmpty : ℚ := 0.5

/-- The largest value of an `int`. -/
def INT_MAX : Int := 2147483647

def EMPTY : Int := 0
def SPORE : Int := 1
def YOUNG : Int := 2
def MATURING : Int := 3
def MUSHROOMS : Int := 4
def OLDER : Int := 5
def DECAYING : Int := 6
def DEAD : Int := 7
def DEADER : Int := 8
def DEPLETED : Int := 9
def INERT : Int := 10

/-! ## Grids and loops -/

/-- A grid: the cell stored at a row index and a column index. -/
abbrev Grid := Int → Int → Int

/-- The assignment `grid[r][c] = v`. -/
def setCell (g : Grid) (r c v : Int) : Grid :=
  fun i j => if i = r ∧ j = c then v else g i j

/-- Runs `body i`, `body (i + 1)`, ... for `n` iterations. -/
def forLoop {σ : Type} (body : Int → σ → σ) : Nat → Int → σ → σ
  | 0, _, s => s
  | n + 1, i, s => forLoop body n (i + 1) (body i s)

/-- The loop `for (i = lo; i <= hi; i++) body`. -/
def forTo {σ : Type} (lo hi : Int) (body : Int → σ → σ) (s : σ) : σ :=
  forLoop body (hi + 1 - lo).toNat lo s

/-! ## check_neighbors (lines 365-376) -/

/-- One pass of the innermost body of `check_neighbors`; `ret` is `some v` once
`return v` has been executed. -/
def neighborBody (g : Grid) (current_row current_column neighbor_row neighbor_column : Int)
    (ret : Option Int) : Option Int :=
  match ret with
  | some v => some v
  | none =>
    if neighbor_row ≠ current_row ∨ neighbor_column ≠ current_column then
      if g neighbor_row neighbor_column = YOUNG then some 1 else none
    else none

/-- The function `check_neighbors`: 1 if a neighbour is YOUNG, else 0. -/
def check_neighbors (g : Grid) (current_row current_column : Int) : Int :=
  match forTo (current_row - 1) (current_row + 1) (fun neighbor_row ret =>
      forTo (current_column - 1) (current_column + 1) (fun neighbor_column ret =>
        neighborBody g current_row current_column neighbor_row neighbor_column ret) ret)
      none with
  | some v => v
  | none => 0

/-! ## copyGrid (lines 355-361) -/

/-- The function `copyGrid`; the result is the new content of `current_grid`
(`next_grid` is only read). -/
def copyGrid (ROWS COLUMNS : Int) (current_grid next_grid : Grid) : Grid :=
  forTo 1 ROWS (fun current_row g =>
    forTo 1 COLUMNS (fun current_column g =>
      setCell g current_row current_column (next_grid current_row current_column)) g)
    current_grid

/-! ## mushrooms (lines 217-351) -/

/-- The memory `mushrooms` works on: the two grids and the number of draws
taken from the engine so far. -/
structure Sim where
  current_grid : Grid
  next_grid : Grid
  drawn : Nat

/-- The assignment `(*next_grid)[r][c] = v`. -/
def Sim.store (s : Sim) (r c v : Int) : Sim :=
  { s with next_grid := setCell s.next_grid r c v }

/-- One pass of the ghost-row loop (lines 224 and 227), in this order. -/
def ghostRowsBody (ROWS current_column : Int) (g : Grid) : Grid :=
  let g := setCell g 0 current_column (g ROWS current_column)
  setCell g (ROWS + 1) current_column (g 1 current_column)

/-- The ghost-row loop (lines 221-228). -/
def ghostRows (ROWS COLUMNS : Int) (g : Grid) : Grid :=
  forTo 0 (COLUMNS + 1) (fun current_column g => ghostRowsBody ROWS current_column g) g

/-- One pass of the ghost-column loop (lines 234 and 237), in this order. -/
def ghostColumnsBody (COLUMNS current_row : Int) (g : Grid) : Grid :=
  let g := setCell g current_row 0 (g current_row COLUMNS)
  setCell g current_row (COLUMNS + 1) (g current_row 1)

/-- The ghost-column loop (lines 231-238). -/
def ghostColumns (ROWS COLUMNS : Int) (g : Grid) : Grid :=
  forTo 0 (ROWS + 1) (fun current_row g => ghostColumnsBody COLUMNS current_row g) g

/-- The engine after `(*prob) = (*uniform)(*yarn)`: one more draw is taken.
The value drawn is `draws s.drawn`. -/
def Sim.advance (s : Sim) : Sim :=
  { s with drawn := s.drawn + 1 }

/-- The `switch` on the current cell (lines 256-342).  Every case ends in
`break`; there is no `default`.  In the cases that draw, `prob` is
`draws s.drawn` and the engine is advanced before the store. -/
def evalCell (draws : Nat → ℚ) (current_row current_column : Int) (s : Sim) : Sim :=
  if s.current_grid current_row current_column = 0 then
    if check_neighbors s.current_grid current_row current_column = 0 then
      -- line 263 is `(*next_grid)[..][..] == EMPTY;`: a comparison whose value
      -- is discarded, nothing is stored
      s
    else
      if draws s.drawn ≤ probSpread then s.advance.store current_row current_column YOUNG
      else s.advance.store current_row current_column EMPTY
  else if s.current_grid current_row current_column = 1 then
    if draws s.drawn ≤ probSporeToYoung then s.advance.store current_row current_column YOUNG
    else s.advance.store current_row current_column SPORE
  else if s.current_grid current_row current_column = 2 then
    s.store current_row current_column MATURING
  else if s.current_grid current_row current_column = 3 then
    if draws s.drawn ≤ probMaturingToMushrooms then
      s.advance.store current_row current_column MUSHROOMS
    else s.advance.store current_row current_column OLDER
  else if s.current_grid current_row current_column = 4 then
    s.store current_row current_column DECAYING
  else if s.current_grid current_row current_column = 5 then
    s.store current_row current_column DECAYING
  else if s.current_grid current_row current_column = 6 then
    s.store current_row current_column DEAD
  else if s.current_grid current_row current_column = 7 then
    s.store current_row current_column DEADER
  else if s.current_grid current_row current_column = 8 then
    s.store current_row current_column DEPLETED
  else if s.current_grid current_row current_column = 9 then
    if draws s.drawn ≤ probDepletedToSpore then s.advance.store current_row current_column SPORE
    else if draws s.drawn ≤ probDepletedToEmpty then
      s.advance.store current_row current_column EMPTY
    else s.advance.store current_row current_column DEPLETED
  else if s.current_grid current_row current_column = 10 then
    s.store current_row current_column INERT
  else s

/-- The columns `lo..hi` of one row of the evaluation loop. -/
def evalRowFrom (draws : Nat → ℚ) (lo hi current_row : Int) (s : Sim) : Sim :=
  forTo lo hi (fun current_column s => evalCell draws current_row current_column s) s

/-- The evaluation loop (lines 253-344). -/
def evalGrid (draws : Nat → ℚ) (ROWS COLUMNS : Int) (s : Sim) : Sim :=
  forTo 1 ROWS (fun current_row s => evalRowFrom draws 1 COLUMNS current_row s) s

/-- The state of the evaluation loop at the moment it reaches the cell
`(r, c)`: the rows `1..r-1` and the columns `1..c-1` of row `r` are done. -/
def evalBefore (draws : Nat → ℚ) (COLUMNS r c : Int) (s : Sim) : Sim :=
  evalRowFrom draws 1 (c - 1) r
    (forTo 1 (r - 1) (fun current_row s => evalRowFrom draws 1 COLUMNS current_row s) s)

/-- The border wrap at the start of a time step (lines 220-238). -/
def wrapStage (ROWS COLUMNS : Int) (s : Sim) : Sim :=
  { s with current_grid := ghostColumns ROWS COLUMNS (ghostRows ROWS COLUMNS s.current_grid) }

/-- The call `copyGrid(current_grid, next_grid, ...)` at the end of a time
step (line 347). -/
def copyStage (ROWS COLUMNS : Int) (s : Sim) : Sim :=
  { s with current_grid := copyGrid ROWS COLUMNS s.current_grid s.next_grid }

/-- One pass of the body of the time-step loop. -/
def timeStep (draws : Nat → ℚ) (ROWS COLUMNS : Int) (s : Sim) : Sim :=
  copyStage ROWS COLUMNS (evalGrid draws ROWS COLUMNS (wrapStage ROWS COLUMNS s))

/-- One pass of the time-step loop (line 218): the body, then the increment
`(*current_time_step)++` of the `int` counter.  The increment of a counter that
holds `INT_MAX` overflows; from then on there is no result (`none`). -/
def timeStepCounted (draws : Nat → ℚ) (ROWS COLUMNS current_time_step : Int)
    (s : Option Sim) : Option Sim :=
  match s with
  | none => none
  | some s =>
    if current_time_step + 1 ≤ INT_MAX then some (timeStep draws ROWS COLUMNS s) else none

/-- The function `mushrooms`: the memory it leaves, `none` when the time-step
counter overflows (then the loop does not come to its end). -/
def mushrooms (draws : Nat → ℚ) (ROWS COLUMNS TIME_STEPS : Int) (s : Sim) : Option Sim :=
  forTo 0 TIME_STEPS (timeStepCounted draws ROWS COLUMNS) (some s)

/-- The eight offsets of the Moore neighbourhood. -/
def neighborOffsets : List (Int × Int) :=
  [(-1, -1), (-1, 0), (-1, 1), (0, -1), (0, 1), (1, -1), (1, 0), (1, 1)]

/-- Some cell among the eight neighbours of `(r, c)` is YOUNG. -/
def hasYoungNeighbor (g : Grid) (r c : Int) : Prop :=
  ∃ o ∈ neighborOffsets, g (r + o.1) (c + o.2) = YOUNG

instance (g : Grid) (r c : Int) : Decidable (hasYoungNeighbor g r c) := by
  unfold hasYoungNeighbor; infer_instance

/-! ## Concrete runs -/

/-- An engine whose every draw is 0. -/
def zeroDraws : Nat → ℚ := fun _ => 0

/-- Memory of a 1x1 run right after `initializeGrid` left the interior cell
EMPTY: every cell of `current_grid` is 0 and `next_grid`, which nothing has
written yet, holds 5 in every cell. -/
def staleSim : Sim :=
  { current_grid := fun _ _ => 0, next_grid := fun _ _ => 5, drawn := 0 }

/-- The same memory with 0 in every cell of `next_grid`. -/
def cleanSim : Sim :=
  { current_grid := fun _ _ => 0, next_grid := fun _ _ => 0, drawn := 0 }

/-- A 1x2 interior: cell (1,1) is EMPTY and cell (1,2) is YOUNG. -/
def spreadSim : Sim :=
  { current_grid := fun i j => if i = 1 ∧ j = 2 then 2 else 0,
    next_grid := fun _ _ => 0, drawn := 0 }

/-- A 1x1 interior whose cell holds `v`; `next_grid` holds 0. -/
def singleSim (v : Int) : Sim :=
  { current_grid := fun i j => if i = 1 ∧ j = 1 then v else 0,
    next_grid := fun _ _ => 0, drawn := 0 }

/-! ## initializeGrid (lines 202-213) -/

/-- The memory `initializeGrid` works on: the grid and the number of draws
taken from the engine so far. -/
structure Seeding where
  grid : Grid
  drawn : Nat

/-- The body of the inner loop of `initializeGrid` (lines 205-210): `prob` is
`draws s.drawn`, and the engine is advanced. -/
def initCell (draws : Nat → ℚ) (current_row current_column : Int) (s : Seeding) : Seeding :=
  if draws s.drawn ≤ probSpore then
    { grid := setCell s.grid current_row current_column SPORE, drawn := s.drawn + 1 }
  else
    { grid := setCell s.grid current_row current_column EMPTY, drawn := s.drawn + 1 }

/-- The columns `lo..hi` of one row of `initializeGrid`. -/
def initRowFrom (draws : Nat → ℚ) (lo hi current_row : Int) (s : Seeding) : Seeding :=
  forTo lo hi (fun current_column s => initCell draws current_row current_column s) s

/-- The function `initializeGrid`. -/
def initializeGrid (draws : Nat → ℚ) (ROWS COLUMNS : Int) (s : Seeding) : Seeding :=
  forTo 1 ROWS (fun current_row s => initRowFrom draws 1 COLUMNS current_row s) s

/-- The state of `initializeGrid` at the moment it reaches the cell `(r, c)`. -/
def initBefore (draws : Nat → ℚ) (COLUMNS r c : Int) (s : Seeding) : Seeding :=
  initRowFrom draws 1 (c - 1) r
    (forTo 1 (r - 1) (fun current_row s => initRowFrom draws 1 COLUMNS current_row s) s)

/-! ## allocateGrid (lines 193-198) -/

/-- What `allocateGrid` leaves behind `*grid`: the length of the array of row
pointers, for each row index the length of the `int` array its pointer has been
set to (`none` while the pointer is not set), and the content of the cells. -/
structure Allocated where
  rowCount : Int
  rowLength : Int → Option Int
  cells : Grid

/-- One pass of the loop of `allocateGrid` (lines 195-197): the row
`current_row` is set to `new int[(*COLUMNS) + 2]`.  There is no grid from then
on (`none`) when the `int` sum exceeds `INT_MAX`, when the length is negative
(`new` throws `std::bad_array_new_length`), or when the heap has no room at
this `new` (it throws `std::bad_alloc`); `heap (current_row + 1)` tells whether
it has room. -/
def allocateRow (heap : Int → Bool) (COLUMNS current_row : Int) (a : Option Allocated) :
    Option Allocated :=
  match a with
  | none => none
  | some a =>
    if INT_MAX < COLUMNS + 2 then none
    else if COLUMNS + 2 < 0 then none
    else if heap (current_row + 1) = false then none
    else some { a with rowLength := fun i => if i = current_row then some (COLUMNS + 2)
                                             else a.rowLength i }

/-- The function `allocateGrid`.  `new int[n]` hands out memory without storing
anything into it; `fresh` is what that memory holds.  Line 194 is
`new int*[(*ROWS) + 2]`, the `new` number 0 of the call; the `new` of the row
`current_row` is number `current_row + 1`; `heap k` tells whether the heap has
room at the `new` number `k`.  The result is `none` when a sum exceeds
`INT_MAX` or a `new` throws. -/
def allocateGrid (heap : Int → Bool) (ROWS COLUMNS : Int) (fresh : Grid) : Option Allocated :=
  if INT_MAX < ROWS + 2 then none
  else if ROWS + 2 < 0 then none
  else if heap 0 = false then none
  else forTo 0 (ROWS + 1) (allocateRow heap COLUMNS)
    (some { rowCount := ROWS + 2, rowLength := fun _ => none, cells := fresh })

/-- The index `(row, column)` lies inside the allocated arrays. -/
def Allocated.inBounds (a : Allocated) (row column : Int) : Prop :=
  0 ≤ row ∧ row < a.rowCount ∧ ∃ n, a.rowLength row = some n ∧ 0 ≤ column ∧ column < n

/-! ## getArguments (lines 122-189) -/

/-- What one call of `getopt (argc, argv, "r:c:s:")` that does not return -1
hands to the loop: the returned character `c`, `atoi(optarg)`, and `optopt`. -/
structure GetoptResult where
  c : Int
  optargValue : Int
  optopt : Int

/-- One `fprintf (stderr, format, ...)`: the format string, and `optopt` when
it is the argument printed (`argv[0]` is the argument of the usage lines). -/
structure Printed where
  format : String
  optopt : Option Int
  deriving DecidableEq

/-- The locals of `getArguments`, the three `int`s behind its pointers, and
what has been printed to `stderr`. -/
structure ArgState where
  rflag : Int
  cflag : Int
  sflag : Int
  ROWS : Int
  COLUMNS : Int
  TIME_STEPS : Int
  err : List Printed

/-- The call `fprintf (stderr, format, argv[0])`. -/
def ArgState.usage (st : ArgState) (format : String) : ArgState :=
  { st with err := st.err ++ [{ format := format, optopt := none }] }

/-- The call `fprintf (stderr, format, optopt)`. -/
def ArgState.complain (st : ArgState) (format : String) (optopt : Int) : ArgState :=
  { st with err := st.err ++ [{ format := format, optopt := some optopt }] }

/-- The `switch (c)` of the `getopt` loop (lines 132-161).  `Except.error` is
`exit(EXIT_FAILURE)`, with the state at that moment.  `isprint` is the library
function of that name. -/
def optCase (isprint : Int → Bool) (g : GetoptResult) (st : ArgState) :
    Except ArgState ArgState :=
  if g.c = 'r'.toNat then .ok { st with rflag := 1, ROWS := g.optargValue }
  else if g.c = 'c'.toNat then .ok { st with cflag := 1, COLUMNS := g.optargValue }
  else if g.c = 's'.toNat then .ok { st with sflag := 1, TIME_STEPS := g.optargValue }
  else if g.c = '?'.toNat then
    if g.optopt = 'r'.toNat then
      .ok (st.complain "Option -%c requires an argument.\n" g.optopt)
    else if g.optopt = 'c'.toNat then
      .ok (st.complain "Option -%c requires an argument.\n" g.optopt)
    else if g.optopt = 's'.toNat then
      .ok (st.complain "Option -%c requires an argument.\n" g.optopt)
    else if isprint g.optopt then
      .ok (st.complain "Unknown option `-%c'.\n" g.optopt)
    else
      .error (st.complain "Unknown option character `\\x%x'.\n" g.optopt)
  else .ok st

/-- The `while` loop over the results of `getopt` (lines 131-162). -/
def getoptLoop (isprint : Int → Bool) : List GetoptResult → ArgState → Except ArgState ArgState
  | [], st => .ok st
  | g :: rest, st =>
    match optCase isprint g st with
    | .error st => .error st
    | .ok st => getoptLoop isprint rest st

/-- The checks after the loop (lines 165-188), in their order. -/
def checkArguments (st : ArgState) : Except ArgState ArgState :=
  if st.rflag = 0 then .error (st.usage "Usage: %s -r number of rows\n")
  else if st.ROWS < 1 then
    .error (st.usage "Usage: %s -r number of rows must be a positive nonzero integer\n")
  else if st.cflag = 0 then .error (st.usage "Usage: %s -c number of columns\n")
  else if st.COLUMNS < 1 then
    .error (st.usage "Usage: %s -c number of columns must be a positive nonzero integer\n")
  else if st.sflag = 0 then .error (st.usage "Usage: %s -s number of time steps\n")
  else if st.TIME_STEPS < 1 then
    .error (st.usage "Usage: %s -s number of time steps must be a positive nonzero integer\n")
  else .ok st

/-- The function `getArguments`, run on the results `opts` that `getopt` yields
for the command line.  `ROWS`, `COLUMNS`, `TIME_STEPS` are the values behind
the three pointers at the call.  `Except.error` is `exit(EXIT_FAILURE)`,
`Except.ok` is the return. -/
def getArguments (isprint : Int → Bool) (opts : List GetoptResult)
    (ROWS COLUMNS TIME_STEPS : Int) : Except ArgState ArgState :=
  match getoptLoop isprint opts
      { rflag := 0, cflag := 0, sflag := 0, ROWS := ROWS, COLUMNS := COLUMNS,
        TIME_STEPS := TIME_STEPS, err := [] } with
  | .error st => .error st
  | .ok st => checkArguments st

/-! ## main (lines 69-118) -/

/-- What a run of `main` amounts to: whether it ended in `exit(EXIT_FAILURE)`,
whether it ended in an `allocateGrid` that yields no grid (an exception of
`new` that nothing catches), what it printed to `stderr`, how many grids it
allocated, and the memory `mushrooms` returned when the run got that far and
`mushrooms` returned. -/
structure Run where
  failed : Bool
  thrown : Bool
  err : List Printed
  gridsAllocated : Nat
  final : Option Sim

/-- The function `main` without its timing: `getArguments` (line 87), the two
`allocateGrid` (lines 93-94), `initializeGrid` (line 97), `mushrooms`
(line 100).  `fresh₁` and `fresh₂` are what the allocated memory holds,
`heap₁` and `heap₂` whether the heap has room at each `new` of the two calls. -/
def main (isprint : Int → Bool) (draws : Nat → ℚ) (opts : List GetoptResult)
    (ROWS COLUMNS TIME_STEPS : Int) (fresh₁ fresh₂ : Grid) (heap₁ heap₂ : Int → Bool) : Run :=
  match getArguments isprint opts ROWS COLUMNS TIME_STEPS with
  | .error st =>
    { failed := true, thrown := false, err := st.err, gridsAllocated := 0, final := none }
  | .ok st =>
    match allocateGrid heap₁ st.ROWS st.COLUMNS fresh₁ with
    | none =>
      { failed := false, thrown := true, err := st.err, gridsAllocated := 0, final := none }
    | some current_grid =>
      match allocateGrid heap₂ st.ROWS st.COLUMNS fresh₂ with
      | none =>
        { failed := false, thrown := true, err := st.err, gridsAllocated := 1, final := none }
      | some next_grid =>
        let seeded := initializeGrid draws st.ROWS st.COLUMNS
          { grid := current_grid.cells, drawn := 0 }
        { failed := false, thrown := false, err := st.err, gridsAllocated := 2,
          final := mushrooms draws st.ROWS st.COLUMNS st.TIME_STEPS
            { current_grid := seeded.grid, next_grid := next_grid.cells,
              drawn := seeded.drawn } }

/-- The `isprint` of the "C" locale: the characters 0x20 to 0x7e. -/
def isprintC (ch : Int) : Bool := decide (32 ≤ ch ∧ ch ≤ 126)

/-- The value of the last `-r`, `-c` or `-s` among the results of `getopt`
(`ch` is the option character), `none` when there is none. -/
def lastArg (ch : Int) : List GetoptResult → Option Int
  | [] => none
  | g :: rest =>
    match lastArg ch rest with
    | some v => some v
    | none => if g.c = ch then some g.optargValue else none

/-- The loop of `getArguments` meets an option character that is unknown and
not printable: the one case of the `switch` that calls `exit`. -/
def hasUnprintable (isprint : Int → Bool) (opts : List GetoptResult) : Prop :=
  ∃ g ∈ opts, g.c = '?'.toNat ∧ g.optopt ≠ 'r'.toNat ∧ g.optopt ≠ 'c'.toNat ∧
    g.optopt ≠ 's'.toNat ∧ isprint g.optopt = false

instance (isprint : Int → Bool) (opts : List GetoptResult) :
    Decidable (hasUnprintable isprint opts) := by
  unfold hasUnprintable; infer_instance

/-! ## The grid indices a run touches

Both grids have the same size, so an access is logged as its pair of indices
`(row, column)`. -/

/-- A loop body that also logs: the state moves on as `body` says, and the
grid indices `idx` lists for the pass are appended to the log. -/
def logged {σ : Type} (body : Int → σ → σ) (idx : Int → σ → List (Int × Int)) (i : Int)
    (p : σ × List (Int × Int)) : σ × List (Int × Int) :=
  (body i p.1, p.2 ++ idx i p.1)

/-- The index one pass of the innermost body of `check_neighbors` reads
(line 369): none once `return` has been executed, none at the centre. -/
def neighborReads (current_row current_column neighbor_row neighbor_column : Int)
    (ret : Option Int) : List (Int × Int) :=
  match ret with
  | some _ => []
  | none =>
    if neighbor_row ≠ current_row ∨ neighbor_column ≠ current_column then
      [(neighbor_row, neighbor_column)]
    else []

/-- The indices a call of `check_neighbors` reads, in order. -/
def check_neighborsReads (g : Grid) (current_row current_column : Int) : List (Int × Int) :=
  (forTo (current_row - 1) (current_row + 1)
    (logged
      (fun neighbor_row ret =>
        forTo (current_column - 1) (current_column + 1) (fun neighbor_column ret =>
          neighborBody g current_row current_column neighbor_row neighbor_column ret) ret)
      (fun neighbor_row ret =>
        (forTo (current_column - 1) (current_column + 1)
          (logged
            (fun neighbor_column ret =>
              neighborBody g current_row current_column neighbor_row neighbor_column ret)
            (fun neighbor_column ret =>
              neighborReads current_row current_column neighbor_row neighbor_column ret))
          (ret, [])).2))
    (none, [])).2

/-- The indices one pass of the `switch` touches: `current_grid[r][c]`
(line 256), what `check_neighbors` reads when that cell is 0 (line 262), and
`next_grid[r][c]`, the one index the cases store to or compare (logged for
every case). -/
def evalCellAccesses (current_row current_column : Int) (s : Sim) : List (Int × Int) :=
  (current_row, current_column) ::
    ((if s.current_grid current_row current_column = 0 then
        check_neighborsReads s.current_grid current_row current_column
      else []) ++ [(current_row, current_column)])

/-- The indices the evaluation loop touches (lines 253-344). -/
def evalGridAccesses (draws : Nat → ℚ) (ROWS COLUMNS : Int) (s : Sim) : List (Int × Int) :=
  (forTo 1 ROWS
    (logged (fun current_row s => evalRowFrom draws 1 COLUMNS current_row s)
      (fun current_row s =>
        (forTo 1 COLUMNS
          (logged (fun current_column s => evalCell draws current_row current_column s)
            (fun current_column s => evalCellAccesses current_row current_column s))
          (s, [])).2))
    (s, [])).2

/-- The indices the ghost-row loop touches: line 224 reads `[ROWS][c]` and
writes `[0][c]`, line 227 reads `[1][c]` and writes `[ROWS + 1][c]`. -/
def ghostRowsAccesses (ROWS COLUMNS : Int) (g : Grid) : List (Int × Int) :=
  (forTo 0 (COLUMNS + 1)
    (logged (fun current_column g => ghostRowsBody ROWS current_column g)
      (fun current_column _ =>
        [(ROWS, current_column), (0, current_column), (1, current_column),
          (ROWS + 1, current_column)]))
    (g, [])).2

/-- The indices the ghost-column loop touches: line 234 reads `[r][COLUMNS]`
and writes `[r][0]`, line 237 reads `[r][1]` and writes `[r][COLUMNS + 1]`. -/
def ghostColumnsAccesses (ROWS COLUMNS : Int) (g : Grid) : List (Int × Int) :=
  (forTo 0 (ROWS + 1)
    (logged (fun current_row g => ghostColumnsBody COLUMNS current_row g)
      (fun current_row _ =>
        [(current_row, COLUMNS), (current_row, 0), (current_row, 1),
          (current_row, COLUMNS + 1)]))
    (g, [])).2

/-- The indices `copyGrid` touches: line 358 reads `next_grid[r][c]` and writes
`current_grid[r][c]`. -/
def copyGridAccesses (ROWS COLUMNS : Int) (current_grid next_grid : Grid) :
    List (Int × Int) :=
  (forTo 1 ROWS
    (logged
      (fun current_row g =>
        forTo 1 COLUMNS (fun current_column g =>
          setCell g current_row current_column (next_grid current_row current_column)) g)
      (fun current_row g =>
        (forTo 1 COLUMNS
          (logged
            (fun current_column g =>
              setCell g current_row current_column (next_grid current_row current_column))
            (fun current_column _ =>
              [(current_row, current_column), (current_row, current_column)]))
          (g, [])).2))
    (current_grid, [])).2

/-- The indices `initializeGrid` touches: lines 207 and 209 write `[r][c]`. -/
def initializeGridAccesses (draws : Nat → ℚ) (ROWS COLUMNS : Int) (s : Seeding) :
    List (Int × Int) :=
  (forTo 1 ROWS
    (logged (fun current_row s => initRowFrom draws 1 COLUMNS current_row s)
      (fun current_row s =>
        (forTo 1 COLUMNS
          (logged (fun current_column s => initCell draws current_row current_column s)
            (fun current_column _ => [(current_row, current_column)]))
          (s, [])).2))
    (s, [])).2

/-- The indices one time step touches: the two wrap loops, the evaluation loop
on the wrapped memory, `copyGrid` on what the evaluation loop left. -/
def timeStepAccesses (draws : Nat → ℚ) (ROWS COLUMNS : Int) (s : Sim) : List (Int × Int) :=
  ghostRowsAccesses ROWS COLUMNS s.current_grid ++
    (ghostColumnsAccesses ROWS COLUMNS (ghostRows ROWS COLUMNS s.current_grid) ++
      (evalGridAccesses draws ROWS COLUMNS (wrapStage ROWS COLUMNS s) ++
        copyGridAccesses ROWS COLUMNS
          (evalGrid draws ROWS COLUMNS (wrapStage ROWS COLUMNS s)).current_grid
          (evalGrid draws ROWS COLUMNS (wrapStage ROWS COLUMNS s)).next_grid))

/-- The indices `mushrooms` touches: those of the passes of its time-step loop
with the counter at `0..TIME_STEPS`. -/
def mushroomsAccesses (draws : Nat → ℚ) (ROWS COLUMNS TIME_STEPS : Int) (s : Sim) :
    List (Int × Int) :=
  (forTo 0 TIME_STEPS
    (logged (fun _ s => timeStep draws ROWS COLUMNS s)
      (fun _ s => timeStepAccesses draws ROWS COLUMNS s))
    (s, [])).2

/-! ## More concrete runs -/

/-- A 1x4 interior: cell (1,1) is YOUNG, the cells (1,2), (1,3), (1,4) are
EMPTY, and `next_grid`, which nothing has written yet, holds 7 in every cell. -/
def ringSim : Sim :=
  { current_grid := fun i j => if i = 1 ∧ j = 1 then 2 else 0,
    next_grid := fun _ _ => 7, drawn := 0 }

/-- The results of `getopt` for the command line `-r 3 -c 3 -s 3`. -/
def goodOpts : List GetoptResult :=
  [{ c := 'r'.toNat, optargValue := 3, optopt := 0 },
   { c := 'c'.toNat, optargValue := 3, optopt := 0 },
   { c := 's'.toNat, optargValue := 3, optopt := 0 }]

/-- The result of `getopt` for an option `-x`, which the option string does
not have: `'?'` with `optopt` the character `x`. -/
def unknownX : GetoptResult :=
  { c := '?'.toNat, optargValue := 0, optopt := 'x'.toNat }

/-- The result of `getopt` for an option whose character is the byte 0x01. -/
def unknownCtrl : GetoptResult :=
  { c := '?'.toNat, optargValue := 0, optopt := 1 }

/-- The index pair `x` lies in the rows `0..ROWS+1` and the columns
`0..COLUMNS+1`. -/
def withinGrid (ROWS COLUMNS : Int) (x : Int × Int) : Prop :=
  0 ≤ x.1 ∧ x.1 ≤ ROWS + 1 ∧ 0 ≤ x.2 ∧ x.2 ≤ COLUMNS + 1

instance (ROWS COLUMNS : Int) (x : Int × Int) : Decidable (withinGrid ROWS COLUMNS x) := by
  unfold withinGrid; infer_instance

/-- Memory whose `next_grid` holds the same cells as its `current_grid` `g`,
as after a `copyGrid`. -/
def syncedSim (g : Grid) : Sim :=
  { current_grid := g, next_grid := g, drawn := 0 }

/-! ## The order of the draws -/

/-- A loop body that also logs, with log entries of any type: the state moves
on as `body` says, and what `idx` lists for the pass is appended to the log. -/
def loggedWith {σ α : Type} (body : Int → σ → σ) (idx : Int → σ → List α) (i : Int)
    (p : σ × List α) : σ × List α :=
  (body i p.1, p.2 ++ idx i p.1)

/-- The draw one pass of the `switch` takes, if it takes one: its number in the
stream of the engine, and the cell it is taken for.  A pass draws exactly when
it advances the engine, and what it draws then is `draws s.drawn`. -/
def cellDraw (draws : Nat → ℚ) (current_row current_column : Int) (s : Sim) :
    List (Nat × (Int × Int)) :=
  if (evalCell draws current_row current_column s).drawn = s.drawn then []
  else [(s.drawn, (current_row, current_column))]

/-- The draws the evaluation loop takes, in the order in which it takes them. -/
def evalGridDraws (draws : Nat → ℚ) (ROWS COLUMNS : Int) (s : Sim) :
    List (Nat × (Int × Int)) :=
  (forTo 1 ROWS
    (loggedWith (fun current_row s => evalRowFrom draws 1 COLUMNS current_row s)
      (fun current_row s =>
        (forTo 1 COLUMNS
          (loggedWith (fun current_column s => evalCell draws current_row current_column s)
            (fun current_column s => cellDraw draws current_row current_column s))
          (s, [])).2))
    (s, [])).2

/-- The cell `x` of the grid `g` is SPORE, MATURING, DEPLETED, or EMPTY with a
YOUNG neighbour. -/
def needsDraw (g : Grid) (x : Int × Int) : Prop :=
  g x.1 x.2 = SPORE ∨ g x.1 x.2 = MATURING ∨ g x.1 x.2 = DEPLETED ∨
    (g x.1 x.2 = EMPTY ∧ hasYoungNeighbor g x.1 x.2)

instance (g : Grid) (x : Int × Int) : Decidable (needsDraw g x) := by
  unfold needsDraw; infer_instance

/-- The interior cells in row-major order: row 1 from column 1 to column
COLUMNS, then row 2, and so on to row ROWS. -/
def interiorCells (ROWS COLUMNS : Int) : List (Int × Int) :=
  (List.range ROWS.toNat).flatMap (fun (i : Nat) =>
    (List.range COLUMNS.toNat).map (fun (j : Nat) => (1 + (i : Int), 1 + (j : Int))))

/-- The interior cells that are SPORE, MATURING, DEPLETED, or EMPTY with a
YOUNG neighbour, in row-major order. -/
def drawingCells (g : Grid) (ROWS COLUMNS : Int) : List (Int × Int) :=
  (interiorCells ROWS COLUMNS).filter (fun x => decide (needsDraw g x))

/-- A 1x3 interior: cell (1,1) is SPORE, cell (1,2) is YOUNG, cell (1,3) is
MATURING; the engine has taken 5 draws before. -/
def orderSim : Sim :=
  { current_grid := fun i j =>
      if i = 1 ∧ j = 1 then 1 else if i = 1 ∧ j = 2 then 2 else if i = 1 ∧ j = 3 then 3 else 0,
    next_grid := fun _ _ => 0, drawn := 5 }

end Fungi

namespace Fungi

/-! ## The thresholds as `double`s -/

/-- `probSpore` is a `double` (53 significant bits, exponent -10) and lies
within half a unit in the last place of 1/1000, above it. -/
theorem probSpore_double :
    probSpore = 4611686018427388 / 2 ^ 62 ∧
    (2 : ℚ) ^ 52 ≤ 4611686018427388 ∧ (4611686018427388 : ℚ) < 2 ^ 53 ∧
    1 / 1000 < probSpore ∧ probSpore - 1 / 1000 < 1 / 2 ^ 63 := by
  norm_num [probSpore]

/-- `probDepletedToSpore` is a `double` (53 significant bits, exponent -14) and
lies within half a unit in the last place of 1/10000, above it. -/
theorem probDepletedToSpore_double :
    probDepletedToSpore = 7378697629483821 / 2 ^ 66 ∧
    (2 : ℚ) ^ 52 ≤ 7378697629483821 ∧ (7378697629483821 : ℚ) < 2 ^ 53 ∧
    1 / 10000 < probDepletedToSpore ∧ probDepletedToSpore - 1 / 10000 < 1 / 2 ^ 67 := by
  norm_num [probDepletedToSpore]

/-- The decimal 0.6 lies between the `double` the literal denotes,
5404319552844595 / 2^53, and the next `double`. -/
theorem probSpread_double :
    (5404319552844595 : ℚ) / 2 ^ 53 < probSpread ∧
    probSpread < 5404319552844596 / 2 ^ 53 ∧
    probSpread - 5404319552844595 / 2 ^ 53 < 1 / 2 ^ 54 := by
  norm_num [probSpread]

/-- The decimal 0.7 lies between the `double` the literal denotes,
6305039478318694 / 2^53, and the next `double`. -/
theorem probMaturingToMushrooms_double :
    (6305039478318694 : ℚ) / 2 ^ 53 < probMaturingToMushrooms ∧
    probMaturingToMushrooms < 6305039478318695 / 2 ^ 53 ∧
    probMaturingToMushrooms - 6305039478318694 / 2 ^ 53 < 1 / 2 ^ 54 := by
  norm_num [probMaturingToMushrooms]

/-- The `double`s 0.25 and 0.5. -/
theorem probExact_double :
    probSporeToYoung = 1 / 2 ^ 2 ∧ probDepletedToEmpty = 1 / 2 ^ 1 := by
  norm_num [probSporeToYoung, probDepletedToEmpty]

/-! ## Loop lemmas -/

theorem forLoop_add {σ : Type} (body : Int → σ → σ) (m n : Nat) (i : Int) (s : σ) :
    forLoop body (m + n) i s = forLoop body n (i + m) (forLoop body m i s) := by
  induction m generalizing i s with
  | zero => simp [forLoop]
  | succ k ih =>
    have h : k + 1 + n = (k + n) + 1 := by omega
    rw [h]
    simp only [forLoop]
    rw [ih]
    congr 1
    push_cast
    ring

theorem forLoop_inv {σ : Type} (P : σ → Prop) (body : Int → σ → σ) (n : Nat) (i : Int) (s : σ)
    (h : ∀ j t, i ≤ j → j < i + n → P t → P (body j t)) (hs : P s) :
    P (forLoop body n i s) := by
  induction n generalizing i s with
  | zero => simpa [forLoop] using hs
  | succ k ih =>
    simp only [forLoop]
    apply ih
    · intro j t h1 h2 ht
      apply h j t (by omega) (by push_cast; omega) ht
    · apply h i s (le_refl i) (by push_cast; omega) hs

theorem forTo_inv {σ : Type} (P : σ → Prop) (body : Int → σ → σ) (lo hi : Int) (s : σ)
    (h : ∀ j t, lo ≤ j → j ≤ hi → P t → P (body j t)) (hs : P s) :
    P (forTo lo hi body s) := by
  unfold forTo
  apply forLoop_inv P body _ lo s _ hs
  intro j t h1 h2 ht
  exact h j t h1 (by omega) ht

theorem forTo_empty {σ : Type} (body : Int → σ → σ) (lo hi : Int) (s : σ) (h : hi < lo) :
    forTo lo hi body s = s := by
  unfold forTo
  have : (hi + 1 - lo).toNat = 0 := by omega
  rw [this]
  rfl

theorem forTo_split {σ : Type} (body : Int → σ → σ) (lo hi m : Int) (s : σ)
    (h1 : lo ≤ m) (h2 : m ≤ hi) :
    forTo lo hi body s = forTo (m + 1) hi body (body m (forTo lo (m - 1) body s)) := by
  unfold forTo
  have e : (hi + 1 - lo).toNat = (m - 1 + 1 - lo).toNat + (1 + (hi + 1 - (m + 1)).toNat) := by
    omega
  rw [e, forLoop_add, forLoop_add]
  have e2 : lo + ((m - 1 + 1 - lo).toNat : Int) = m := by omega
  rw [e2]
  simp only [forLoop]
  norm_num

/-- The effect of the pass `m` survives the rest of the loop when the later
passes preserve it. -/
theorem forTo_at {σ : Type} (P : σ → Prop) (body : Int → σ → σ) (lo hi m : Int) (s : σ)
    (h1 : lo ≤ m) (h2 : m ≤ hi)
    (hpres : ∀ j t, m < j → j ≤ hi → P t → P (body j t))
    (hm : P (body m (forTo lo (m - 1) body s))) :
    P (forTo lo hi body s) := by
  rw [forTo_split body lo hi m s h1 h2]
  apply forTo_inv P body _ _ _ _ hm
  intro j t hj1 hj2 ht
  exact hpres j t (by omega) hj2 ht

/-! ## check_neighbors -/

theorem forTo_three {σ : Type} (body : Int → σ → σ) (a : Int) (s : σ) :
    forTo (a - 1) (a + 1) body s = body (a + 1) (body a (body (a - 1) s)) := by
  unfold forTo
  have e : (a + 1 + 1 - (a - 1)).toNat = 3 := by omega
  rw [e]
  simp only [forLoop]
  have e1 : a - 1 + 1 = a := by ring
  rw [e1]

theorem neighborBody_some (g : Grid) (r c nr nc v : Int) :
    neighborBody g r c nr nc (some v) = some v := rfl

theorem neighborBody_center (g : Grid) (r c : Int) (ret : Option Int) :
    neighborBody g r c r c ret = ret := by
  cases ret <;> simp [neighborBody]

theorem neighborBody_none (g : Grid) (r c nr nc : Int) (h : nr ≠ r ∨ nc ≠ c) :
    neighborBody g r c nr nc none = if g nr nc = YOUNG then some 1 else none := by
  simp [neighborBody, h]

/-- What `check_neighbors` computes: 1 when one of the eight neighbours is
YOUNG, else 0. -/
theorem check_neighbors_eq (g : Grid) (r c : Int) :
    check_neighbors g r c = if hasYoungNeighbor g r c then 1 else 0 := by
  unfold check_neighbors
  simp only [forTo_three, neighborBody_center]
  rw [neighborBody_none g r c (r - 1) (c - 1) (by omega)]
  have hy : hasYoungNeighbor g r c ↔
      (g (r - 1) (c - 1) = YOUNG ∨ g (r - 1) c = YOUNG ∨ g (r - 1) (c + 1) = YOUNG ∨
       g r (c - 1) = YOUNG ∨ g r (c + 1) = YOUNG ∨
       g (r + 1) (c - 1) = YOUNG ∨ g (r + 1) c = YOUNG ∨ g (r + 1) (c + 1) = YOUNG) := by
    simp [hasYoungNeighbor, neighborOffsets, sub_eq_add_neg]
  rw [if_congr hy rfl rfl]
  by_cases h1 : g (r - 1) (c - 1) = YOUNG
  · simp [h1, neighborBody_some]
  rw [if_neg h1, neighborBody_none g r c (r - 1) c (by omega)]
  by_cases h2 : g (r - 1) c = YOUNG
  · simp [h2, neighborBody_some]
  rw [if_neg h2, neighborBody_none g r c (r - 1) (c + 1) (by omega)]
  by_cases h3 : g (r - 1) (c + 1) = YOUNG
  · simp [h3, neighborBody_some, neighborBody_center]
  rw [if_neg h3, neighborBody_none g r c r (c - 1) (by omega)]
  by_cases h4 : g r (c - 1) = YOUNG
  · simp [h4, neighborBody_some]
  rw [if_neg h4, neighborBody_none g r c r (c + 1) (by omega)]
  by_cases h5 : g r (c + 1) = YOUNG
  · simp [h5, neighborBody_some]
  rw [if_neg h5, neighborBody_none g r c (r + 1) (c - 1) (by omega)]
  by_cases h6 : g (r + 1) (c - 1) = YOUNG
  · simp [h6, neighborBody_some]
  rw [if_neg h6, neighborBody_none g r c (r + 1) c (by omega)]
  by_cases h7 : g (r + 1) c = YOUNG
  · simp [h7, neighborBody_some]
  rw [if_neg h7, neighborBody_none g r c (r + 1) (c + 1) (by omega)]
  by_cases h8 : g (r + 1) (c + 1) = YOUNG
  · simp [h8]
  simp [h1, h2, h3, h4, h5, h6, h7, h8]

/-! ## The evaluation loop: frame lemmas -/

theorem store_current (s : Sim) (r c v : Int) : (s.store r c v).current_grid = s.current_grid :=
  rfl

theorem store_drawn (s : Sim) (r c v : Int) : (s.store r c v).drawn = s.drawn := rfl

theorem store_next (s : Sim) (r c v i j : Int) :
    (s.store r c v).next_grid i j = if i = r ∧ j = c then v else s.next_grid i j := rfl

theorem advance_current (s : Sim) : s.advance.current_grid = s.current_grid := rfl

theorem advance_next (s : Sim) : s.advance.next_grid = s.next_grid := rfl

theorem advance_drawn (s : Sim) : s.advance.drawn = s.drawn + 1 := rfl

/-! The `switch`, case by case. -/

theorem evalCell_empty_quiet (draws : Nat → ℚ) (r c : Int) (s : Sim)
    (h : s.current_grid r c = 0) (hn : check_neighbors s.current_grid r c = 0) :
    evalCell draws r c s = s := by
  unfold evalCell
  rw [if_pos h, if_pos hn]

theorem evalCell_empty_spread (draws : Nat → ℚ) (r c : Int) (s : Sim)
    (h : s.current_grid r c = 0) (hn : check_neighbors s.current_grid r c ≠ 0) :
    evalCell draws r c s =
      if draws s.drawn ≤ probSpread then s.advance.store r c YOUNG
      else s.advance.store r c EMPTY := by
  unfold evalCell
  rw [if_pos h, if_neg hn]

theorem evalCell_spore (draws : Nat → ℚ) (r c : Int) (s : Sim) (h : s.current_grid r c = 1) :
    evalCell draws r c s =
      if draws s.drawn ≤ probSporeToYoung then s.advance.store r c YOUNG
      else s.advance.store r c SPORE := by
  simp [evalCell, h]

theorem evalCell_young (draws : Nat → ℚ) (r c : Int) (s : Sim) (h : s.current_grid r c = 2) :
    evalCell draws r c s = s.store r c MATURING := by
  simp [evalCell, h]

theorem evalCell_maturing (draws : Nat → ℚ) (r c : Int) (s : Sim) (h : s.current_grid r c = 3) :
    evalCell draws r c s =
      if draws s.drawn ≤ probMaturingToMushrooms then s.advance.store r c MUSHROOMS
      else s.advance.store r c OLDER := by
  simp [evalCell, h]

theorem evalCell_mushrooms (draws : Nat → ℚ) (r c : Int) (s : Sim) (h : s.current_grid r c = 4) :
    evalCell draws r c s = s.store r c DECAYING := by
  simp [evalCell, h]

theorem evalCell_older (draws : Nat → ℚ) (r c : Int) (s : Sim) (h : s.current_grid r c = 5) :
    evalCell draws r c s = s.store r c DECAYING := by
  simp [evalCell, h]

theorem evalCell_decaying (draws : Nat → ℚ) (r c : Int) (s : Sim) (h : s.current_grid r c = 6) :
    evalCell draws r c s = s.store r c DEAD := by
  simp [evalCell, h]

theorem evalCell_dead (draws : Nat → ℚ) (r c : Int) (s : Sim) (h : s.current_grid r c = 7) :
    evalCell draws r c s = s.store r c DEADER := by
  simp [evalCell, h]

theorem evalCell_deader (draws : Nat → ℚ) (r c : Int) (s : Sim) (h : s.current_grid r c = 8) :
    evalCell draws r c s = s.store r c DEPLETED := by
  simp [evalCell, h]

theorem evalCell_depleted (draws : Nat → ℚ) (r c : Int) (s : Sim) (h : s.current_grid r c = 9) :
    evalCell draws r c s =
      if draws s.drawn ≤ probDepletedToSpore then s.advance.store r c SPORE
      else if draws s.drawn ≤ probDepletedToEmpty then s.advance.store r c EMPTY
      else s.advance.store r c DEPLETED := by
  simp [evalCell, h]

theorem evalCell_inert (draws : Nat → ℚ) (r c : Int) (s : Sim) (h : s.current_grid r c = 10) :
    evalCell draws r c s = s.store r c INERT := by
  simp [evalCell, h]

theorem evalCell_default (draws : Nat → ℚ) (r c : Int) (s : Sim)
    (h : s.current_grid r c < 0 ∨ 10 < s.current_grid r c) :
    evalCell draws r c s = s := by
  unfold evalCell
  repeat rw [if_neg (by omega)]

/-- A pass of the `switch` stores at most one value, into its own cell of
`next_grid`, and takes at most one draw. -/
theorem evalCell_cases (draws : Nat → ℚ) (r c : Int) (s : Sim) :
    evalCell draws r c s = s ∨
      ∃ v, evalCell draws r c s = s.store r c v ∨ evalCell draws r c s = s.advance.store r c v := by
  by_cases h0 : s.current_grid r c = 0
  · by_cases hn : check_neighbors s.current_grid r c = 0
    · exact Or.inl (evalCell_empty_quiet draws r c s h0 hn)
    · rw [evalCell_empty_spread draws r c s h0 hn]
      split_ifs
      · exact Or.inr ⟨YOUNG, Or.inr rfl⟩
      · exact Or.inr ⟨EMPTY, Or.inr rfl⟩
  by_cases h1 : s.current_grid r c = 1
  · rw [evalCell_spore draws r c s h1]
    split_ifs
    · exact Or.inr ⟨YOUNG, Or.inr rfl⟩
    · exact Or.inr ⟨SPORE, Or.inr rfl⟩
  by_cases h2 : s.current_grid r c = 2
  · exact Or.inr ⟨MATURING, Or.inl (evalCell_young draws r c s h2)⟩
  by_cases h3 : s.current_grid r c = 3
  · rw [evalCell_maturing draws r c s h3]
    split_ifs
    · exact Or.inr ⟨MUSHROOMS, Or.inr rfl⟩
    · exact Or.inr ⟨OLDER, Or.inr rfl⟩
  by_cases h4 : s.current_grid r c = 4
  · exact Or.inr ⟨DECAYING, Or.inl (evalCell_mushrooms draws r c s h4)⟩
  by_cases h5 : s.current_grid r c = 5
  · exact Or.inr ⟨DECAYING, Or.inl (evalCell_older draws r c s h5)⟩
  by_cases h6 : s.current_grid r c = 6
  · exact Or.inr ⟨DEAD, Or.inl (evalCell_decaying draws r c s h6)⟩
  by_cases h7 : s.current_grid r c = 7
  · exact Or.inr ⟨DEADER, Or.inl (evalCell_dead draws r c s h7)⟩
  by_cases h8 : s.current_grid r c = 8
  · exact Or.inr ⟨DEPLETED, Or.inl (evalCell_deader draws r c s h8)⟩
  by_cases h9 : s.current_grid r c = 9
  · rw [evalCell_depleted draws r c s h9]
    split_ifs
    · exact Or.inr ⟨SPORE, Or.inr rfl⟩
    · exact Or.inr ⟨EMPTY, Or.inr rfl⟩
    · exact Or.inr ⟨DEPLETED, Or.inr rfl⟩
  by_cases h10 : s.current_grid r c = 10
  · exact Or.inr ⟨INERT, Or.inl (evalCell_inert draws r c s h10)⟩
  exact Or.inl (evalCell_default draws r c s (by omega))

theorem evalCell_current (draws : Nat → ℚ) (r c : Int) (s : Sim) :
    (evalCell draws r c s).current_grid = s.current_grid := by
  rcases evalCell_cases draws r c s with h | ⟨v, h | h⟩ <;> rw [h] <;> rfl

theorem evalCell_next_other (draws : Nat → ℚ) (r c i j : Int) (s : Sim) (h : i ≠ r ∨ j ≠ c) :
    (evalCell draws r c s).next_grid i j = s.next_grid i j := by
  have h2 : ¬ (i = r ∧ j = c) := by tauto
  rcases evalCell_cases draws r c s with e | ⟨v, e | e⟩ <;> rw [e]
  · rw [store_next, if_neg h2]
  · rw [store_next, if_neg h2, advance_next]

theorem evalRowFrom_current (draws : Nat → ℚ) (lo hi r : Int) (s : Sim) :
    (evalRowFrom draws lo hi r s).current_grid = s.current_grid := by
  unfold evalRowFrom
  apply forTo_inv (fun t => t.current_grid = s.current_grid) _ lo hi s _ rfl
  intro j t _ _ ht
  simpa [evalCell_current] using ht

theorem evalRowFrom_next_other (draws : Nat → ℚ) (lo hi r i j : Int) (s : Sim)
    (h : i ≠ r ∨ j < lo ∨ hi < j) :
    (evalRowFrom draws lo hi r s).next_grid i j = s.next_grid i j := by
  unfold evalRowFrom
  apply forTo_inv (fun t => t.next_grid i j = s.next_grid i j) _ lo hi s _ rfl
  intro k t hk1 hk2 ht
  show (evalCell draws r k t).next_grid i j = s.next_grid i j
  rw [evalCell_next_other draws r k i j t (by omega), ht]

theorem evalRows_current (draws : Nat → ℚ) (COLUMNS lo hi : Int) (s : Sim) :
    (forTo lo hi (fun current_row s => evalRowFrom draws 1 COLUMNS current_row s) s).current_grid
      = s.current_grid := by
  apply forTo_inv (fun t => t.current_grid = s.current_grid) _ lo hi s _ rfl
  intro j t _ _ ht
  simpa [evalRowFrom_current] using ht

theorem evalRows_next_other (draws : Nat → ℚ) (COLUMNS lo hi i j : Int) (s : Sim)
    (h : i < lo ∨ hi < i ∨ j < 1 ∨ COLUMNS < j) :
    (forTo lo hi (fun current_row s => evalRowFrom draws 1 COLUMNS current_row s) s).next_grid i j
      = s.next_grid i j := by
  apply forTo_inv (fun t => t.next_grid i j = s.next_grid i j) _ lo hi s _ rfl
  intro k t hk1 hk2 ht
  show (evalRowFrom draws 1 COLUMNS k t).next_grid i j = s.next_grid i j
  rw [evalRowFrom_next_other draws 1 COLUMNS k i j t (by omega), ht]

/-- The evaluation loop never writes to `current_grid`. -/
theorem evalGrid_current (draws : Nat → ℚ) (ROWS COLUMNS : Int) (s : Sim) :
    (evalGrid draws ROWS COLUMNS s).current_grid = s.current_grid :=
  evalRows_current draws COLUMNS 1 ROWS s

theorem evalBefore_current (draws : Nat → ℚ) (COLUMNS r c : Int) (s : Sim) :
    (evalBefore draws COLUMNS r c s).current_grid = s.current_grid := by
  unfold evalBefore
  rw [evalRowFrom_current, evalRows_current]

/-- After the evaluation loop an interior cell of `next_grid` holds what its
own pass of the `switch` left there. -/
theorem evalGrid_next_at (draws : Nat → ℚ) (ROWS COLUMNS r c : Int) (s : Sim)
    (hr1 : 1 ≤ r) (hr2 : r ≤ ROWS) (hc1 : 1 ≤ c) (hc2 : c ≤ COLUMNS) :
    (evalGrid draws ROWS COLUMNS s).next_grid r c
      = (evalCell draws r c (evalBefore draws COLUMNS r c s)).next_grid r c := by
  unfold evalGrid
  apply forTo_at
    (fun t => t.next_grid r c = (evalCell draws r c (evalBefore draws COLUMNS r c s)).next_grid r c)
    _ 1 ROWS r s hr1 hr2
  · intro j t hj1 _ ht
    show (evalRowFrom draws 1 COLUMNS j t).next_grid r c = _
    rw [evalRowFrom_next_other draws 1 COLUMNS j r c t (by omega), ht]
  · show (evalRowFrom draws 1 COLUMNS r _).next_grid r c = _
    unfold evalRowFrom
    refine forTo_at
      (fun t : Sim => t.next_grid r c
        = (evalCell draws r c (evalBefore draws COLUMNS r c s)).next_grid r c)
      (fun current_column s => evalCell draws r current_column s) 1 COLUMNS c _ hc1 hc2 ?_ ?_
    · intro j t hj1 _ ht
      show (evalCell draws r j t).next_grid r c = _
      rw [evalCell_next_other draws r j r c t (by omega), ht]
    · rfl

/-- The evaluation loop passes through `evalBefore` on its way to the cell
`(r, c)`: it is the rest of the loop run on the state that the pass over
`(r, c)` leaves. -/
theorem evalGrid_through (draws : Nat → ℚ) (ROWS COLUMNS r c : Int) (s : Sim)
    (hr1 : 1 ≤ r) (hr2 : r ≤ ROWS) (hc1 : 1 ≤ c) (hc2 : c ≤ COLUMNS) :
    evalGrid draws ROWS COLUMNS s
      = forTo (r + 1) ROWS (fun current_row s => evalRowFrom draws 1 COLUMNS current_row s)
          (evalRowFrom draws (c + 1) COLUMNS r
            (evalCell draws r c (evalBefore draws COLUMNS r c s))) := by
  unfold evalGrid
  rw [forTo_split _ 1 ROWS r s hr1 hr2]
  congr 1
  show evalRowFrom draws 1 COLUMNS r _ = _
  unfold evalRowFrom evalBefore
  rw [forTo_split _ 1 COLUMNS c _ hc1 hc2]
  rfl

/-! ## copyGrid -/

theorem copyGrid_interior (ROWS COLUMNS r c : Int) (current_grid next_grid : Grid)
    (hr1 : 1 ≤ r) (hr2 : r ≤ ROWS) (hc1 : 1 ≤ c) (hc2 : c ≤ COLUMNS) :
    copyGrid ROWS COLUMNS current_grid next_grid r c = next_grid r c := by
  unfold copyGrid
  apply forTo_at (fun g : Grid => g r c = next_grid r c) _ 1 ROWS r current_grid hr1 hr2
  · intro j t hj1 _ ht
    apply forTo_inv (fun g : Grid => g r c = next_grid r c) _ 1 COLUMNS t _ ht
    intro k u _ _ hu
    have : ¬ (r = j ∧ c = k) := by omega
    simp [setCell, this, hu]
  · apply forTo_at (fun g : Grid => g r c = next_grid r c) _ 1 COLUMNS c _ hc1 hc2
    · intro k u hk1 _ hu
      have : c ≠ k := by omega
      simp [setCell, this, hu]
    · simp [setCell]

theorem copyStage_interior (ROWS COLUMNS r c : Int) (s : Sim)
    (hr1 : 1 ≤ r) (hr2 : r ≤ ROWS) (hc1 : 1 ≤ c) (hc2 : c ≤ COLUMNS) :
    (copyStage ROWS COLUMNS s).current_grid r c = s.next_grid r c :=
  copyGrid_interior ROWS COLUMNS r c s.current_grid s.next_grid hr1 hr2 hc1 hc2

/-- The evaluation loop followed by `copyGrid`, seen from one interior cell:
both `next_grid` after the loop and `current_grid` after the copy hold what the
cell's own pass of the `switch` stored. -/
theorem evalGrid_cell (draws : Nat → ℚ) (ROWS COLUMNS r c : Int) (s : Sim)
    (hr1 : 1 ≤ r) (hr2 : r ≤ ROWS) (hc1 : 1 ≤ c) (hc2 : c ≤ COLUMNS) :
    (evalGrid draws ROWS COLUMNS s).next_grid r c
        = (evalCell draws r c (evalBefore draws COLUMNS r c s)).next_grid r c ∧
    (copyStage ROWS COLUMNS (evalGrid draws ROWS COLUMNS s)).current_grid r c
        = (evalCell draws r c (evalBefore draws COLUMNS r c s)).next_grid r c := by
  have h := evalGrid_next_at draws ROWS COLUMNS r c s hr1 hr2 hc1 hc2
  refine ⟨h, ?_⟩
  rw [copyStage_interior ROWS COLUMNS r c _ hr1 hr2 hc1 hc2, h]

/-- Until its own pass, the evaluation loop leaves a cell of `next_grid`
alone. -/
theorem evalBefore_next_at (draws : Nat → ℚ) (COLUMNS r c : Int) (s : Sim) :
    (evalBefore draws COLUMNS r c s).next_grid r c = s.next_grid r c := by
  unfold evalBefore
  rw [evalRowFrom_next_other draws 1 (c - 1) r r c _ (by omega),
    evalRows_next_other draws COLUMNS 1 (r - 1) r c s (by omega)]

/-- An EMPTY interior cell with no YOUNG neighbour: the evaluation loop leaves
in `next_grid` whatever was there before the loop. -/
theorem evalGrid_empty_quiet (draws : Nat → ℚ) (ROWS COLUMNS r c : Int) (s : Sim)
    (hr1 : 1 ≤ r) (hr2 : r ≤ ROWS) (hc1 : 1 ≤ c) (hc2 : c ≤ COLUMNS)
    (hv : s.current_grid r c = EMPTY) (hy : ¬ hasYoungNeighbor s.current_grid r c) :
    (evalGrid draws ROWS COLUMNS s).next_grid r c = s.next_grid r c := by
  rw [(evalGrid_cell draws ROWS COLUMNS r c s hr1 hr2 hc1 hc2).1]
  have hb := evalBefore_current draws COLUMNS r c s
  rw [evalCell_empty_quiet draws r c _ (by rw [hb]; exact hv)
    (by rw [hb, check_neighbors_eq, if_neg hy]), evalBefore_next_at]

/-! ## Properties of one time step -/

/-- C1 (the code departs from it).  `staleSim` is a 1x1 run whose interior cell
is EMPTY and has no YOUNG neighbour after the border wrap, while `next_grid`
holds 5 (OLDER).  Line 263 compares instead of assigning, so the evaluation
loop leaves 5 in `next_grid[1][1]`, the copy brings it into `current_grid`, and
`mushrooms` with `TIME_STEPS = 0` returns with the cell OLDER, not EMPTY. -/
theorem empty_quiet_cell_keeps_stale_value :
    (wrapStage 1 1 staleSim).current_grid 1 1 = EMPTY ∧
    ¬ hasYoungNeighbor (wrapStage 1 1 staleSim).current_grid 1 1 ∧
    (evalGrid zeroDraws 1 1 (wrapStage 1 1 staleSim)).next_grid 1 1 = OLDER ∧
    (timeStep zeroDraws 1 1 staleSim).current_grid 1 1 = OLDER ∧
    (mushrooms zeroDraws 1 1 0 staleSim).map (fun t => t.current_grid 1 1) = some OLDER ∧
    OLDER ≠ EMPTY := by
  decide

/-- C2 (the code departs from it).  `staleSim` and `cleanSim` have the same
`current_grid` (one EMPTY interior cell, no YOUNG neighbour) and run on the
same draws; they differ only in `next_grid`.  The pass of the `switch` over the
cell stores nothing, so the two runs end with different cells: 5 and 0. -/
theorem replay_depends_on_next_buffer :
    staleSim.current_grid = cleanSim.current_grid ∧
    (evalCell zeroDraws 1 1 (wrapStage 1 1 staleSim)).next_grid 1 1 = 5 ∧
    (evalCell zeroDraws 1 1 (wrapStage 1 1 cleanSim)).next_grid 1 1 = 0 ∧
    (mushrooms zeroDraws 1 1 0 staleSim).map (fun t => t.current_grid 1 1) = some 5 ∧
    (mushrooms zeroDraws 1 1 0 cleanSim).map (fun t => t.current_grid 1 1) = some 0 ∧
    (mushrooms zeroDraws 1 1 0 staleSim).map (fun t => t.current_grid 1 1)
      ≠ (mushrooms zeroDraws 1 1 0 cleanSim).map (fun t => t.current_grid 1 1) := by
  refine ⟨rfl, ?_, ?_, ?_, ?_, ?_⟩ <;> decide

/-- C3.  An interior cell that is EMPTY in `current_grid` and has a YOUNG
neighbour takes one draw `d`, the draw at the position the engine has reached
when the loop arrives at the cell.  If `d ≤ 0.6` (the bound included) the cell
is YOUNG in `next_grid` after the evaluation loop and in `current_grid` after
the copy; if `d > 0.6` it is EMPTY. -/
theorem empty_cell_with_young_neighbor (draws : Nat → ℚ) (ROWS COLUMNS r c : Int) (s : Sim)
    (hr1 : 1 ≤ r) (hr2 : r ≤ ROWS) (hc1 : 1 ≤ c) (hc2 : c ≤ COLUMNS)
    (hv : s.current_grid r c = EMPTY) (hy : hasYoungNeighbor s.current_grid r c) :
    (evalCell draws r c (evalBefore draws COLUMNS r c s)).drawn
        = (evalBefore draws COLUMNS r c s).drawn + 1 ∧
    (draws (evalBefore draws COLUMNS r c s).drawn ≤ 0.6 →
      (evalGrid draws ROWS COLUMNS s).next_grid r c = YOUNG ∧
      (copyStage ROWS COLUMNS (evalGrid draws ROWS COLUMNS s)).current_grid r c = YOUNG) ∧
    (0.6 < draws (evalBefore draws COLUMNS r c s).drawn →
      (evalGrid draws ROWS COLUMNS s).next_grid r c = EMPTY ∧
      (copyStage ROWS COLUMNS (evalGrid draws ROWS COLUMNS s)).current_grid r c = EMPTY) := by
  obtain ⟨e1, e2⟩ := evalGrid_cell draws ROWS COLUMNS r c s hr1 hr2 hc1 hc2
  have hb := evalBefore_current draws COLUMNS r c s
  have e := evalCell_empty_spread draws r c (evalBefore draws COLUMNS r c s)
    (by rw [hb]; exact hv) (by rw [hb, check_neighbors_eq, if_pos hy]; decide)
  rw [e1, e2, e]
  refine ⟨?_, ?_, ?_⟩
  · split_ifs <;> rfl
  · intro hd
    have hd2 : draws (evalBefore draws COLUMNS r c s).drawn ≤ probSpread := hd
    rw [if_pos hd2]
    simp [store_next]
  · intro hd
    have hd2 : ¬ draws (evalBefore draws COLUMNS r c s).drawn ≤ probSpread := not_le.mpr hd
    rw [if_neg hd2]
    simp [store_next]

/-- C3 at a 1x2 interior with cell (1,1) EMPTY, cell (1,2) YOUNG and every
draw equal to 0.6: cell (1,1) becomes YOUNG. -/
theorem empty_cell_with_young_neighbor_witness :
    spreadSim.current_grid 1 1 = EMPTY ∧ hasYoungNeighbor spreadSim.current_grid 1 1 ∧
    (evalGrid (fun _ => 0.6) 1 2 spreadSim).next_grid 1 1 = YOUNG ∧
    (copyStage 1 2 (evalGrid (fun _ => 0.6) 1 2 spreadSim)).current_grid 1 1 = YOUNG :=
  ⟨by decide, by decide,
    (empty_cell_with_young_neighbor (fun _ => 0.6) 1 2 1 1 spreadSim (by decide) (by decide)
      (by decide) (by decide) (by decide) (by decide)).2.1 (le_refl _)⟩

/-- C4.  An interior cell that is SPORE in `current_grid` takes one draw `d`,
whatever its neighbours hold.  If `d ≤ 0.25` the cell is YOUNG in `next_grid`
after the evaluation loop and in `current_grid` after the copy; if `d > 0.25`
it is SPORE. -/
theorem spore_cell (draws : Nat → ℚ) (ROWS COLUMNS r c : Int) (s : Sim)
    (hr1 : 1 ≤ r) (hr2 : r ≤ ROWS) (hc1 : 1 ≤ c) (hc2 : c ≤ COLUMNS)
    (hv : s.current_grid r c = SPORE) :
    (evalCell draws r c (evalBefore draws COLUMNS r c s)).drawn
        = (evalBefore draws COLUMNS r c s).drawn + 1 ∧
    (draws (evalBefore draws COLUMNS r c s).drawn ≤ 0.25 →
      (evalGrid draws ROWS COLUMNS s).next_grid r c = YOUNG ∧
      (copyStage ROWS COLUMNS (evalGrid draws ROWS COLUMNS s)).current_grid r c = YOUNG) ∧
    (0.25 < draws (evalBefore draws COLUMNS r c s).drawn →
      (evalGrid draws ROWS COLUMNS s).next_grid r c = SPORE ∧
      (copyStage ROWS COLUMNS (evalGrid draws ROWS COLUMNS s)).current_grid r c = SPORE) := by
  obtain ⟨e1, e2⟩ := evalGrid_cell draws ROWS COLUMNS r c s hr1 hr2 hc1 hc2
  have hb := evalBefore_current draws COLUMNS r c s
  have e := evalCell_spore draws r c (evalBefore draws COLUMNS r c s) (by rw [hb]; exact hv)
  rw [e1, e2, e]
  refine ⟨?_, ?_, ?_⟩
  · split_ifs <;> rfl
  · intro hd
    have hd2 : draws (evalBefore draws COLUMNS r c s).drawn ≤ probSporeToYoung := hd
    rw [if_pos hd2]
    simp [store_next]
  · intro hd
    have hd2 : ¬ draws (evalBefore draws COLUMNS r c s).drawn ≤ probSporeToYoung :=
      not_le.mpr hd
    rw [if_neg hd2]
    simp [store_next]

/-- C4 at ROWS = 1, COLUMNS = 1, the cell SPORE and the draw 0: the cell
becomes YOUNG, also through the whole time step. -/
theorem spore_cell_witness :
    (wrapStage 1 1 (singleSim SPORE)).current_grid 1 1 = SPORE ∧
    (evalGrid zeroDraws 1 1 (wrapStage 1 1 (singleSim SPORE))).next_grid 1 1 = YOUNG ∧
    (timeStep zeroDraws 1 1 (singleSim SPORE)).current_grid 1 1 = YOUNG :=
  ⟨by decide,
    (spore_cell zeroDraws 1 1 1 1 (wrapStage 1 1 (singleSim SPORE)) (by decide) (by decide)
      (by decide) (by decide) (by decide)).2.1 (by norm_num [zeroDraws])⟩

/-- C5.  An interior cell that is MATURING in `current_grid` takes one draw
`d`, whatever its neighbours hold.  If `d ≤ 0.7` the cell is MUSHROOMS in
`next_grid` after the evaluation loop and in `current_grid` after the copy; if
`d > 0.7` it is OLDER.  So it is one of the two, and never MATURING. -/
theorem maturing_cell (draws : Nat → ℚ) (ROWS COLUMNS r c : Int) (s : Sim)
    (hr1 : 1 ≤ r) (hr2 : r ≤ ROWS) (hc1 : 1 ≤ c) (hc2 : c ≤ COLUMNS)
    (hv : s.current_grid r c = MATURING) :
    (evalCell draws r c (evalBefore draws COLUMNS r c s)).drawn
        = (evalBefore draws COLUMNS r c s).drawn + 1 ∧
    (draws (evalBefore draws COLUMNS r c s).drawn ≤ 0.7 →
      (evalGrid draws ROWS COLUMNS s).next_grid r c = MUSHROOMS ∧
      (copyStage ROWS COLUMNS (evalGrid draws ROWS COLUMNS s)).current_grid r c = MUSHROOMS) ∧
    (0.7 < draws (evalBefore draws COLUMNS r c s).drawn →
      (evalGrid draws ROWS COLUMNS s).next_grid r c = OLDER ∧
      (copyStage ROWS COLUMNS (evalGrid draws ROWS COLUMNS s)).current_grid r c = OLDER) ∧
    ((evalGrid draws ROWS COLUMNS s).next_grid r c = MUSHROOMS ∨
      (evalGrid draws ROWS COLUMNS s).next_grid r c = OLDER) ∧
    (evalGrid draws ROWS COLUMNS s).next_grid r c ≠ MATURING := by
  obtain ⟨e1, e2⟩ := evalGrid_cell draws ROWS COLUMNS r c s hr1 hr2 hc1 hc2
  have hb := evalBefore_current draws COLUMNS r c s
  have e := evalCell_maturing draws r c (evalBefore draws COLUMNS r c s) (by rw [hb]; exact hv)
  rw [e1, e2, e]
  refine ⟨?_, ?_, ?_, ?_, ?_⟩
  · split_ifs <;> rfl
  · intro hd
    have hd2 : draws (evalBefore draws COLUMNS r c s).drawn ≤ probMaturingToMushrooms := hd
    rw [if_pos hd2]
    simp [store_next]
  · intro hd
    have hd2 : ¬ draws (evalBefore draws COLUMNS r c s).drawn ≤ probMaturingToMushrooms :=
      not_le.mpr hd
    rw [if_neg hd2]
    simp [store_next]
  · split_ifs <;> simp [store_next]
  · split_ifs <;> simp [store_next] <;> decide

/-- C5 at a 1x1 interior, the cell MATURING and the draw 0: the cell becomes
MUSHROOMS. -/
theorem maturing_cell_witness :
    (singleSim MATURING).current_grid 1 1 = MATURING ∧
    (evalGrid zeroDraws 1 1 (singleSim MATURING)).next_grid 1 1 = MUSHROOMS ∧
    (copyStage 1 1 (evalGrid zeroDraws 1 1 (singleSim MATURING))).current_grid 1 1 = MUSHROOMS :=
  ⟨by decide,
    (maturing_cell zeroDraws 1 1 1 1 (singleSim MATURING) (by decide) (by decide)
      (by decide) (by decide) (by decide)).2.1 (by norm_num [zeroDraws])⟩

/-- C6.  An interior cell that is DEPLETED in `current_grid` takes exactly one
draw `d`, and both comparisons use it.  With 0.0001 the constant
`probDepletedToSpore` of the source, a `double`: if `d ≤ 0.0001` (the constant
itself included) the cell is SPORE in `next_grid` after the evaluation loop and
in `current_grid` after the copy; if `0.0001 < d ≤ 0.5` it is EMPTY; if
`d > 0.5` it is DEPLETED. -/
theorem depleted_cell (draws : Nat → ℚ) (ROWS COLUMNS r c : Int) (s : Sim)
    (hr1 : 1 ≤ r) (hr2 : r ≤ ROWS) (hc1 : 1 ≤ c) (hc2 : c ≤ COLUMNS)
    (hv : s.current_grid r c = DEPLETED) :
    (evalCell draws r c (evalBefore draws COLUMNS r c s)).drawn
        = (evalBefore draws COLUMNS r c s).drawn + 1 ∧
    (draws (evalBefore draws COLUMNS r c s).drawn ≤ probDepletedToSpore →
      (evalGrid draws ROWS COLUMNS s).next_grid r c = SPORE ∧
      (copyStage ROWS COLUMNS (evalGrid draws ROWS COLUMNS s)).current_grid r c = SPORE) ∧
    (probDepletedToSpore < draws (evalBefore draws COLUMNS r c s).drawn →
      draws (evalBefore draws COLUMNS r c s).drawn ≤ 0.5 →
      (evalGrid draws ROWS COLUMNS s).next_grid r c = EMPTY ∧
      (copyStage ROWS COLUMNS (evalGrid draws ROWS COLUMNS s)).current_grid r c = EMPTY) ∧
    (0.5 < draws (evalBefore draws COLUMNS r c s).drawn →
      (evalGrid draws ROWS COLUMNS s).next_grid r c = DEPLETED ∧
      (copyStage ROWS COLUMNS (evalGrid draws ROWS COLUMNS s)).current_grid r c = DEPLETED) := by
  obtain ⟨e1, e2⟩ := evalGrid_cell draws ROWS COLUMNS r c s hr1 hr2 hc1 hc2
  have hb := evalBefore_current draws COLUMNS r c s
  have e := evalCell_depleted draws r c (evalBefore draws COLUMNS r c s) (by rw [hb]; exact hv)
  rw [e1, e2, e]
  refine ⟨?_, ?_, ?_, ?_⟩
  · split_ifs <;> rfl
  · intro hd
    have hd2 : draws (evalBefore draws COLUMNS r c s).drawn ≤ probDepletedToSpore := hd
    rw [if_pos hd2]
    simp [store_next]
  · intro hd hd'
    have hd2 : ¬ draws (evalBefore draws COLUMNS r c s).drawn ≤ probDepletedToSpore :=
      not_le.mpr hd
    have hd3 : draws (evalBefore draws COLUMNS r c s).drawn ≤ probDepletedToEmpty := hd'
    rw [if_neg hd2, if_pos hd3]
    simp [store_next]
  · intro hd
    have hd3 : ¬ draws (evalBefore draws COLUMNS r c s).drawn ≤ probDepletedToEmpty :=
      not_le.mpr hd
    have hd2 : ¬ draws (evalBefore draws COLUMNS r c s).drawn ≤ probDepletedToSpore := by
      intro h
      apply hd3
      apply le_trans h
      norm_num [probDepletedToSpore, probDepletedToEmpty]
    rw [if_neg hd2, if_neg hd3]
    simp [store_next]

/-- C6 at a 1x1 interior, the cell DEPLETED: with the draw 0.0002 the cell
becomes EMPTY; with the draw equal to the constant 0.0001 of the source, the
`double` 7378697629483821 / 2^66, it becomes SPORE. -/
theorem depleted_cell_witness :
    (singleSim DEPLETED).current_grid 1 1 = DEPLETED ∧
    ((evalGrid (fun _ => 0.0002) 1 1 (singleSim DEPLETED)).next_grid 1 1 = EMPTY ∧
      (copyStage 1 1 (evalGrid (fun _ => 0.0002) 1 1 (singleSim DEPLETED))).current_grid 1 1
        = EMPTY) ∧
    (evalGrid (fun _ => 7378697629483821 / 73786976294838206464) 1 1
      (singleSim DEPLETED)).next_grid 1 1 = SPORE :=
  ⟨by decide,
    (depleted_cell (fun _ => 0.0002) 1 1 1 1 (singleSim DEPLETED) (by decide) (by decide)
      (by decide) (by decide) (by decide)).2.2.1 (by norm_num [probDepletedToSpore])
      (by norm_num),
    ((depleted_cell (fun _ => 7378697629483821 / 73786976294838206464) 1 1 1 1
      (singleSim DEPLETED) (by decide) (by decide) (by decide) (by decide) (by decide)).2.1
      (by norm_num [probDepletedToSpore])).1⟩

/-- C7.  For an interior cell, whatever its neighbours and the draws: YOUNG
becomes MATURING, MUSHROOMS becomes DECAYING, OLDER becomes DECAYING, DECAYING
becomes DEAD, DEAD becomes DEADER, DEADER becomes DEPLETED and INERT stays
INERT, in `next_grid` after the evaluation loop and in `current_grid` after the
copy; the cell's pass takes no draw. -/
theorem deterministic_cells (draws : Nat → ℚ) (ROWS COLUMNS r c : Int) (s : Sim)
    (hr1 : 1 ≤ r) (hr2 : r ≤ ROWS) (hc1 : 1 ≤ c) (hc2 : c ≤ COLUMNS) :
    (s.current_grid r c = YOUNG →
      (evalGrid draws ROWS COLUMNS s).next_grid r c = MATURING ∧
      (copyStage ROWS COLUMNS (evalGrid draws ROWS COLUMNS s)).current_grid r c = MATURING ∧
      (evalCell draws r c (evalBefore draws COLUMNS r c s)).drawn
        = (evalBefore draws COLUMNS r c s).drawn) ∧
    (s.current_grid r c = MUSHROOMS →
      (evalGrid draws ROWS COLUMNS s).next_grid r c = DECAYING ∧
      (copyStage ROWS COLUMNS (evalGrid draws ROWS COLUMNS s)).current_grid r c = DECAYING ∧
      (evalCell draws r c (evalBefore draws COLUMNS r c s)).drawn
        = (evalBefore draws COLUMNS r c s).drawn) ∧
    (s.current_grid r c = OLDER →
      (evalGrid draws ROWS COLUMNS s).next_grid r c = DECAYING ∧
      (copyStage ROWS COLUMNS (evalGrid draws ROWS COLUMNS s)).current_grid r c = DECAYING ∧
      (evalCell draws r c (evalBefore draws COLUMNS r c s)).drawn
        = (evalBefore draws COLUMNS r c s).drawn) ∧
    (s.current_grid r c = DECAYING →
      (evalGrid draws ROWS COLUMNS s).next_grid r c = DEAD ∧
      (copyStage ROWS COLUMNS (evalGrid draws ROWS COLUMNS s)).current_grid r c = DEAD ∧
      (evalCell draws r c (evalBefore draws COLUMNS r c s)).drawn
        = (evalBefore draws COLUMNS r c s).drawn) ∧
    (s.current_grid r c = DEAD →
      (evalGrid draws ROWS COLUMNS s).next_grid r c = DEADER ∧
      (copyStage ROWS COLUMNS (evalGrid draws ROWS COLUMNS s)).current_grid r c = DEADER ∧
      (evalCell draws r c (evalBefore draws COLUMNS r c s)).drawn
        = (evalBefore draws COLUMNS r c s).drawn) ∧
    (s.current_grid r c = DEADER →
      (evalGrid draws ROWS COLUMNS s).next_grid r c = DEPLETED ∧
      (copyStage ROWS COLUMNS (evalGrid draws ROWS COLUMNS s)).current_grid r c = DEPLETED ∧
      (evalCell draws r c (evalBefore draws COLUMNS r c s)).drawn
        = (evalBefore draws COLUMNS r c s).drawn) ∧
    (s.current_grid r c = INERT →
      (evalGrid draws ROWS COLUMNS s).next_grid r c = INERT ∧
      (copyStage ROWS COLUMNS (evalGrid draws ROWS COLUMNS s)).current_grid r c = INERT ∧
      (evalCell draws r c (evalBefore draws COLUMNS r c s)).drawn
        = (evalBefore draws COLUMNS r c s).drawn) := by
  obtain ⟨e1, e2⟩ := evalGrid_cell draws ROWS COLUMNS r c s hr1 hr2 hc1 hc2
  have hb := evalBefore_current draws COLUMNS r c s
  rw [e1, e2]
  refine ⟨?_, ?_, ?_, ?_, ?_, ?_, ?_⟩
  · intro hv
    rw [evalCell_young draws r c (evalBefore draws COLUMNS r c s) (by rw [hb]; exact hv)]
    simp [store_next, store_drawn]
  · intro hv
    rw [evalCell_mushrooms draws r c (evalBefore draws COLUMNS r c s) (by rw [hb]; exact hv)]
    simp [store_next, store_drawn]
  · intro hv
    rw [evalCell_older draws r c (evalBefore draws COLUMNS r c s) (by rw [hb]; exact hv)]
    simp [store_next, store_drawn]
  · intro hv
    rw [evalCell_decaying draws r c (evalBefore draws COLUMNS r c s) (by rw [hb]; exact hv)]
    simp [store_next, store_drawn]
  · intro hv
    rw [evalCell_dead draws r c (evalBefore draws COLUMNS r c s) (by rw [hb]; exact hv)]
    simp [store_next, store_drawn]
  · intro hv
    rw [evalCell_deader draws r c (evalBefore draws COLUMNS r c s) (by rw [hb]; exact hv)]
    simp [store_next, store_drawn]
  · intro hv
    rw [evalCell_inert draws r c (evalBefore draws COLUMNS r c s) (by rw [hb]; exact hv)]
    simp [store_next, store_drawn]

/-- C7 at a 1x1 interior whose cell is DEADER: it becomes DEPLETED. -/
theorem deterministic_cells_witness :
    (singleSim DEADER).current_grid 1 1 = DEADER ∧
    (evalGrid zeroDraws 1 1 (singleSim DEADER)).next_grid 1 1 = DEPLETED ∧
    (copyStage 1 1 (evalGrid zeroDraws 1 1 (singleSim DEADER))).current_grid 1 1 = DEPLETED :=
  ⟨by decide,
    ((deterministic_cells zeroDraws 1 1 1 1 (singleSim DEADER) (by decide) (by decide)
      (by decide) (by decide)).2.2.2.2.2.1 (by decide)).1,
    ((deterministic_cells zeroDraws 1 1 1 1 (singleSim DEADER) (by decide) (by decide)
      (by decide) (by decide)).2.2.2.2.2.1 (by decide)).2.1⟩

/-- C8.  The number of draws one pass of the `switch` takes: exactly one when
the cell is SPORE, MATURING or DEPLETED, exactly one when it is EMPTY with a
YOUNG neighbour, and none when it is EMPTY without a YOUNG neighbour or is
YOUNG, MUSHROOMS, OLDER, DECAYING, DEAD, DEADER or INERT. -/
theorem draws_per_cell (draws : Nat → ℚ) (r c : Int) (s : Sim) :
    (s.current_grid r c = SPORE ∨ s.current_grid r c = MATURING ∨
        s.current_grid r c = DEPLETED →
      (evalCell draws r c s).drawn = s.drawn + 1) ∧
    (s.current_grid r c = EMPTY → hasYoungNeighbor s.current_grid r c →
      (evalCell draws r c s).drawn = s.drawn + 1) ∧
    (s.current_grid r c = EMPTY → ¬ hasYoungNeighbor s.current_grid r c →
      (evalCell draws r c s).drawn = s.drawn) ∧
    (s.current_grid r c = YOUNG ∨ s.current_grid r c = MUSHROOMS ∨
        s.current_grid r c = OLDER ∨ s.current_grid r c = DECAYING ∨
        s.current_grid r c = DEAD ∨ s.current_grid r c = DEADER ∨
        s.current_grid r c = INERT →
      (evalCell draws r c s).drawn = s.drawn) := by
  refine ⟨?_, ?_, ?_, ?_⟩
  · rintro (h | h | h)
    · rw [evalCell_spore draws r c s h]
      split_ifs <;> rfl
    · rw [evalCell_maturing draws r c s h]
      split_ifs <;> rfl
    · rw [evalCell_depleted draws r c s h]
      split_ifs <;> rfl
  · intro h hy
    rw [evalCell_empty_spread draws r c s h (by rw [check_neighbors_eq, if_pos hy]; decide)]
    split_ifs <;> rfl
  · intro h hy
    rw [evalCell_empty_quiet draws r c s h (by rw [check_neighbors_eq, if_neg hy])]
  · rintro (h | h | h | h | h | h | h)
    · rw [evalCell_young draws r c s h]; rfl
    · rw [evalCell_mushrooms draws r c s h]; rfl
    · rw [evalCell_older draws r c s h]; rfl
    · rw [evalCell_decaying draws r c s h]; rfl
    · rw [evalCell_dead draws r c s h]; rfl
    · rw [evalCell_deader draws r c s h]; rfl
    · rw [evalCell_inert draws r c s h]; rfl

/-- C8 at the 1x2 interior `spreadSim`: the pass over the EMPTY cell (1,1),
which has the YOUNG neighbour (1,2), takes one draw, and the pass over the
YOUNG cell (1,2) takes none. -/
theorem draws_per_cell_witness :
    (evalCell zeroDraws 1 1 spreadSim).drawn = spreadSim.drawn + 1 ∧
    (evalCell zeroDraws 1 2 spreadSim).drawn = spreadSim.drawn :=
  ⟨(draws_per_cell zeroDraws 1 1 spreadSim).2.1 (by decide) (by decide),
    (draws_per_cell zeroDraws 1 2 spreadSim).2.2.2 (Or.inl (by decide))⟩

/-! ## The border wrap -/

/-- A loop over grids in which the pass `k` writes only the cells whose key is
`k`, and what it writes there depends only on the cells with key `k`: each cell
ends with what the pass of its own key makes of the initial grid. -/
theorem forTo_keyed (body : Int → Grid → Grid) (key : Int → Int → Int) (lo hi : Int) (g : Grid)
    (hloc : ∀ k t i j, key i j ≠ k → body k t i j = t i j)
    (hdep : ∀ k t u, (∀ i j, key i j = k → t i j = u i j) →
      ∀ i j, key i j = k → body k t i j = body k u i j)
    (i j : Int) :
    forTo lo hi body g i j
      = if lo ≤ key i j ∧ key i j ≤ hi then body (key i j) g i j else g i j := by
  by_cases h : lo ≤ key i j ∧ key i j ≤ hi
  · rw [if_pos h]
    refine forTo_at (fun t : Grid => t i j = body (key i j) g i j) body lo hi (key i j) g
      h.1 h.2 ?_ ?_
    · intro k t hk _ ht
      show body k t i j = _
      rw [hloc k t i j (by omega), ht]
    · show body (key i j) (forTo lo (key i j - 1) body g) i j = body (key i j) g i j
      apply hdep _ _ _ _ i j rfl
      intro a b hab
      apply forTo_inv (fun t : Grid => t a b = g a b) body lo (key i j - 1) g _ rfl
      intro k t _ hk2 ht
      show body k t a b = g a b
      rw [hloc k t a b (by omega), ht]
  · rw [if_neg h]
    apply forTo_inv (fun t : Grid => t i j = g i j) body lo hi g _ rfl
    intro k t hk1 hk2 ht
    show body k t i j = g i j
    rw [hloc k t i j (by omega), ht]

theorem ghostRows_apply (ROWS COLUMNS : Int) (g : Grid) (i j : Int) :
    ghostRows ROWS COLUMNS g i j
      = if 0 ≤ j ∧ j ≤ COLUMNS + 1 then ghostRowsBody ROWS j g i j else g i j := by
  unfold ghostRows
  apply forTo_keyed (fun current_column g => ghostRowsBody ROWS current_column g)
    (fun _ b => b) 0 (COLUMNS + 1) g
  · intro k t a b hb
    have hb2 : ¬ b = k := hb
    simp [ghostRowsBody, setCell, hb2]
  · intro k t u h a b hb
    simp only [ghostRowsBody, setCell]
    rw [h a b hb, h 1 k rfl, h ROWS k rfl]

theorem ghostColumns_apply (ROWS COLUMNS : Int) (g : Grid) (i j : Int) :
    ghostColumns ROWS COLUMNS g i j
      = if 0 ≤ i ∧ i ≤ ROWS + 1 then ghostColumnsBody COLUMNS i g i j else g i j := by
  unfold ghostColumns
  apply forTo_keyed (fun current_row g => ghostColumnsBody COLUMNS current_row g)
    (fun a _ => a) 0 (ROWS + 1) g
  · intro k t a b ha
    have ha2 : ¬ a = k := ha
    simp [ghostColumnsBody, setCell, ha2]
  · intro k t u h a b ha
    simp only [ghostColumnsBody, setCell]
    rw [h a b ha, h k 1 rfl, h k COLUMNS rfl]

/-- The ghost-row loop writes only the rows 0 and ROWS + 1. -/
theorem ghostRows_other (ROWS COLUMNS : Int) (g : Grid) (i j : Int)
    (h0 : i ≠ 0) (h1 : i ≠ ROWS + 1) :
    ghostRows ROWS COLUMNS g i j = g i j := by
  rw [ghostRows_apply]
  split_ifs
  · simp [ghostRowsBody, setCell, h0, h1]
  · rfl

/-- The ghost rows after the ghost-row loop, when there is at least one
interior row. -/
theorem ghostRows_border (ROWS COLUMNS : Int) (g : Grid) (j : Int) (hR : 1 ≤ ROWS)
    (h0 : 0 ≤ j) (h1 : j ≤ COLUMNS + 1) :
    ghostRows ROWS COLUMNS g 0 j = g ROWS j ∧ ghostRows ROWS COLUMNS g (ROWS + 1) j = g 1 j := by
  have e1 : ¬ (0 : Int) = ROWS + 1 := by omega
  have e2 : ¬ (1 : Int) = 0 := by omega
  rw [ghostRows_apply, ghostRows_apply, if_pos ⟨h0, h1⟩, if_pos ⟨h0, h1⟩]
  simp [ghostRowsBody, setCell, e1, e2]

/-- The ghost-column loop writes only the columns 0 and COLUMNS + 1. -/
theorem ghostColumns_other (ROWS COLUMNS : Int) (g : Grid) (i j : Int)
    (h0 : j ≠ 0) (h1 : j ≠ COLUMNS + 1) :
    ghostColumns ROWS COLUMNS g i j = g i j := by
  rw [ghostColumns_apply]
  split_ifs
  · simp [ghostColumnsBody, setCell, h0, h1]
  · rfl

/-- The ghost columns after the ghost-column loop, when there is at least one
interior column. -/
theorem ghostColumns_border (ROWS COLUMNS : Int) (g : Grid) (i : Int) (hC : 1 ≤ COLUMNS)
    (h0 : 0 ≤ i) (h1 : i ≤ ROWS + 1) :
    ghostColumns ROWS COLUMNS g i 0 = g i COLUMNS ∧
    ghostColumns ROWS COLUMNS g i (COLUMNS + 1) = g i 1 := by
  have e1 : ¬ (0 : Int) = COLUMNS + 1 := by omega
  have e2 : ¬ (1 : Int) = 0 := by omega
  rw [ghostColumns_apply, ghostColumns_apply, if_pos ⟨h0, h1⟩, if_pos ⟨h0, h1⟩]
  simp [ghostColumnsBody, setCell, e1, e2]

/-- C9.  For ROWS ≥ 1 and COLUMNS ≥ 1 and any memory `s`, border included, the
grid left by the ghost-row and ghost-column loops (the start of every time
step, the first one too) has row 0 equal to row ROWS and row ROWS + 1 equal to
row 1 on the columns 0..COLUMNS+1, and column 0 equal to column COLUMNS and
column COLUMNS + 1 equal to column 1 on the rows 0..ROWS+1.  The four corners
hold the diagonally opposite interior corners, as they were before the wrap. -/
theorem wrap_mirrors_border (ROWS COLUMNS : Int) (s : Sim) (hR : 1 ≤ ROWS) (hC : 1 ≤ COLUMNS) :
    (∀ c, 0 ≤ c → c ≤ COLUMNS + 1 →
      (wrapStage ROWS COLUMNS s).current_grid 0 c = (wrapStage ROWS COLUMNS s).current_grid ROWS c ∧
      (wrapStage ROWS COLUMNS s).current_grid (ROWS + 1) c
        = (wrapStage ROWS COLUMNS s).current_grid 1 c) ∧
    (∀ r, 0 ≤ r → r ≤ ROWS + 1 →
      (wrapStage ROWS COLUMNS s).current_grid r 0 = (wrapStage ROWS COLUMNS s).current_grid r COLUMNS ∧
      (wrapStage ROWS COLUMNS s).current_grid r (COLUMNS + 1)
        = (wrapStage ROWS COLUMNS s).current_grid r 1) ∧
    ((wrapStage ROWS COLUMNS s).current_grid 0 0 = s.current_grid ROWS COLUMNS ∧
      (wrapStage ROWS COLUMNS s).current_grid 0 (COLUMNS + 1) = s.current_grid ROWS 1 ∧
      (wrapStage ROWS COLUMNS s).current_grid (ROWS + 1) 0 = s.current_grid 1 COLUMNS ∧
      (wrapStage ROWS COLUMNS s).current_grid (ROWS + 1) (COLUMNS + 1) = s.current_grid 1 1) := by
  show (∀ c, 0 ≤ c → c ≤ COLUMNS + 1 →
      ghostColumns ROWS COLUMNS (ghostRows ROWS COLUMNS s.current_grid) 0 c
        = ghostColumns ROWS COLUMNS (ghostRows ROWS COLUMNS s.current_grid) ROWS c ∧
      ghostColumns ROWS COLUMNS (ghostRows ROWS COLUMNS s.current_grid) (ROWS + 1) c
        = ghostColumns ROWS COLUMNS (ghostRows ROWS COLUMNS s.current_grid) 1 c) ∧
    (∀ r, 0 ≤ r → r ≤ ROWS + 1 →
      ghostColumns ROWS COLUMNS (ghostRows ROWS COLUMNS s.current_grid) r 0
        = ghostColumns ROWS COLUMNS (ghostRows ROWS COLUMNS s.current_grid) r COLUMNS ∧
      ghostColumns ROWS COLUMNS (ghostRows ROWS COLUMNS s.current_grid) r (COLUMNS + 1)
        = ghostColumns ROWS COLUMNS (ghostRows ROWS COLUMNS s.current_grid) r 1) ∧
    (ghostColumns ROWS COLUMNS (ghostRows ROWS COLUMNS s.current_grid) 0 0
        = s.current_grid ROWS COLUMNS ∧
      ghostColumns ROWS COLUMNS (ghostRows ROWS COLUMNS s.current_grid) 0 (COLUMNS + 1)
        = s.current_grid ROWS 1 ∧
      ghostColumns ROWS COLUMNS (ghostRows ROWS COLUMNS s.current_grid) (ROWS + 1) 0
        = s.current_grid 1 COLUMNS ∧
      ghostColumns ROWS COLUMNS (ghostRows ROWS COLUMNS s.current_grid) (ROWS + 1) (COLUMNS + 1)
        = s.current_grid 1 1)
  generalize s.current_grid = g
  have hcol : ∀ i, 0 ≤ i → i ≤ ROWS + 1 →
      ghostColumns ROWS COLUMNS (ghostRows ROWS COLUMNS g) i 0
        = ghostRows ROWS COLUMNS g i COLUMNS ∧
      ghostColumns ROWS COLUMNS (ghostRows ROWS COLUMNS g) i (COLUMNS + 1)
        = ghostRows ROWS COLUMNS g i 1 :=
    fun i h0 h1 => ghostColumns_border ROWS COLUMNS _ i hC h0 h1
  have hin : ∀ i j, 1 ≤ j → j ≤ COLUMNS →
      ghostColumns ROWS COLUMNS (ghostRows ROWS COLUMNS g) i j = ghostRows ROWS COLUMNS g i j :=
    fun i j h0 h1 => ghostColumns_other ROWS COLUMNS _ i j (by omega) (by omega)
  have hrow : ∀ j, 0 ≤ j → j ≤ COLUMNS + 1 →
      ghostRows ROWS COLUMNS g 0 j = g ROWS j ∧ ghostRows ROWS COLUMNS g (ROWS + 1) j = g 1 j :=
    fun j h0 h1 => ghostRows_border ROWS COLUMNS g j hR h0 h1
  have hmid : ∀ i j, 1 ≤ i → i ≤ ROWS → ghostRows ROWS COLUMNS g i j = g i j :=
    fun i j h0 h1 => ghostRows_other ROWS COLUMNS g i j (by omega) (by omega)
  refine ⟨?_, ?_, ?_⟩
  · intro c h0 h1
    rcases (by omega : c = 0 ∨ c = COLUMNS + 1 ∨ (1 ≤ c ∧ c ≤ COLUMNS)) with rfl | rfl | ⟨h2, h3⟩
    · rw [(hcol 0 (by omega) (by omega)).1, (hcol ROWS (by omega) (by omega)).1,
        (hcol (ROWS + 1) (by omega) (by omega)).1, (hcol 1 (by omega) (by omega)).1,
        (hrow COLUMNS (by omega) (by omega)).1, (hrow COLUMNS (by omega) (by omega)).2,
        hmid ROWS COLUMNS hR (le_refl _), hmid 1 COLUMNS (le_refl _) hR]
      exact ⟨rfl, rfl⟩
    · rw [(hcol 0 (by omega) (by omega)).2, (hcol ROWS (by omega) (by omega)).2,
        (hcol (ROWS + 1) (by omega) (by omega)).2, (hcol 1 (by omega) (by omega)).2,
        (hrow 1 (by omega) (by omega)).1, (hrow 1 (by omega) (by omega)).2,
        hmid ROWS 1 hR (le_refl _), hmid 1 1 (le_refl _) hR]
      exact ⟨rfl, rfl⟩
    · rw [hin 0 c h2 h3, hin ROWS c h2 h3, hin (ROWS + 1) c h2 h3, hin 1 c h2 h3,
        (hrow c h0 h1).1, (hrow c h0 h1).2, hmid ROWS c hR (le_refl _),
        hmid 1 c (le_refl _) hR]
      exact ⟨rfl, rfl⟩
  · intro r h0 h1
    rw [(hcol r h0 h1).1, (hcol r h0 h1).2, hin r COLUMNS hC (le_refl _),
      hin r 1 (le_refl _) hC]
    exact ⟨rfl, rfl⟩
  · rw [(hcol 0 (by omega) (by omega)).1, (hcol 0 (by omega) (by omega)).2,
      (hcol (ROWS + 1) (by omega) (by omega)).1, (hcol (ROWS + 1) (by omega) (by omega)).2,
      (hrow COLUMNS (by omega) (by omega)).1, (hrow COLUMNS (by omega) (by omega)).2,
      (hrow 1 (by omega) (by omega)).1, (hrow 1 (by omega) (by omega)).2]
    exact ⟨rfl, rfl, rfl, rfl⟩

/-- C9 at ROWS = COLUMNS = 1 with the interior cell YOUNG: after the wrap the
corner (0,0) holds the interior cell, and row 0 equals row 1 at column 2. -/
theorem wrap_mirrors_border_witness :
    (wrapStage 1 1 (singleSim YOUNG)).current_grid 0 0 = (singleSim YOUNG).current_grid 1 1 ∧
    (wrapStage 1 1 (singleSim YOUNG)).current_grid 0 2
      = (wrapStage 1 1 (singleSim YOUNG)).current_grid 1 2 :=
  ⟨(wrap_mirrors_border 1 1 (singleSim YOUNG) (by decide) (by decide)).2.2.1,
    ((wrap_mirrors_border 1 1 (singleSim YOUNG) (by decide) (by decide)).1 2
      (by decide) (by decide)).1⟩

/-! ## check_neighbors in terms of the eight offsets -/

theorem hasYoungNeighbor_iff (g : Grid) (r c : Int) :
    hasYoungNeighbor g r c ↔
      ∃ dr dc : Int, (dr = -1 ∨ dr = 0 ∨ dr = 1) ∧ (dc = -1 ∨ dc = 0 ∨ dc = 1) ∧
        (dr ≠ 0 ∨ dc ≠ 0) ∧ g (r + dr) (c + dc) = YOUNG := by
  constructor
  · rintro ⟨⟨a, b⟩, hmem, h⟩
    simp only [neighborOffsets, List.mem_cons, Prod.mk.injEq, List.mem_singleton,
      List.mem_nil_iff, or_false] at hmem
    rcases hmem with e | e | e | e | e | e | e | e <;> obtain ⟨rfl, rfl⟩ := e <;>
    exact ⟨_, _, by decide, by decide, by decide, h⟩
  · rintro ⟨dr, dc, hdr, hdc, hne, h⟩
    refine ⟨(dr, dc), ?_, h⟩
    rcases hdr with rfl | rfl | rfl <;> rcases hdc with rfl | rfl | rfl <;>
    first
      | exact absurd hne (by decide)
      | decide

theorem hasYoungNeighbor_setCell (g : Grid) (r c v : Int) :
    hasYoungNeighbor (setCell g r c v) r c ↔ hasYoungNeighbor g r c := by
  rw [hasYoungNeighbor_iff, hasYoungNeighbor_iff]
  have e : ∀ dr dc : Int, (dr ≠ 0 ∨ dc ≠ 0) →
      setCell g r c v (r + dr) (c + dc) = g (r + dr) (c + dc) := by
    intro dr dc hne
    have hc : ¬ (r + dr = r ∧ c + dc = c) := by omega
    exact if_neg hc
  constructor
  · rintro ⟨dr, dc, hdr, hdc, hne, h⟩
    exact ⟨dr, dc, hdr, hdc, hne, by rw [← e dr dc hne]; exact h⟩
  · rintro ⟨dr, dc, hdr, hdc, hne, h⟩
    exact ⟨dr, dc, hdr, hdc, hne, by rw [e dr dc hne]; exact h⟩

/-- C10.  For every grid and every cell `(r, c)` (the interior cells among
them), `check_neighbors` returns 1 exactly when one of the eight cells
`(r + dr, c + dc)` with `dr, dc ∈ {-1, 0, 1}`, `(dr, dc) ≠ (0, 0)`, is YOUNG,
and 0 exactly when none is.  The value of the centre cell does not change the
result, and the result is 0 or 1. -/
theorem check_neighbors_spec (g : Grid) (r c : Int) :
    (check_neighbors g r c = 1 ↔
      ∃ dr dc : Int, (dr = -1 ∨ dr = 0 ∨ dr = 1) ∧ (dc = -1 ∨ dc = 0 ∨ dc = 1) ∧
        (dr ≠ 0 ∨ dc ≠ 0) ∧ g (r + dr) (c + dc) = YOUNG) ∧
    (check_neighbors g r c = 0 ↔
      ¬ ∃ dr dc : Int, (dr = -1 ∨ dr = 0 ∨ dr = 1) ∧ (dc = -1 ∨ dc = 0 ∨ dc = 1) ∧
        (dr ≠ 0 ∨ dc ≠ 0) ∧ g (r + dr) (c + dc) = YOUNG) ∧
    (∀ v, check_neighbors (setCell g r c v) r c = check_neighbors g r c) ∧
    (check_neighbors g r c = 0 ∨ check_neighbors g r c = 1) := by
  rw [← hasYoungNeighbor_iff]
  refine ⟨?_, ?_, ?_, ?_⟩
  · rw [check_neighbors_eq]
    by_cases h : hasYoungNeighbor g r c <;> simp [h]
  · rw [check_neighbors_eq]
    by_cases h : hasYoungNeighbor g r c <;> simp [h]
  · intro v
    rw [check_neighbors_eq, check_neighbors_eq]
    exact if_congr (hasYoungNeighbor_setCell g r c v) rfl rfl
  · rw [check_neighbors_eq]
    by_cases h : hasYoungNeighbor g r c <;> simp [h]

/-- C10 on the 1x2 interior `spreadSim`: at the EMPTY cell (1,1), whose
neighbour (1,2) is YOUNG, `check_neighbors` returns 1; at the YOUNG cell (1,2),
whose neighbours are all EMPTY, it returns 0. -/
theorem check_neighbors_spec_witness :
    check_neighbors spreadSim.current_grid 1 1 = 1 ∧
    check_neighbors spreadSim.current_grid 1 2 = 0 :=
  ⟨(check_neighbors_spec spreadSim.current_grid 1 1).1.mpr
      ⟨0, 1, by decide, by decide, by decide, by decide⟩,
    (check_neighbors_spec spreadSim.current_grid 1 2).2.1.mpr (by
      rw [← hasYoungNeighbor_iff]
      decide)⟩

/-! ## The wrapped grid as a torus -/

theorem wrapIndex_inside (n i : Int) (h1 : 1 ≤ i) (h2 : i ≤ n) : (i - 1) % n + 1 = i := by
  rw [Int.emod_eq_of_lt (by omega) (by omega)]
  omega

theorem wrapIndex_low (n : Int) (h : 1 ≤ n) : ((0 : Int) - 1) % n + 1 = n := by
  have e : ((0 : Int) - 1) % n = (n - 1) % n := by
    rw [← Int.add_emod_self]
    congr 1
    ring
  rw [e, Int.emod_eq_of_lt (by omega) (by omega)]
  omega

theorem wrapIndex_high (n : Int) : (n + 1 - 1) % n + 1 = 1 := by
  have e : n + 1 - 1 = n := by ring
  rw [e, Int.emod_self]
  rfl

/-- After the two wrap loops every cell of the grid, border included, holds
the interior cell the torus assigns to it, as it was before the wrap. -/
theorem wrap_apply (ROWS COLUMNS : Int) (g : Grid) (hR : 1 ≤ ROWS) (hC : 1 ≤ COLUMNS)
    (i j : Int) (hi0 : 0 ≤ i) (hi1 : i ≤ ROWS + 1) (hj0 : 0 ≤ j) (hj1 : j ≤ COLUMNS + 1) :
    ghostColumns ROWS COLUMNS (ghostRows ROWS COLUMNS g) i j
      = g ((i - 1) % ROWS + 1) ((j - 1) % COLUMNS + 1) := by
  have hrow : ∀ b, 0 ≤ b → b ≤ COLUMNS + 1 →
      ghostRows ROWS COLUMNS g i b = g ((i - 1) % ROWS + 1) b := by
    intro b hb0 hb1
    rcases (by omega : i = 0 ∨ i = ROWS + 1 ∨ (1 ≤ i ∧ i ≤ ROWS)) with rfl | rfl | ⟨h1, h2⟩
    · rw [wrapIndex_low ROWS hR, (ghostRows_border ROWS COLUMNS g b hR hb0 hb1).1]
    · rw [wrapIndex_high ROWS, (ghostRows_border ROWS COLUMNS g b hR hb0 hb1).2]
    · rw [wrapIndex_inside ROWS i h1 h2, ghostRows_other ROWS COLUMNS g i b (by omega) (by omega)]
  rcases (by omega : j = 0 ∨ j = COLUMNS + 1 ∨ (1 ≤ j ∧ j ≤ COLUMNS)) with rfl | rfl | ⟨h1, h2⟩
  · rw [wrapIndex_low COLUMNS hC, (ghostColumns_border ROWS COLUMNS _ i hC hi0 hi1).1,
      hrow COLUMNS (by omega) (by omega)]
  · rw [wrapIndex_high COLUMNS, (ghostColumns_border ROWS COLUMNS _ i hC hi0 hi1).2,
      hrow 1 (by omega) (by omega)]
  · rw [wrapIndex_inside COLUMNS j h1 h2,
      ghostColumns_other ROWS COLUMNS _ i j (by omega) (by omega), hrow j hj0 hj1]

theorem check_neighbors_one_iff (g : Grid) (r c : Int) :
    check_neighbors g r c = 1 ↔ hasYoungNeighbor g r c := by
  rw [check_neighbors_eq]
  by_cases h : hasYoungNeighbor g r c <;> simp [h]

theorem check_neighbors_zero_iff (g : Grid) (r c : Int) :
    check_neighbors g r c = 0 ↔ ¬ hasYoungNeighbor g r c := by
  rw [check_neighbors_eq]
  by_cases h : hasYoungNeighbor g r c <;> simp [h]

/-- Some toroidal neighbour of the interior cell `(r, c)` is YOUNG: one of the
interior cells `(((r-1+dr) mod ROWS)+1, ((c-1+dc) mod COLUMNS)+1)` with
`dr, dc ∈ {-1, 0, 1}`, `(dr, dc) ≠ (0, 0)`. -/
theorem hasYoungNeighbor_wrap (ROWS COLUMNS r c : Int) (g : Grid)
    (hR : 1 ≤ ROWS) (hC : 1 ≤ COLUMNS)
    (hr1 : 1 ≤ r) (hr2 : r ≤ ROWS) (hc1 : 1 ≤ c) (hc2 : c ≤ COLUMNS) :
    hasYoungNeighbor (ghostColumns ROWS COLUMNS (ghostRows ROWS COLUMNS g)) r c ↔
      ∃ dr dc : Int, (dr = -1 ∨ dr = 0 ∨ dr = 1) ∧ (dc = -1 ∨ dc = 0 ∨ dc = 1) ∧
        (dr ≠ 0 ∨ dc ≠ 0) ∧
        g ((r - 1 + dr) % ROWS + 1) ((c - 1 + dc) % COLUMNS + 1) = YOUNG := by
  rw [hasYoungNeighbor_iff]
  have key : ∀ dr dc : Int, (dr = -1 ∨ dr = 0 ∨ dr = 1) → (dc = -1 ∨ dc = 0 ∨ dc = 1) →
      ghostColumns ROWS COLUMNS (ghostRows ROWS COLUMNS g) (r + dr) (c + dc)
        = g ((r - 1 + dr) % ROWS + 1) ((c - 1 + dc) % COLUMNS + 1) := by
    intro dr dc hdr hdc
    rw [wrap_apply ROWS COLUMNS g hR hC (r + dr) (c + dc) (by omega) (by omega) (by omega)
      (by omega)]
    have e1 : r + dr - 1 = r - 1 + dr := by ring
    have e2 : c + dc - 1 = c - 1 + dc := by ring
    rw [e1, e2]
  constructor
  · rintro ⟨dr, dc, hdr, hdc, hne, h⟩
    exact ⟨dr, dc, hdr, hdc, hne, by rw [← key dr dc hdr hdc]; exact h⟩
  · rintro ⟨dr, dc, hdr, hdc, hne, h⟩
    exact ⟨dr, dc, hdr, hdc, hne, by rw [key dr dc hdr hdc]; exact h⟩

/-- C11.  For ROWS ≥ 1 and COLUMNS ≥ 1 and an interior cell `(r, c)`,
`check_neighbors` on the grid left by the border wrap returns 1 exactly when
one of the eight toroidal neighbours, the interior cells
`(((r-1+dr) mod ROWS)+1, ((c-1+dc) mod COLUMNS)+1)` with `(dr, dc) ≠ (0, 0)`,
is YOUNG, and 0 exactly when none is; the cells are those of the grid before
the wrap, which the wrap leaves as they are.  The cells on the perimeter of the
interior are covered with the others. -/
theorem check_neighbors_toroidal (ROWS COLUMNS r c : Int) (s : Sim)
    (hR : 1 ≤ ROWS) (hC : 1 ≤ COLUMNS)
    (hr1 : 1 ≤ r) (hr2 : r ≤ ROWS) (hc1 : 1 ≤ c) (hc2 : c ≤ COLUMNS) :
    (check_neighbors (wrapStage ROWS COLUMNS s).current_grid r c = 1 ↔
      ∃ dr dc : Int, (dr = -1 ∨ dr = 0 ∨ dr = 1) ∧ (dc = -1 ∨ dc = 0 ∨ dc = 1) ∧
        (dr ≠ 0 ∨ dc ≠ 0) ∧
        s.current_grid ((r - 1 + dr) % ROWS + 1) ((c - 1 + dc) % COLUMNS + 1) = YOUNG) ∧
    (check_neighbors (wrapStage ROWS COLUMNS s).current_grid r c = 0 ↔
      ¬ ∃ dr dc : Int, (dr = -1 ∨ dr = 0 ∨ dr = 1) ∧ (dc = -1 ∨ dc = 0 ∨ dc = 1) ∧
        (dr ≠ 0 ∨ dc ≠ 0) ∧
        s.current_grid ((r - 1 + dr) % ROWS + 1) ((c - 1 + dc) % COLUMNS + 1) = YOUNG) ∧
    (∀ i j, 1 ≤ i → i ≤ ROWS → 1 ≤ j → j ≤ COLUMNS →
      (wrapStage ROWS COLUMNS s).current_grid i j = s.current_grid i j) := by
  refine ⟨?_, ?_, ?_⟩
  · rw [check_neighbors_one_iff]
    exact hasYoungNeighbor_wrap ROWS COLUMNS r c s.current_grid hR hC hr1 hr2 hc1 hc2
  · rw [check_neighbors_zero_iff]
    exact not_congr
      (hasYoungNeighbor_wrap ROWS COLUMNS r c s.current_grid hR hC hr1 hr2 hc1 hc2)
  · intro i j hi1 hi2 hj1 hj2
    show ghostColumns ROWS COLUMNS (ghostRows ROWS COLUMNS s.current_grid) i j = _
    rw [ghostColumns_other ROWS COLUMNS _ i j (by omega) (by omega),
      ghostRows_other ROWS COLUMNS _ i j (by omega) (by omega)]

/-- C11 on the 1x2 interior `spreadSim`: the EMPTY cell (1,1) has the YOUNG
toroidal neighbour (1,2) (`dr = 0`, `dc = 1`), and `check_neighbors` returns 1
there after the wrap. -/
theorem check_neighbors_toroidal_witness :
    check_neighbors (wrapStage 1 2 spreadSim).current_grid 1 1 = 1 :=
  (check_neighbors_toroidal 1 2 1 1 spreadSim (by decide) (by decide) (by decide) (by decide)
    (by decide) (by decide)).1.mpr ⟨0, 1, by decide, by decide, by decide, by decide⟩

/-! ## The time-step loop -/

theorem forLoop_iterate {σ : Type} (f : σ → σ) (n : Nat) (i : Int) (s : σ) :
    forLoop (fun _ t => f t) n i s = f^[n] s := by
  induction n generalizing i s with
  | zero => rfl
  | succ k ih =>
    simp only [forLoop]
    rw [ih, Function.iterate_succ_apply]

/-- A loop over `Option` states whose passes all succeed is the plain loop. -/
theorem forLoop_some {σ : Type} (body : Int → σ → σ) (obody : Int → Option σ → Option σ)
    (n : Nat) (i : Int) (s : σ)
    (h : ∀ j t, i ≤ j → j < i + n → obody j (some t) = some (body j t)) :
    forLoop obody n i (some s) = some (forLoop body n i s) := by
  induction n generalizing i s with
  | zero => rfl
  | succ k ih =>
    simp only [forLoop]
    rw [h i s (le_refl _) (by omega)]
    apply ih
    intro j t h1 h2
    exact h j t (by omega) (by push_cast at h2 ⊢; omega)

theorem forTo_some {σ : Type} (body : Int → σ → σ) (obody : Int → Option σ → Option σ)
    (lo hi : Int) (s : σ)
    (h : ∀ j t, lo ≤ j → j ≤ hi → obody j (some t) = some (body j t)) :
    forTo lo hi obody (some s) = some (forTo lo hi body s) := by
  unfold forTo
  apply forLoop_some
  intro j t h1 h2
  exact h j t h1 (by omega)

/-- Below `INT_MAX` the counter does not overflow: `mushrooms` returns what the
plain loop over the time steps leaves. -/
theorem mushrooms_eq (draws : Nat → ℚ) (ROWS COLUMNS TIME_STEPS : Int) (s : Sim)
    (hmax : TIME_STEPS < INT_MAX) :
    mushrooms draws ROWS COLUMNS TIME_STEPS s
      = some (forTo 0 TIME_STEPS (fun _ s => timeStep draws ROWS COLUMNS s) s) := by
  unfold mushrooms
  apply forTo_some
  intro j t _ hj
  show (if j + 1 ≤ INT_MAX then some (timeStep draws ROWS COLUMNS t) else none) = _
  rw [if_pos (by omega)]

/-- From `INT_MAX` on, the pass with the counter at `INT_MAX` is reached and
its increment overflows: `mushrooms` has no result. -/
theorem mushrooms_overflow (draws : Nat → ℚ) (ROWS COLUMNS TIME_STEPS : Int) (s : Sim)
    (hmax : INT_MAX ≤ TIME_STEPS) :
    mushrooms draws ROWS COLUMNS TIME_STEPS s = none := by
  unfold mushrooms
  rw [forTo_split _ 0 TIME_STEPS INT_MAX _ (by decide) hmax]
  have hbody : ∀ x, timeStepCounted draws ROWS COLUMNS INT_MAX x = none := by
    intro x
    cases x with
    | none => rfl
    | some t =>
      show (if INT_MAX + 1 ≤ INT_MAX then some (timeStep draws ROWS COLUMNS t) else none) = _
      rw [if_neg (by decide)]
  rw [hbody]
  apply forTo_inv (fun x : Option Sim => x = none) _ _ _ _ _ rfl
  intro j t _ _ ht
  rw [ht]
  rfl

/-- C12 (amended).  For TIME_STEPS = T with 0 ≤ T < INT_MAX = 2147483647,
`mushrooms` returns, and what it returns is the body of its loop (wrap the
border, evaluate every interior cell, copy `next_grid` into `current_grid`)
applied T + 1 times to the memory it starts from, neither fewer nor more; for
T = 0 it is one step.  For T ≥ INT_MAX the pass with the counter at INT_MAX is
reached, the increment of the counter overflows, and `mushrooms` does not
return. -/
theorem mushrooms_iterates (draws : Nat → ℚ) (ROWS COLUMNS TIME_STEPS : Int) (s : Sim)
    (hT : 0 ≤ TIME_STEPS) :
    (TIME_STEPS < INT_MAX →
      mushrooms draws ROWS COLUMNS TIME_STEPS s
        = some ((timeStep draws ROWS COLUMNS)^[TIME_STEPS.toNat + 1] s)) ∧
    mushrooms draws ROWS COLUMNS 0 s = some (timeStep draws ROWS COLUMNS s) ∧
    (INT_MAX ≤ TIME_STEPS → mushrooms draws ROWS COLUMNS TIME_STEPS s = none) := by
  refine ⟨?_, ?_, ?_⟩
  · intro hmax
    rw [mushrooms_eq draws ROWS COLUMNS TIME_STEPS s hmax]
    unfold forTo
    rw [forLoop_iterate]
    congr 2
    omega
  · rfl
  · intro hmax
    exact mushrooms_overflow draws ROWS COLUMNS TIME_STEPS s hmax

/-- C12 as stated fails at TIME_STEPS = 2147483647, which `getArguments`
accepts: `mushrooms` does not return the memory after 2147483648 steps, it
does not return. -/
theorem mushrooms_counterexample :
    (0 : Int) ≤ 2147483647 ∧
    mushrooms zeroDraws 1 1 2147483647 staleSim = none ∧
    mushrooms zeroDraws 1 1 2147483647 staleSim
      ≠ some ((timeStep zeroDraws 1 1)^[(2147483647 : Int).toNat + 1] staleSim) := by
  have h : mushrooms zeroDraws 1 1 2147483647 staleSim = none :=
    mushrooms_overflow zeroDraws 1 1 2147483647 staleSim (by decide)
  refine ⟨by decide, h, ?_⟩
  rw [h]
  exact fun e => Option.noConfusion e

/-- C12 (amended) at TIME_STEPS = 1 on a 1x1 grid: `mushrooms` is two time
steps. -/
theorem mushrooms_iterates_witness :
    mushrooms zeroDraws 1 1 1 staleSim
      = some (timeStep zeroDraws 1 1 (timeStep zeroDraws 1 1 staleSim)) :=
  (mushrooms_iterates zeroDraws 1 1 1 staleSim (by decide)).1 (by decide)

/-! ## One full time step -/

theorem evalCell_drawn_le (draws : Nat → ℚ) (r c : Int) (s : Sim) :
    s.drawn ≤ (evalCell draws r c s).drawn := by
  rcases evalCell_cases draws r c s with h | ⟨v, h | h⟩ <;> rw [h]
  · exact le_refl _
  · exact Nat.le_succ _

theorem evalRowFrom_drawn_le (draws : Nat → ℚ) (lo hi r : Int) (s : Sim) :
    s.drawn ≤ (evalRowFrom draws lo hi r s).drawn := by
  unfold evalRowFrom
  apply forTo_inv (fun t => s.drawn ≤ t.drawn) _ lo hi s _ (le_refl _)
  intro j t _ _ ht
  exact le_trans ht (evalCell_drawn_le draws r j t)

theorem evalRows_drawn_le (draws : Nat → ℚ) (COLUMNS lo hi : Int) (s : Sim) :
    s.drawn ≤ (forTo lo hi (fun current_row s => evalRowFrom draws 1 COLUMNS current_row s)
      s).drawn := by
  apply forTo_inv (fun t => s.drawn ≤ t.drawn) _ lo hi s _ (le_refl _)
  intro j t _ _ ht
  exact le_trans ht (evalRowFrom_drawn_le draws 1 COLUMNS j t)

theorem evalBefore_drawn_le (draws : Nat → ℚ) (COLUMNS r c : Int) (s : Sim) :
    s.drawn ≤ (evalBefore draws COLUMNS r c s).drawn := by
  unfold evalBefore
  exact le_trans (evalRows_drawn_le draws COLUMNS 1 (r - 1) s)
    (evalRowFrom_drawn_le draws 1 (c - 1) r _)

/-- One full time step in which every draw from the engine position of its
start on is at most 0.6, seen from an interior cell `(r, c)`: a YOUNG cell
becomes MATURING, an EMPTY cell with a YOUNG toroidal neighbour becomes YOUNG,
and an EMPTY cell with no YOUNG toroidal neighbour ends with the value
`next_grid` held at `(r, c)` before the step. -/
theorem timeStep_spread (draws : Nat → ℚ) (ROWS COLUMNS r c : Int) (s : Sim)
    (hR : 1 ≤ ROWS) (hC : 1 ≤ COLUMNS)
    (hr1 : 1 ≤ r) (hr2 : r ≤ ROWS) (hc1 : 1 ≤ c) (hc2 : c ≤ COLUMNS)
    (hd : ∀ k, s.drawn ≤ k → draws k ≤ 0.6) :
    (s.current_grid r c = YOUNG →
      (timeStep draws ROWS COLUMNS s).current_grid r c = MATURING) ∧
    (s.current_grid r c = EMPTY →
      (∃ dr dc : Int, (dr = -1 ∨ dr = 0 ∨ dr = 1) ∧ (dc = -1 ∨ dc = 0 ∨ dc = 1) ∧
        (dr ≠ 0 ∨ dc ≠ 0) ∧
        s.current_grid ((r - 1 + dr) % ROWS + 1) ((c - 1 + dc) % COLUMNS + 1) = YOUNG) →
      (timeStep draws ROWS COLUMNS s).current_grid r c = YOUNG) ∧
    (s.current_grid r c = EMPTY →
      (¬ ∃ dr dc : Int, (dr = -1 ∨ dr = 0 ∨ dr = 1) ∧ (dc = -1 ∨ dc = 0 ∨ dc = 1) ∧
        (dr ≠ 0 ∨ dc ≠ 0) ∧
        s.current_grid ((r - 1 + dr) % ROWS + 1) ((c - 1 + dc) % COLUMNS + 1) = YOUNG) →
      (timeStep draws ROWS COLUMNS s).current_grid r c = s.next_grid r c) := by
  have hw : (wrapStage ROWS COLUMNS s).current_grid r c = s.current_grid r c := by
    show ghostColumns ROWS COLUMNS (ghostRows ROWS COLUMNS s.current_grid) r c = _
    rw [ghostColumns_other ROWS COLUMNS _ r c (by omega) (by omega),
      ghostRows_other ROWS COLUMNS _ r c (by omega) (by omega)]
  have hy := hasYoungNeighbor_wrap ROWS COLUMNS r c s.current_grid hR hC hr1 hr2 hc1 hc2
  have hb := evalBefore_current draws COLUMNS r c (wrapStage ROWS COLUMNS s)
  have e2 := (evalGrid_cell draws ROWS COLUMNS r c (wrapStage ROWS COLUMNS s) hr1 hr2 hc1 hc2).2
  have e3 : (timeStep draws ROWS COLUMNS s).current_grid r c
      = (evalCell draws r c
          (evalBefore draws COLUMNS r c (wrapStage ROWS COLUMNS s))).next_grid r c := e2
  rw [e3]
  refine ⟨?_, ?_, ?_⟩
  · intro hv
    rw [evalCell_young draws r c _ (by rw [hb, hw]; exact hv)]
    simp [store_next]
  · intro hv hn
    have hn2 : hasYoungNeighbor (wrapStage ROWS COLUMNS s).current_grid r c := hy.mpr hn
    rw [evalCell_empty_spread draws r c _ (by rw [hb, hw]; exact hv)
      (by rw [hb, check_neighbors_eq, if_pos hn2]; decide)]
    have hle : draws (evalBefore draws COLUMNS r c (wrapStage ROWS COLUMNS s)).drawn
        ≤ probSpread :=
      hd _ (evalBefore_drawn_le draws COLUMNS r c (wrapStage ROWS COLUMNS s))
    rw [if_pos hle]
    simp [store_next]
  · intro hv hn
    have hn2 : ¬ hasYoungNeighbor (wrapStage ROWS COLUMNS s).current_grid r c :=
      fun h => hn (hy.mp h)
    rw [evalCell_empty_quiet draws r c _ (by rw [hb, hw]; exact hv)
      (by rw [hb, check_neighbors_eq, if_neg hn2]), evalBefore_next_at]
    rfl

/-- C13 (the code departs from it).  `ringSim` is a 1x4 interior with cell
(1,1) YOUNG and the rest EMPTY, `next_grid` holding 7 (DEAD), and every draw
0, so at most 0.6.  After one full step cell (1,1) is MATURING and its
toroidal neighbours (1,2) and (1,4) are YOUNG, but cell (1,3), EMPTY with no
YOUNG neighbour, is DEAD and not EMPTY: line 263 stores nothing for it. -/
theorem full_step_leaves_stale_cell :
    (∀ k, zeroDraws k ≤ 0.6) ∧
    ringSim.current_grid 1 3 = EMPTY ∧
    ¬ hasYoungNeighbor (wrapStage 1 4 ringSim).current_grid 1 3 ∧
    (timeStep zeroDraws 1 4 ringSim).current_grid 1 1 = MATURING ∧
    (timeStep zeroDraws 1 4 ringSim).current_grid 1 2 = YOUNG ∧
    (timeStep zeroDraws 1 4 ringSim).current_grid 1 4 = YOUNG ∧
    (timeStep zeroDraws 1 4 ringSim).current_grid 1 3 = DEAD ∧
    DEAD ≠ EMPTY := by
  have hd : ∀ k, ringSim.drawn ≤ k → zeroDraws k ≤ 0.6 := by
    intro k _
    norm_num [zeroDraws]
  refine ⟨fun k => by norm_num [zeroDraws], by decide, by decide, ?_, ?_, ?_, ?_, by decide⟩
  · exact (timeStep_spread zeroDraws 1 4 1 1 ringSim (by decide) (by decide) (by decide)
      (by decide) (by decide) (by decide) hd).1 (by decide)
  · exact (timeStep_spread zeroDraws 1 4 1 2 ringSim (by decide) (by decide) (by decide)
      (by decide) (by decide) (by decide) hd).2.1 (by decide)
      ⟨0, -1, by decide, by decide, by decide, by decide⟩
  · exact (timeStep_spread zeroDraws 1 4 1 4 ringSim (by decide) (by decide) (by decide)
      (by decide) (by decide) (by decide) hd).2.1 (by decide)
      ⟨0, 1, by decide, by decide, by decide, by decide⟩
  · have e : (timeStep zeroDraws 1 4 ringSim).current_grid 1 3
        = (evalGrid zeroDraws 1 4 (wrapStage 1 4 ringSim)).next_grid 1 3 :=
      copyStage_interior 1 4 1 3 _ (by decide) (by decide) (by decide) (by decide)
    rw [e, evalGrid_empty_quiet zeroDraws 1 4 1 3 (wrapStage 1 4 ringSim) (by decide) (by decide)
      (by decide) (by decide) (by decide) (by decide)]
    rfl

/-! ## initializeGrid -/

theorem forLoop_count {σ : Type} (f : σ → Nat) (body : Int → σ → σ) (w : Nat)
    (h : ∀ j t, f (body j t) = f t + w) (n : Nat) (i : Int) (s : σ) :
    f (forLoop body n i s) = f s + n * w := by
  induction n generalizing i s with
  | zero => simp [forLoop]
  | succ k ih =>
    simp only [forLoop]
    rw [ih, h]
    ring

theorem initCell_drawn (draws : Nat → ℚ) (r c : Int) (s : Seeding) :
    (initCell draws r c s).drawn = s.drawn + 1 := by
  unfold initCell
  split_ifs <;> rfl

theorem initCell_grid_at (draws : Nat → ℚ) (r c : Int) (s : Seeding) :
    (initCell draws r c s).grid r c = if draws s.drawn ≤ probSpore then SPORE else EMPTY := by
  unfold initCell
  split_ifs <;> simp [setCell]

theorem initCell_grid_other (draws : Nat → ℚ) (r c i j : Int) (s : Seeding)
    (h : i ≠ r ∨ j ≠ c) : (initCell draws r c s).grid i j = s.grid i j := by
  have h2 : ¬ (i = r ∧ j = c) := by tauto
  unfold initCell
  split_ifs <;> simp [setCell, h2]

theorem initRowFrom_drawn (draws : Nat → ℚ) (lo hi r : Int) (s : Seeding) :
    (initRowFrom draws lo hi r s).drawn = s.drawn + (hi + 1 - lo).toNat := by
  unfold initRowFrom forTo
  rw [forLoop_count (fun t : Seeding => t.drawn) _ 1 (fun j t => initCell_drawn draws r j t)]
  omega

theorem initRows_drawn (draws : Nat → ℚ) (COLUMNS lo hi : Int) (s : Seeding) :
    (forTo lo hi (fun current_row s => initRowFrom draws 1 COLUMNS current_row s) s).drawn
      = s.drawn + (hi + 1 - lo).toNat * COLUMNS.toNat := by
  unfold forTo
  rw [forLoop_count (fun t : Seeding => t.drawn) _ COLUMNS.toNat
    (fun j t => by
      show (initRowFrom draws 1 COLUMNS j t).drawn = t.drawn + COLUMNS.toNat
      rw [initRowFrom_drawn]
      omega)]

theorem initBefore_drawn (draws : Nat → ℚ) (COLUMNS r c : Int) (s : Seeding) :
    (initBefore draws COLUMNS r c s).drawn
      = s.drawn + ((r - 1).toNat * COLUMNS.toNat + (c - 1).toNat) := by
  unfold initBefore
  rw [initRowFrom_drawn, initRows_drawn]
  have e1 : (r - 1 + 1 - 1).toNat = (r - 1).toNat := by omega
  have e2 : (c - 1 + 1 - 1).toNat = (c - 1).toNat := by omega
  rw [e1, e2]
  ring

theorem initRowFrom_grid_other (draws : Nat → ℚ) (lo hi r i j : Int) (s : Seeding)
    (h : i ≠ r ∨ j < lo ∨ hi < j) :
    (initRowFrom draws lo hi r s).grid i j = s.grid i j := by
  unfold initRowFrom
  apply forTo_inv (fun t => t.grid i j = s.grid i j) _ lo hi s _ rfl
  intro k t hk1 hk2 ht
  show (initCell draws r k t).grid i j = s.grid i j
  rw [initCell_grid_other draws r k i j t (by omega), ht]

theorem initRows_grid_other (draws : Nat → ℚ) (COLUMNS lo hi i j : Int) (s : Seeding)
    (h : i < lo ∨ hi < i ∨ j < 1 ∨ COLUMNS < j) :
    (forTo lo hi (fun current_row s => initRowFrom draws 1 COLUMNS current_row s) s).grid i j
      = s.grid i j := by
  apply forTo_inv (fun t => t.grid i j = s.grid i j) _ lo hi s _ rfl
  intro k t hk1 hk2 ht
  show (initRowFrom draws 1 COLUMNS k t).grid i j = s.grid i j
  rw [initRowFrom_grid_other draws 1 COLUMNS k i j t (by omega), ht]

/-- After `initializeGrid` an interior cell holds what its own pass stored. -/
theorem initializeGrid_grid_at (draws : Nat → ℚ) (ROWS COLUMNS r c : Int) (s : Seeding)
    (hr1 : 1 ≤ r) (hr2 : r ≤ ROWS) (hc1 : 1 ≤ c) (hc2 : c ≤ COLUMNS) :
    (initializeGrid draws ROWS COLUMNS s).grid r c
      = (initCell draws r c (initBefore draws COLUMNS r c s)).grid r c := by
  unfold initializeGrid
  refine forTo_at
    (fun t : Seeding => t.grid r c
      = (initCell draws r c (initBefore draws COLUMNS r c s)).grid r c)
    (fun current_row s => initRowFrom draws 1 COLUMNS current_row s) 1 ROWS r s hr1 hr2 ?_ ?_
  · intro j t hj1 _ ht
    show (initRowFrom draws 1 COLUMNS j t).grid r c = _
    rw [initRowFrom_grid_other draws 1 COLUMNS j r c t (by omega), ht]
  · show (initRowFrom draws 1 COLUMNS r _).grid r c = _
    unfold initRowFrom
    refine forTo_at
      (fun t : Seeding => t.grid r c
        = (initCell draws r c (initBefore draws COLUMNS r c s)).grid r c)
      (fun current_column s => initCell draws r current_column s) 1 COLUMNS c _ hc1 hc2 ?_ ?_
    · intro j t hj1 _ ht
      show (initCell draws r j t).grid r c = _
      rw [initCell_grid_other draws r j r c t (by omega), ht]
    · rfl

/-- C14.  `initializeGrid` takes ROWS * COLUMNS draws.  The pass over the
interior cell `(r, c)` takes exactly one, the draw number
`(r - 1) * COLUMNS + (c - 1)` counted from the engine position at the call
(row-major order), and the cell ends SPORE if that draw is at most 0.001, the
constant `probSpore` of the source, a `double` (the constant itself included),
and EMPTY if it is larger, so SPORE or EMPTY in every case.  Every cell
outside the interior, the border among them, is left as it was. -/
theorem initializeGrid_spec (draws : Nat → ℚ) (ROWS COLUMNS : Int) (s : Seeding) :
    (initializeGrid draws ROWS COLUMNS s).drawn = s.drawn + ROWS.toNat * COLUMNS.toNat ∧
    (∀ r c, 1 ≤ r → r ≤ ROWS → 1 ≤ c → c ≤ COLUMNS →
      (initBefore draws COLUMNS r c s).drawn
          = s.drawn + ((r - 1).toNat * COLUMNS.toNat + (c - 1).toNat) ∧
      (initCell draws r c (initBefore draws COLUMNS r c s)).drawn
          = (initBefore draws COLUMNS r c s).drawn + 1 ∧
      (draws (s.drawn + ((r - 1).toNat * COLUMNS.toNat + (c - 1).toNat)) ≤ probSpore →
        (initializeGrid draws ROWS COLUMNS s).grid r c = SPORE) ∧
      (probSpore < draws (s.drawn + ((r - 1).toNat * COLUMNS.toNat + (c - 1).toNat)) →
        (initializeGrid draws ROWS COLUMNS s).grid r c = EMPTY) ∧
      ((initializeGrid draws ROWS COLUMNS s).grid r c = SPORE ∨
        (initializeGrid draws ROWS COLUMNS s).grid r c = EMPTY)) ∧
    (∀ i j, ¬ (1 ≤ i ∧ i ≤ ROWS ∧ 1 ≤ j ∧ j ≤ COLUMNS) →
      (initializeGrid draws ROWS COLUMNS s).grid i j = s.grid i j) := by
  refine ⟨?_, ?_, ?_⟩
  · unfold initializeGrid
    rw [initRows_drawn]
    have e : (ROWS + 1 - 1).toNat = ROWS.toNat := by omega
    rw [e]
  · intro r c hr1 hr2 hc1 hc2
    have hg := initializeGrid_grid_at draws ROWS COLUMNS r c s hr1 hr2 hc1 hc2
    rw [initCell_grid_at, initBefore_drawn] at hg
    refine ⟨initBefore_drawn draws COLUMNS r c s, initCell_drawn draws r c _, ?_, ?_, ?_⟩
    · intro hd
      have hd2 : draws (s.drawn + ((r - 1).toNat * COLUMNS.toNat + (c - 1).toNat))
          ≤ probSpore := hd
      rw [hg, if_pos hd2]
    · intro hd
      have hd2 : ¬ draws (s.drawn + ((r - 1).toNat * COLUMNS.toNat + (c - 1).toNat))
          ≤ probSpore := not_le.mpr hd
      rw [hg, if_neg hd2]
    · rw [hg]
      split_ifs
      · exact Or.inl rfl
      · exact Or.inr rfl
  · intro i j h
    unfold initializeGrid
    exact initRows_grid_other draws COLUMNS 1 ROWS i j s (by omega)

/-- C14 at ROWS = COLUMNS = 1 with the draw 0: one draw is taken and the
interior cell is SPORE.  It is SPORE also with the draw equal to the constant
0.001 of the source, the `double` 1152921504606847 / 2^60, and EMPTY with the
draw 0.002. -/
theorem initializeGrid_spec_witness :
    (initializeGrid zeroDraws 1 1 { grid := fun _ _ => 7, drawn := 0 }).drawn = 1 ∧
    (initializeGrid zeroDraws 1 1 { grid := fun _ _ => 7, drawn := 0 }).grid 1 1 = SPORE ∧
    (initializeGrid zeroDraws 1 1 { grid := fun _ _ => 7, drawn := 0 }).grid 0 1 = 7 ∧
    (initializeGrid (fun _ => 1152921504606847 / 1152921504606846976) 1 1
      { grid := fun _ _ => 7, drawn := 0 }).grid 1 1 = SPORE ∧
    (initializeGrid (fun _ => 0.002) 1 1 { grid := fun _ _ => 7, drawn := 0 }).grid 1 1
      = EMPTY :=
  ⟨(initializeGrid_spec zeroDraws 1 1 { grid := fun _ _ => 7, drawn := 0 }).1,
    ((initializeGrid_spec zeroDraws 1 1 { grid := fun _ _ => 7, drawn := 0 }).2.1 1 1
      (by decide) (by decide) (by decide) (by decide)).2.2.1
      (by norm_num [zeroDraws, probSpore]),
    (initializeGrid_spec zeroDraws 1 1 { grid := fun _ _ => 7, drawn := 0 }).2.2 0 1
      (by decide),
    ((initializeGrid_spec (fun _ => 1152921504606847 / 1152921504606846976) 1 1
      { grid := fun _ _ => 7, drawn := 0 }).2.1 1 1
      (by decide) (by decide) (by decide) (by decide)).2.2.1 (by norm_num [probSpore]),
    ((initializeGrid_spec (fun _ => 0.002) 1 1 { grid := fun _ _ => 7, drawn := 0 }).2.1 1 1
      (by decide) (by decide) (by decide) (by decide)).2.2.2.1 (by norm_num [probSpore])⟩

/-! ## copyGrid, cell by cell -/

theorem copyGrid_outside (ROWS COLUMNS i j : Int) (current_grid next_grid : Grid)
    (h : ¬ (1 ≤ i ∧ i ≤ ROWS ∧ 1 ≤ j ∧ j ≤ COLUMNS)) :
    copyGrid ROWS COLUMNS current_grid next_grid i j = current_grid i j := by
  unfold copyGrid
  apply forTo_inv (fun g : Grid => g i j = current_grid i j) _ 1 ROWS current_grid _ rfl
  intro r t hr1 hr2 ht
  apply forTo_inv (fun g : Grid => g i j = current_grid i j) _ 1 COLUMNS t _ ht
  intro c u hc1 hc2 hu
  have hne : ¬ (i = r ∧ j = c) := by omega
  simp [setCell, hne, hu]

/-- C15.  After `copyGrid(current_grid, next_grid)` every interior cell of
`current_grid` holds the same cell of `next_grid`; every other cell of
`current_grid`, so every border cell (row 0, row ROWS + 1, column 0, column
COLUMNS + 1), is as before; `next_grid` and the engine are as before. -/
theorem copyGrid_spec (ROWS COLUMNS : Int) (s : Sim) :
    (∀ r c, 1 ≤ r → r ≤ ROWS → 1 ≤ c → c ≤ COLUMNS →
      copyGrid ROWS COLUMNS s.current_grid s.next_grid r c = s.next_grid r c) ∧
    (∀ i j, ¬ (1 ≤ i ∧ i ≤ ROWS ∧ 1 ≤ j ∧ j ≤ COLUMNS) →
      copyGrid ROWS COLUMNS s.current_grid s.next_grid i j = s.current_grid i j) ∧
    (∀ i j, i = 0 ∨ i = ROWS + 1 ∨ j = 0 ∨ j = COLUMNS + 1 →
      copyGrid ROWS COLUMNS s.current_grid s.next_grid i j = s.current_grid i j) ∧
    (copyStage ROWS COLUMNS s).current_grid
      = copyGrid ROWS COLUMNS s.current_grid s.next_grid ∧
    (copyStage ROWS COLUMNS s).next_grid = s.next_grid ∧
    (copyStage ROWS COLUMNS s).drawn = s.drawn := by
  refine ⟨?_, ?_, ?_, rfl, rfl, rfl⟩
  · intro r c hr1 hr2 hc1 hc2
    exact copyGrid_interior ROWS COLUMNS r c _ _ hr1 hr2 hc1 hc2
  · intro i j h
    exact copyGrid_outside ROWS COLUMNS i j _ _ h
  · intro i j h
    exact copyGrid_outside ROWS COLUMNS i j _ _ (by omega)

/-- C15 on the 1x1 memory `staleSim`: the interior cell of `current_grid`
becomes the 5 of `next_grid`, the border cell (0,1) stays 0. -/
theorem copyGrid_spec_witness :
    copyGrid 1 1 staleSim.current_grid staleSim.next_grid 1 1 = 5 ∧
    copyGrid 1 1 staleSim.current_grid staleSim.next_grid 0 1 = 0 :=
  ⟨(copyGrid_spec 1 1 staleSim).1 1 1 (by decide) (by decide) (by decide) (by decide),
    (copyGrid_spec 1 1 staleSim).2.2.1 0 1 (Or.inl rfl)⟩

/-! ## getArguments -/

theorem lastArg_cons_some (ch : Int) (g : GetoptResult) (rest : List GetoptResult) (v : Int)
    (h : lastArg ch rest = some v) : lastArg ch (g :: rest) = some v := by
  simp [lastArg, h]

theorem lastArg_cons_none (ch : Int) (g : GetoptResult) (rest : List GetoptResult)
    (h : lastArg ch rest = none) :
    lastArg ch (g :: rest) = if g.c = ch then some g.optargValue else none := by
  simp [lastArg, h]

theorem lastArg_flag (ch : Int) (g : GetoptResult) (rest : List GetoptResult) (f : Int) :
    (if (lastArg ch rest).isSome then 1 else (if g.c = ch then 1 else f))
      = if (lastArg ch (g :: rest)).isSome then (1 : Int) else f := by
  cases hx : lastArg ch rest with
  | some v => simp [lastArg_cons_some ch g rest v hx]
  | none =>
    rw [lastArg_cons_none ch g rest hx]
    by_cases h2 : g.c = ch <;> simp [h2]

theorem lastArg_value (ch : Int) (g : GetoptResult) (rest : List GetoptResult) (v : Int) :
    (lastArg ch rest).getD (if g.c = ch then g.optargValue else v)
      = (lastArg ch (g :: rest)).getD v := by
  cases hx : lastArg ch rest with
  | some w => simp [lastArg_cons_some ch g rest w hx]
  | none =>
    rw [lastArg_cons_none ch g rest hx]
    by_cases h2 : g.c = ch <;> simp [h2]

theorem code_r : (('r'.toNat : Nat) : Int) = 114 := by decide

theorem code_c : (('c'.toNat : Nat) : Int) = 99 := by decide

theorem code_s : (('s'.toNat : Nat) : Int) = 115 := by decide

theorem code_question : (('?'.toNat : Nat) : Int) = 63 := by decide

/-- A pass of the `switch (c)` that does not exit sets the flag and the value
of the option `c` names, and nothing else among the flags and values. -/
theorem optCase_ok (isprint : Int → Bool) (g : GetoptResult) (st st1 : ArgState)
    (h : optCase isprint g st = .ok st1) :
    st1.rflag = (if g.c = 'r'.toNat then 1 else st.rflag) ∧
    st1.ROWS = (if g.c = 'r'.toNat then g.optargValue else st.ROWS) ∧
    st1.cflag = (if g.c = 'c'.toNat then 1 else st.cflag) ∧
    st1.COLUMNS = (if g.c = 'c'.toNat then g.optargValue else st.COLUMNS) ∧
    st1.sflag = (if g.c = 's'.toNat then 1 else st.sflag) ∧
    st1.TIME_STEPS = (if g.c = 's'.toNat then g.optargValue else st.TIME_STEPS) := by
  unfold optCase at h
  simp only [code_r, code_c, code_s, code_question] at h ⊢
  by_cases hr : g.c = 114
  · rw [if_pos hr] at h
    cases h
    simp [hr]
  rw [if_neg hr] at h
  by_cases hc : g.c = 99
  · rw [if_pos hc] at h
    cases h
    simp [hc]
  rw [if_neg hc] at h
  by_cases hs : g.c = 115
  · rw [if_pos hs] at h
    cases h
    simp [hs]
  rw [if_neg hs] at h
  rw [if_neg hr, if_neg hr, if_neg hc, if_neg hc, if_neg hs, if_neg hs]
  split_ifs at h <;> cases h <;> exact ⟨rfl, rfl, rfl, rfl, rfl, rfl⟩

/-- A pass of the `switch (c)` exits exactly on `'?'` with an option character
that is none of `r`, `c`, `s` and is not printable. -/
theorem optCase_error_iff (isprint : Int → Bool) (g : GetoptResult) (st : ArgState) :
    (∃ e, optCase isprint g st = .error e) ↔
      (g.c = '?'.toNat ∧ g.optopt ≠ 'r'.toNat ∧ g.optopt ≠ 'c'.toNat ∧
        g.optopt ≠ 's'.toNat ∧ isprint g.optopt = false) := by
  unfold optCase
  simp only [code_r, code_c, code_s, code_question]
  by_cases hr : g.c = 114
  · simp [hr]
  by_cases hc : g.c = 99
  · simp [hc]
  by_cases hs : g.c = 115
  · simp [hs]
  by_cases hq : g.c = 63
  · rw [if_neg hr, if_neg hc, if_neg hs, if_pos hq]
    by_cases h1 : g.optopt = 114
    · simp [h1]
    by_cases h2 : g.optopt = 99
    · simp [h2]
    by_cases h3 : g.optopt = 115
    · simp [h3]
    by_cases h4 : isprint g.optopt = true
    · simp [h1, h2, h3, h4]
    · simp [h1, h2, h3, h4, hq]
  · simp [hr, hc, hs, hq]

theorem hasUnprintable_cons (isprint : Int → Bool) (g : GetoptResult)
    (rest : List GetoptResult) :
    hasUnprintable isprint (g :: rest) ↔
      ((g.c = '?'.toNat ∧ g.optopt ≠ 'r'.toNat ∧ g.optopt ≠ 'c'.toNat ∧
        g.optopt ≠ 's'.toNat ∧ isprint g.optopt = false) ∨ hasUnprintable isprint rest) := by
  unfold hasUnprintable
  simp only [List.mem_cons, exists_eq_or_imp]

theorem getoptLoop_ok_cons (isprint : Int → Bool) (g : GetoptResult)
    (rest : List GetoptResult) (st st1 : ArgState) (h : optCase isprint g st = .ok st1) :
    getoptLoop isprint (g :: rest) st = getoptLoop isprint rest st1 := by
  simp only [getoptLoop, h]

theorem getoptLoop_error_cons (isprint : Int → Bool) (g : GetoptResult)
    (rest : List GetoptResult) (st e : ArgState) (h : optCase isprint g st = .error e) :
    getoptLoop isprint (g :: rest) st = .error e := by
  simp only [getoptLoop, h]

/-- The loop exits exactly when `getopt` reports an unknown option character
that is not printable. -/
theorem getoptLoop_error_iff (isprint : Int → Bool) (opts : List GetoptResult)
    (st : ArgState) :
    (∃ e, getoptLoop isprint opts st = .error e) ↔ hasUnprintable isprint opts := by
  induction opts generalizing st with
  | nil => simp [getoptLoop, hasUnprintable]
  | cons g rest ih =>
    rw [hasUnprintable_cons, ← optCase_error_iff isprint g st]
    cases hoc : optCase isprint g st with
    | error e =>
      rw [getoptLoop_error_cons isprint g rest st e hoc]
      simp
    | ok st1 =>
      rw [getoptLoop_ok_cons isprint g rest st st1 hoc, ih st1]
      simp

theorem getoptLoop_ok_of_clean (isprint : Int → Bool) (opts : List GetoptResult)
    (st : ArgState) (h : ¬ hasUnprintable isprint opts) :
    ∃ st1, getoptLoop isprint opts st = .ok st1 := by
  cases hl : getoptLoop isprint opts st with
  | error e => exact absurd ((getoptLoop_error_iff isprint opts st).mp ⟨e, hl⟩) h
  | ok st1 => exact ⟨st1, rfl⟩

/-- When the loop ends without exiting, each flag is 1 exactly when its option
occurred, and each value is the one of the last occurrence. -/
theorem getoptLoop_fields (isprint : Int → Bool) (opts : List GetoptResult)
    (st st1 : ArgState) (h : getoptLoop isprint opts st = .ok st1) :
    st1.rflag = (if (lastArg 'r'.toNat opts).isSome then 1 else st.rflag) ∧
    st1.ROWS = (lastArg 'r'.toNat opts).getD st.ROWS ∧
    st1.cflag = (if (lastArg 'c'.toNat opts).isSome then 1 else st.cflag) ∧
    st1.COLUMNS = (lastArg 'c'.toNat opts).getD st.COLUMNS ∧
    st1.sflag = (if (lastArg 's'.toNat opts).isSome then 1 else st.sflag) ∧
    st1.TIME_STEPS = (lastArg 's'.toNat opts).getD st.TIME_STEPS := by
  induction opts generalizing st with
  | nil =>
    simp only [getoptLoop] at h
    cases h
    simp [lastArg]
  | cons g rest ih =>
    cases hoc : optCase isprint g st with
    | error e =>
      rw [getoptLoop_error_cons isprint g rest st e hoc] at h
      cases h
    | ok st2 =>
      rw [getoptLoop_ok_cons isprint g rest st st2 hoc] at h
      obtain ⟨a1, a2, a3, a4, a5, a6⟩ := ih st2 h
      obtain ⟨b1, b2, b3, b4, b5, b6⟩ := optCase_ok isprint g st st2 hoc
      rw [a1, a2, a3, a4, a5, a6, b1, b2, b3, b4, b5, b6]
      exact ⟨lastArg_flag _ g rest _, lastArg_value _ g rest _, lastArg_flag _ g rest _,
        lastArg_value _ g rest _, lastArg_flag _ g rest _, lastArg_value _ g rest _⟩

/-- When `getArguments` exits, `main` has allocated no grid. -/
theorem main_of_exit (isprint : Int → Bool) (draws : Nat → ℚ) (opts : List GetoptResult)
    (ROWS COLUMNS TIME_STEPS : Int) (fresh₁ fresh₂ : Grid) (heap₁ heap₂ : Int → Bool)
    (e : ArgState) (h : getArguments isprint opts ROWS COLUMNS TIME_STEPS = .error e) :
    main isprint draws opts ROWS COLUMNS TIME_STEPS fresh₁ fresh₂ heap₁ heap₂
      = { failed := true, thrown := false, err := e.err, gridsAllocated := 0,
          final := none } := by
  simp only [main, h]

theorem checkArguments_ok (st : ArgState) (hr : st.rflag ≠ 0) (hR : 1 ≤ st.ROWS)
    (hc : st.cflag ≠ 0) (hC : 1 ≤ st.COLUMNS) (hs : st.sflag ≠ 0) (hT : 1 ≤ st.TIME_STEPS) :
    checkArguments st = .ok st := by
  unfold checkArguments
  rw [if_neg hr, if_neg (by omega), if_neg hc, if_neg (by omega), if_neg hs, if_neg (by omega)]

theorem checkArguments_exit (st : ArgState)
    (h : st.rflag = 0 ∨ st.ROWS < 1 ∨ st.cflag = 0 ∨ st.COLUMNS < 1 ∨ st.sflag = 0 ∨
      st.TIME_STEPS < 1) :
    ∃ e, checkArguments st = .error e := by
  unfold checkArguments
  split_ifs
  · exact ⟨_, rfl⟩
  · exact ⟨_, rfl⟩
  · exact ⟨_, rfl⟩
  · exact ⟨_, rfl⟩
  · exact ⟨_, rfl⟩
  · exact ⟨_, rfl⟩
  · omega

theorem checkArguments_no_s (st : ArgState) (hr : st.rflag ≠ 0) (hR : 1 ≤ st.ROWS)
    (hc : st.cflag ≠ 0) (hC : 1 ≤ st.COLUMNS) (hs : st.sflag = 0) :
    checkArguments st = .error (st.usage "Usage: %s -s number of time steps\n") := by
  unfold checkArguments
  rw [if_neg hr, if_neg (by omega), if_neg hc, if_neg (by omega), if_pos hs]

/-- C16 (amended).  For the results `opts` of `getopt`, with "the value" of an
option the one of its last occurrence:
* when one of `-r`, `-c`, `-s` is absent or has a value below 1, `getArguments`
  exits with the failure status, and `main` has then allocated no grid;
* when `-r` and `-c` are present with values at least 1, `-s` is absent and the
  loop met no unknown option character that is not printable, the line printed
  last is the usage line naming the number of time steps;
* when all three are present with values at least 1 and the loop met no
  unknown option character that is not printable, `getArguments` returns with
  ROWS, COLUMNS and TIME_STEPS set to those values. -/
theorem getArguments_spec (isprint : Int → Bool) (draws : Nat → ℚ)
    (opts : List GetoptResult) (ROWS COLUMNS TIME_STEPS : Int) (fresh₁ fresh₂ : Grid)
    (heap₁ heap₂ : Int → Bool) :
    ((lastArg 'r'.toNat opts = none ∨ (∃ v, lastArg 'r'.toNat opts = some v ∧ v < 1) ∨
      lastArg 'c'.toNat opts = none ∨ (∃ v, lastArg 'c'.toNat opts = some v ∧ v < 1) ∨
      lastArg 's'.toNat opts = none ∨ (∃ v, lastArg 's'.toNat opts = some v ∧ v < 1)) →
      (∃ e, getArguments isprint opts ROWS COLUMNS TIME_STEPS = .error e) ∧
      (main isprint draws opts ROWS COLUMNS TIME_STEPS fresh₁ fresh₂ heap₁ heap₂).failed
        = true ∧
      (main isprint draws opts ROWS COLUMNS TIME_STEPS fresh₁ fresh₂ heap₁
        heap₂).gridsAllocated = 0 ∧
      (main isprint draws opts ROWS COLUMNS TIME_STEPS fresh₁ fresh₂ heap₁ heap₂).final
        = none) ∧
    (¬ hasUnprintable isprint opts →
      (∃ v, lastArg 'r'.toNat opts = some v ∧ 1 ≤ v) →
      (∃ v, lastArg 'c'.toNat opts = some v ∧ 1 ≤ v) →
      lastArg 's'.toNat opts = none →
      ∃ e, getArguments isprint opts ROWS COLUMNS TIME_STEPS = .error e ∧
        e.err.getLast?
          = some { format := "Usage: %s -s number of time steps\n", optopt := none }) ∧
    (¬ hasUnprintable isprint opts →
      ∀ vr vc vs, lastArg 'r'.toNat opts = some vr → lastArg 'c'.toNat opts = some vc →
        lastArg 's'.toNat opts = some vs → 1 ≤ vr → 1 ≤ vc → 1 ≤ vs →
        ∃ st, getArguments isprint opts ROWS COLUMNS TIME_STEPS = .ok st ∧
          st.ROWS = vr ∧ st.COLUMNS = vc ∧ st.TIME_STEPS = vs) := by
  refine ⟨?_, ?_, ?_⟩
  · intro hbad
    have hex : ∃ e, getArguments isprint opts ROWS COLUMNS TIME_STEPS = .error e := by
      unfold getArguments
      cases hl : getoptLoop isprint opts
          { rflag := 0, cflag := 0, sflag := 0, ROWS := ROWS, COLUMNS := COLUMNS,
            TIME_STEPS := TIME_STEPS, err := [] } with
      | error e => exact ⟨e, rfl⟩
      | ok st1 =>
        obtain ⟨a1, a2, a3, a4, a5, a6⟩ := getoptLoop_fields isprint opts _ st1 hl
        apply checkArguments_exit
        rw [a1, a2, a3, a4, a5, a6]
        rcases hbad with h | ⟨v, h, hv⟩ | h | ⟨v, h, hv⟩ | h | ⟨v, h, hv⟩
        · exact Or.inl (by rw [h]; simp)
        · exact Or.inr (Or.inl (by rw [h]; simpa using hv))
        · exact Or.inr (Or.inr (Or.inl (by rw [h]; simp)))
        · exact Or.inr (Or.inr (Or.inr (Or.inl (by rw [h]; simpa using hv))))
        · exact Or.inr (Or.inr (Or.inr (Or.inr (Or.inl (by rw [h]; simp)))))
        · exact Or.inr (Or.inr (Or.inr (Or.inr (Or.inr (by rw [h]; simpa using hv)))))
    obtain ⟨e, he⟩ := hex
    rw [main_of_exit isprint draws opts ROWS COLUMNS TIME_STEPS fresh₁ fresh₂ heap₁ heap₂ e he]
    exact ⟨⟨e, he⟩, rfl, rfl, rfl⟩
  · rintro hclean ⟨vr, hr, hvr⟩ ⟨vc, hc, hvc⟩ hs
    obtain ⟨st1, hl⟩ := getoptLoop_ok_of_clean isprint opts
      { rflag := 0, cflag := 0, sflag := 0, ROWS := ROWS, COLUMNS := COLUMNS,
        TIME_STEPS := TIME_STEPS, err := [] } hclean
    obtain ⟨a1, a2, a3, a4, a5, a6⟩ := getoptLoop_fields isprint opts _ st1 hl
    refine ⟨st1.usage "Usage: %s -s number of time steps\n", ?_, ?_⟩
    · unfold getArguments
      rw [hl]
      apply checkArguments_no_s
      · rw [a1, hr]; simp
      · rw [a2, hr]; simpa using hvr
      · rw [a3, hc]; simp
      · rw [a4, hc]; simpa using hvc
      · rw [a5, hs]; simp
    · simp [ArgState.usage]
  · intro hclean vr vc vs hr hc hs hvr hvc hvs
    obtain ⟨st1, hl⟩ := getoptLoop_ok_of_clean isprint opts
      { rflag := 0, cflag := 0, sflag := 0, ROWS := ROWS, COLUMNS := COLUMNS,
        TIME_STEPS := TIME_STEPS, err := [] } hclean
    obtain ⟨a1, a2, a3, a4, a5, a6⟩ := getoptLoop_fields isprint opts _ st1 hl
    refine ⟨st1, ?_, ?_, ?_, ?_⟩
    · unfold getArguments
      rw [hl]
      apply checkArguments_ok
      · rw [a1, hr]; simp
      · rw [a2, hr]; simpa using hvr
      · rw [a3, hc]; simp
      · rw [a4, hc]; simpa using hvc
      · rw [a5, hs]; simp
      · rw [a6, hs]; simpa using hvs
    · rw [a2, hr]; simp
    · rw [a4, hc]; simp
    · rw [a6, hs]; simp

/-- C16 as stated fails twice.  With no option at all `-s` is absent, and
`getArguments` exits after printing only the usage line of `-r`, which does
not name the time steps.  With `-r 3 -c 3 -s 3` followed by an option whose
character is the byte 0x01, all three flags are present with values at least
1, and `getArguments` exits in the loop instead of returning. -/
theorem getArguments_counterexample :
    (lastArg 's'.toNat [] = none ∧
      ∃ e, getArguments isprintC [] 0 0 0 = .error e ∧
        e.err = [{ format := "Usage: %s -r number of rows\n", optopt := none }]) ∧
    (lastArg 'r'.toNat (goodOpts ++ [unknownCtrl]) = some 3 ∧
      lastArg 'c'.toNat (goodOpts ++ [unknownCtrl]) = some 3 ∧
      lastArg 's'.toNat (goodOpts ++ [unknownCtrl]) = some 3 ∧
      ∃ e, getArguments isprintC (goodOpts ++ [unknownCtrl]) 0 0 0 = .error e ∧
        e.err = [{ format := "Unknown option character `\\x%x'.\n", optopt := some 1 }]) :=
  ⟨⟨rfl, _, rfl, rfl⟩, by decide, by decide, by decide, _, rfl, rfl⟩

/-- C16 (amended) on three command lines: `-r 3 -c 3 -s 3` returns with the
three values 3; `-r 3 -c 3` exits, the last line printed naming the time
steps; `-r 3 -c 3 -s 0` exits and `main` allocates no grid. -/
theorem getArguments_spec_witness :
    (∃ st, getArguments isprintC goodOpts 0 0 0 = .ok st ∧
      st.ROWS = 3 ∧ st.COLUMNS = 3 ∧ st.TIME_STEPS = 3) ∧
    (∃ e, getArguments isprintC (goodOpts.take 2) 0 0 0 = .error e ∧
      e.err.getLast?
        = some { format := "Usage: %s -s number of time steps\n", optopt := none }) ∧
    (main isprintC zeroDraws
      (goodOpts.take 2 ++ [{ c := 's'.toNat, optargValue := 0, optopt := 0 }]) 0 0 0
      (fun _ _ => 0) (fun _ _ => 0) (fun _ => true) (fun _ => true)).gridsAllocated = 0 :=
  ⟨(getArguments_spec isprintC zeroDraws goodOpts 0 0 0 (fun _ _ => 0) (fun _ _ => 0)
      (fun _ => true) (fun _ => true)).2.2
      (by decide) 3 3 3 (by decide) (by decide) (by decide) (by decide) (by decide) (by decide),
    (getArguments_spec isprintC zeroDraws (goodOpts.take 2) 0 0 0 (fun _ _ => 0)
      (fun _ _ => 0) (fun _ => true) (fun _ => true)).2.1 (by decide)
      ⟨3, by decide, by decide⟩ ⟨3, by decide, by decide⟩ (by decide),
    ((getArguments_spec isprintC zeroDraws
      (goodOpts.take 2 ++ [{ c := 's'.toNat, optargValue := 0, optopt := 0 }]) 0 0 0
      (fun _ _ => 0) (fun _ _ => 0) (fun _ => true) (fun _ => true)).1
      (Or.inr (Or.inr (Or.inr (Or.inr (Or.inr ⟨0, by decide, by decide⟩)))))).2.2.1⟩

/-- C17 (the code departs from it).  For `-r 3 -c 3 -s 3 -x` the loop gets `'?'`
with the option character `x`, which is none of `r`, `c`, `s`.  The character
is printable, so line 156 prints the complaint and the `switch` ends without
`exit`: `getArguments` returns with the three values 3, and `main` goes on to
allocate its two grids (the heap has room) and to run.  Only the branch for a character that is
not printable (lines 157-160) calls `exit`. -/
theorem unknown_printable_option_does_not_exit :
    unknownX.c = '?'.toNat ∧ unknownX.optopt ≠ 'r'.toNat ∧ unknownX.optopt ≠ 'c'.toNat ∧
    unknownX.optopt ≠ 's'.toNat ∧
    (∃ st, getArguments isprintC (goodOpts ++ [unknownX]) 0 0 0 = .ok st ∧
      st.ROWS = 3 ∧ st.COLUMNS = 3 ∧ st.TIME_STEPS = 3 ∧
      st.err = [{ format := "Unknown option `-%c'.\n", optopt := some 'x'.toNat }]) ∧
    (main isprintC zeroDraws (goodOpts ++ [unknownX]) 0 0 0 (fun _ _ => 0)
      (fun _ _ => 0) (fun _ => true) (fun _ => true)).failed = false ∧
    (main isprintC zeroDraws (goodOpts ++ [unknownX]) 0 0 0 (fun _ _ => 0)
      (fun _ _ => 0) (fun _ => true) (fun _ => true)).gridsAllocated = 2 ∧
    (∃ e, getArguments isprintC (goodOpts ++ [unknownCtrl]) 0 0 0 = .error e) :=
  ⟨by decide, by decide, by decide, by decide, ⟨_, rfl, rfl, rfl, rfl, rfl⟩, rfl, rfl, _, rfl⟩

/-! ## allocateGrid -/

/-- A pass of the row loop that yields a grid has set the row `current_row`
and nothing else, and neither the sum nor the `new` has failed. -/
theorem allocateRow_eq_some (heap : Int → Bool) (COLUMNS current_row : Int)
    (x : Option Allocated) (b : Allocated) (h : allocateRow heap COLUMNS current_row x = some b) :
    ∃ a, x = some a ∧
      b = { a with rowLength := fun i => if i = current_row then some (COLUMNS + 2)
                                         else a.rowLength i } ∧
      COLUMNS + 2 ≤ INT_MAX ∧ 0 ≤ COLUMNS + 2 ∧ heap (current_row + 1) = true := by
  cases x with
  | none => exact absurd h (fun e => Option.noConfusion e)
  | some a =>
    refine ⟨a, rfl, ?_⟩
    unfold allocateRow at h
    simp only at h
    split_ifs at h with h1 h2 h3
    refine ⟨(Option.some.inj h).symm, by omega, by omega, ?_⟩
    cases hk : heap (current_row + 1)
    · exact absurd hk h3
    · rfl

theorem allocateRow_none (heap : Int → Bool) (COLUMNS current_row : Int) :
    allocateRow heap COLUMNS current_row none = none := rfl

/-- Once there is no grid, there is none at the end of the row loop. -/
theorem allocateRows_none (heap : Int → Bool) (COLUMNS lo hi : Int) :
    forTo lo hi (allocateRow heap COLUMNS) none = none := by
  apply forTo_inv (fun x : Option Allocated => x = none) _ _ _ _ _ rfl
  intro j t _ _ ht
  rw [ht]
  rfl

/-- A pass of the row loop whose sum overflows or whose `new` throws. -/
theorem allocateRow_fails (heap : Int → Bool) (COLUMNS current_row : Int) (x : Option Allocated)
    (h : INT_MAX < COLUMNS + 2 ∨ COLUMNS + 2 < 0 ∨ heap (current_row + 1) = false) :
    allocateRow heap COLUMNS current_row x = none := by
  cases x with
  | none => rfl
  | some a =>
    unfold allocateRow
    simp only
    split_ifs with h1 h2 h3
    · rfl
    · rfl
    · rfl
    · rcases h with h | h | h
      · exact absurd h h1
      · exact absurd h h2
      · exact absurd h h3

/-- The row loop fails when one of its passes does. -/
theorem allocateRows_fails (heap : Int → Bool) (COLUMNS hi m : Int) (x : Option Allocated)
    (h1 : 0 ≤ m) (h2 : m ≤ hi)
    (h : INT_MAX < COLUMNS + 2 ∨ COLUMNS + 2 < 0 ∨ heap (m + 1) = false) :
    forTo 0 hi (allocateRow heap COLUMNS) x = none := by
  rw [forTo_split _ 0 hi m x h1 h2, allocateRow_fails heap COLUMNS m _ h, allocateRows_none]

/-- The row loop succeeds when no sum overflows and the heap has room at each
of its `new`. -/
theorem allocateRows_some (heap : Int → Bool) (COLUMNS hi : Int) (a : Allocated)
    (hC1 : COLUMNS + 2 ≤ INT_MAX) (hC2 : 0 ≤ COLUMNS + 2)
    (hheap : ∀ k, 1 ≤ k → k ≤ hi + 1 → heap k = true) :
    ∃ b, forTo 0 hi (allocateRow heap COLUMNS) (some a) = some b := by
  apply forTo_inv (fun x : Option Allocated => ∃ b, x = some b) _ 0 hi _ _ ⟨a, rfl⟩
  rintro j t hj1 hj2 ⟨b, rfl⟩
  unfold allocateRow
  simp only
  have hk : ¬ heap (j + 1) = false := by
    rw [hheap (j + 1) (by omega) (by omega)]
    exact Bool.noConfusion
  rw [if_neg (by omega), if_neg (by omega), if_neg hk]
  exact ⟨_, rfl⟩

/-- What the row loop leaves: the row count and the cells it started from, the
rows `0..hi` set to `COLUMNS + 2` cells, the other rows as before. -/
theorem allocateRows_spec (heap : Int → Bool) (COLUMNS hi : Int) (a b : Allocated)
    (h : forTo 0 hi (allocateRow heap COLUMNS) (some a) = some b) :
    b.rowCount = a.rowCount ∧ b.cells = a.cells ∧
    (∀ i, 0 ≤ i → i ≤ hi → b.rowLength i = some (COLUMNS + 2)) ∧
    (∀ i, i < 0 ∨ hi < i → b.rowLength i = a.rowLength i) := by
  refine ⟨?_, ?_, ?_, ?_⟩
  · have key := forTo_inv (fun x : Option Allocated => ∀ c, x = some c → c.rowCount = a.rowCount)
      (allocateRow heap COLUMNS) 0 hi (some a) ?_ (fun c hc => by rw [← Option.some.inj hc])
    · exact key b h
    · intro j t _ _ ht c hc
      obtain ⟨d, hd, e, _⟩ := allocateRow_eq_some heap COLUMNS j t c hc
      rw [e]
      exact ht d hd
  · have key := forTo_inv (fun x : Option Allocated => ∀ c, x = some c → c.cells = a.cells)
      (allocateRow heap COLUMNS) 0 hi (some a) ?_ (fun c hc => by rw [← Option.some.inj hc])
    · exact key b h
    · intro j t _ _ ht c hc
      obtain ⟨d, hd, e, _⟩ := allocateRow_eq_some heap COLUMNS j t c hc
      rw [e]
      exact ht d hd
  · intro i hi0 hi1
    have key := forTo_at
      (fun x : Option Allocated => ∀ c, x = some c → c.rowLength i = some (COLUMNS + 2))
      (allocateRow heap COLUMNS) 0 hi i (some a) hi0 hi1 ?_ ?_
    · exact key b h
    · intro j t hj _ ht c hc
      obtain ⟨d, hd, e, _⟩ := allocateRow_eq_some heap COLUMNS j t c hc
      rw [e]
      show (if i = j then some (COLUMNS + 2) else d.rowLength i) = _
      rw [if_neg (by omega)]
      exact ht d hd
    · intro c hc
      obtain ⟨d, _, e, _⟩ := allocateRow_eq_some heap COLUMNS i _ c hc
      rw [e]
      show (if i = i then some (COLUMNS + 2) else d.rowLength i) = _
      rw [if_pos rfl]
  · intro i hout
    have key := forTo_inv
      (fun x : Option Allocated => ∀ c, x = some c → c.rowLength i = a.rowLength i)
      (allocateRow heap COLUMNS) 0 hi (some a) ?_ (fun c hc => by rw [← Option.some.inj hc])
    · exact key b h
    · intro j t hj1 hj2 ht c hc
      obtain ⟨d, hd, e, _⟩ := allocateRow_eq_some heap COLUMNS j t c hc
      rw [e]
      show (if i = j then some (COLUMNS + 2) else d.rowLength i) = _
      rw [if_neg (by omega)]
      exact ht d hd

/-- A grid that `allocateGrid` yields has `ROWS + 2` rows of `COLUMNS + 2`
cells and the cells of the memory handed out. -/
theorem allocateGrid_some (heap : Int → Bool) (ROWS COLUMNS : Int) (fresh : Grid)
    (a : Allocated) (h : allocateGrid heap ROWS COLUMNS fresh = some a) :
    a.rowCount = ROWS + 2 ∧
    (∀ i, 0 ≤ i → i < ROWS + 2 → a.rowLength i = some (COLUMNS + 2)) ∧
    (∀ i, i < 0 ∨ ROWS + 2 ≤ i → a.rowLength i = none) ∧
    a.cells = fresh := by
  unfold allocateGrid at h
  split_ifs at h
  obtain ⟨e1, e2, e3, e4⟩ := allocateRows_spec heap COLUMNS (ROWS + 1) _ a h
  refine ⟨e1, ?_, ?_, e2⟩
  · intro i h0 h1
    exact e3 i h0 (by omega)
  · intro i hi
    rw [e4 i (by omega)]

/-- `allocateGrid` yields a grid when neither sum overflows, neither length is
negative and the heap has room at each `new`. -/
theorem allocateGrid_succeeds (heap : Int → Bool) (ROWS COLUMNS : Int) (fresh : Grid)
    (hR1 : ROWS + 2 ≤ INT_MAX) (hR2 : 0 ≤ ROWS + 2)
    (hC1 : COLUMNS + 2 ≤ INT_MAX) (hC2 : 0 ≤ COLUMNS + 2)
    (hheap : ∀ k, 0 ≤ k → k ≤ ROWS + 2 → heap k = true) :
    ∃ a, allocateGrid heap ROWS COLUMNS fresh = some a := by
  unfold allocateGrid
  have hk : ¬ heap 0 = false := by
    rw [hheap 0 (le_refl _) hR2]
    exact Bool.noConfusion
  rw [if_neg (by omega), if_neg (by omega), if_neg hk]
  exact allocateRows_some heap COLUMNS (ROWS + 1) _ hC1 hC2
    (fun k hk1 hk2 => hheap k (by omega) (by omega))

/-- `allocateGrid` yields no grid when a sum overflows or the heap has no room
at one of its `new`. -/
theorem allocateGrid_fails (heap : Int → Bool) (ROWS COLUMNS : Int) (fresh : Grid)
    (hR : 1 ≤ ROWS)
    (h : INT_MAX < ROWS + 2 ∨ INT_MAX < COLUMNS + 2 ∨ COLUMNS + 2 < 0 ∨
      ∃ k, 0 ≤ k ∧ k ≤ ROWS + 2 ∧ heap k = false) :
    allocateGrid heap ROWS COLUMNS fresh = none := by
  unfold allocateGrid
  split_ifs with h1 h2 h3
  · rfl
  · rfl
  · rfl
  · rcases h with h | h | h | ⟨k, hk0, hk1, hk⟩
    · exact absurd h h1
    · exact allocateRows_fails heap COLUMNS (ROWS + 1) 0 _ (le_refl _) (by omega) (Or.inl h)
    · exact allocateRows_fails heap COLUMNS (ROWS + 1) 0 _ (le_refl _) (by omega)
        (Or.inr (Or.inl h))
    · by_cases hk2 : k = 0
      · rw [hk2] at hk
        exact absurd hk h3
      · exact allocateRows_fails heap COLUMNS (ROWS + 1) (k - 1) _ (by omega) (by omega)
          (Or.inr (Or.inr (by rw [show k - 1 + 1 = k by omega]; exact hk)))

/-- C18 as stated fails.  With the allocated memory holding 5 in every cell,
the grid `allocateGrid` yields for ROWS = COLUMNS = 1 has cells that are not
0. -/
theorem allocateGrid_counterexample :
    ∃ a, allocateGrid (fun _ => true) 1 1 (fun _ _ => 5) = some a ∧
      a.cells 0 0 = 5 ∧ ¬ ∀ i j, a.cells i j = 0 := by
  obtain ⟨a, ha⟩ := allocateGrid_succeeds (fun _ => true) 1 1 (fun _ _ => 5) (by decide)
    (by decide) (by decide) (by decide) (fun _ _ _ => rfl)
  have hc := (allocateGrid_some (fun _ => true) 1 1 (fun _ _ => 5) a ha).2.2.2
  refine ⟨a, ha, by rw [hc], ?_⟩
  intro h
  have h0 := h 0 0
  rw [hc] at h0
  exact absurd h0 (by decide)

/-- C18 (amended).  For ROWS ≥ 1 and COLUMNS ≥ 1: when ROWS + 2 and
COLUMNS + 2 do not exceed INT_MAX = 2147483647 and the heap has room at each
`new`, `allocateGrid` yields a grid; it yields none when one of the sums
exceeds INT_MAX or a `new` finds no room.  A grid it yields has exactly
ROWS + 2 rows (indices 0 to ROWS + 1) of COLUMNS + 2 cells each, and nothing is
stored into the cells: every cell, border included, holds what the allocated
memory held. -/
theorem allocateGrid_spec (heap : Int → Bool) (ROWS COLUMNS : Int) (fresh : Grid)
    (hR : 1 ≤ ROWS) (hC : 1 ≤ COLUMNS) :
    (ROWS + 2 ≤ INT_MAX → COLUMNS + 2 ≤ INT_MAX →
      (∀ k, 0 ≤ k → k ≤ ROWS + 2 → heap k = true) →
      ∃ a, allocateGrid heap ROWS COLUMNS fresh = some a) ∧
    (INT_MAX < ROWS + 2 ∨ INT_MAX < COLUMNS + 2 ∨
        (∃ k, 0 ≤ k ∧ k ≤ ROWS + 2 ∧ heap k = false) →
      allocateGrid heap ROWS COLUMNS fresh = none) ∧
    (∀ a, allocateGrid heap ROWS COLUMNS fresh = some a →
      a.rowCount = ROWS + 2 ∧
      (∀ i, 0 ≤ i → i < ROWS + 2 → a.rowLength i = some (COLUMNS + 2)) ∧
      (∀ i, i < 0 ∨ ROWS + 2 ≤ i → a.rowLength i = none) ∧
      (∀ i j, a.cells i j = fresh i j)) := by
  refine ⟨?_, ?_, ?_⟩
  · intro hR1 hC1 hheap
    exact allocateGrid_succeeds heap ROWS COLUMNS fresh hR1 (by omega) hC1 (by omega) hheap
  · intro h
    apply allocateGrid_fails heap ROWS COLUMNS fresh hR
    rcases h with h | h | h
    · exact Or.inl h
    · exact Or.inr (Or.inl h)
    · exact Or.inr (Or.inr (Or.inr h))
  · intro a ha
    obtain ⟨e1, e2, e3, e4⟩ := allocateGrid_some heap ROWS COLUMNS fresh a ha
    refine ⟨e1, e2, e3, ?_⟩
    intro i j
    rw [e4]

/-- C18 (amended) at ROWS = COLUMNS = 1 with 5 in every cell of the memory
handed out: with room on the heap there is a grid, of 3 rows of 3 cells, with
no row 3 and the cell (0,0) holding 5; with no room at the `new` of row 1, and
at COLUMNS = 2147483647, there is none. -/
theorem allocateGrid_spec_witness :
    (∃ a, allocateGrid (fun _ => true) 1 1 (fun _ _ => 5) = some a ∧
      a.rowCount = 3 ∧ a.rowLength 2 = some 3 ∧ a.rowLength 3 = none ∧ a.cells 0 0 = 5) ∧
    allocateGrid (fun k => decide (k ≠ 2)) 1 1 (fun _ _ => 5) = none ∧
    allocateGrid (fun _ => true) 1 2147483647 (fun _ _ => 5) = none :=
  ⟨((allocateGrid_spec (fun _ => true) 1 1 (fun _ _ => 5) (by decide) (by decide)).1
      (by decide) (by decide) (fun _ _ _ => rfl)).elim (fun a ha =>
      ⟨a, ha,
        ((allocateGrid_spec (fun _ => true) 1 1 (fun _ _ => 5) (by decide) (by decide)).2.2
          a ha).1,
        ((allocateGrid_spec (fun _ => true) 1 1 (fun _ _ => 5) (by decide) (by decide)).2.2
          a ha).2.1 2 (by decide) (by decide),
        ((allocateGrid_spec (fun _ => true) 1 1 (fun _ _ => 5) (by decide) (by decide)).2.2
          a ha).2.2.1 3 (Or.inr (by decide)),
        ((allocateGrid_spec (fun _ => true) 1 1 (fun _ _ => 5) (by decide) (by decide)).2.2
          a ha).2.2.2 0 0⟩),
    (allocateGrid_spec (fun k => decide (k ≠ 2)) 1 1 (fun _ _ => 5) (by decide)
      (by decide)).2.1 (Or.inr (Or.inr ⟨2, by decide, by decide, by decide⟩)),
    (allocateGrid_spec (fun _ => true) 1 2147483647 (fun _ _ => 5) (by decide)
      (by decide)).2.1 (Or.inr (Or.inl (by decide)))⟩

/-! ## The evaluation loop reads one snapshot -/

/-- C19.  The evaluation loop never writes to `current_grid`: after the loop
every cell of it, interior and border, is as before; no single pass of the
`switch` changes it; and at the moment the loop reaches any cell `(r, c)`
`current_grid` is still the grid the loop started from, so `check_neighbors`
there reads that grid. -/
theorem evaluation_keeps_current (draws : Nat → ℚ) (ROWS COLUMNS : Int) (s : Sim) :
    (∀ i j, (evalGrid draws ROWS COLUMNS s).current_grid i j = s.current_grid i j) ∧
    (∀ r c (t : Sim), (evalCell draws r c t).current_grid = t.current_grid) ∧
    (∀ r c, (evalBefore draws COLUMNS r c s).current_grid = s.current_grid) ∧
    (∀ r c, check_neighbors (evalBefore draws COLUMNS r c s).current_grid r c
      = check_neighbors s.current_grid r c) := by
  refine ⟨?_, ?_, ?_, ?_⟩
  · intro i j
    rw [evalGrid_current]
  · intro r c t
    exact evalCell_current draws r c t
  · intro r c
    exact evalBefore_current draws COLUMNS r c s
  · intro r c
    rw [evalBefore_current]

/-! ## Every index stays inside the grid -/

/-- A logging loop moves the state as the plain loop does. -/
theorem forTo_logged_fst {σ : Type} (body : Int → σ → σ) (idx : Int → σ → List (Int × Int))
    (lo hi : Int) (p : σ × List (Int × Int)) :
    (forTo lo hi (logged body idx) p).1 = forTo lo hi body p.1 := by
  unfold forTo
  generalize (hi + 1 - lo).toNat = n
  induction n generalizing lo p with
  | zero => rfl
  | succ k ih =>
    simp only [forLoop]
    rw [ih]
    rfl

/-- What holds of every index a pass logs holds of the whole log. -/
theorem forTo_logged_all {σ : Type} (P : Int × Int → Prop) (body : Int → σ → σ)
    (idx : Int → σ → List (Int × Int)) (lo hi : Int) (p : σ × List (Int × Int))
    (h : ∀ i t, lo ≤ i → i ≤ hi → ∀ x ∈ idx i t, P x) (hp : ∀ x ∈ p.2, P x) :
    ∀ x ∈ (forTo lo hi (logged body idx) p).2, P x := by
  apply forTo_inv (fun q : σ × List (Int × Int) => ∀ x ∈ q.2, P x) _ lo hi p _ hp
  intro j q hj0 hj1 hq x hx
  rcases List.mem_append.mp hx with hx1 | hx2
  · exact hq x hx1
  · exact h j q.1 hj0 hj1 x hx2

theorem neighborReads_near (r c nr nc : Int) (ret : Option Int) (x : Int × Int)
    (hx : x ∈ neighborReads r c nr nc ret) : x = (nr, nc) := by
  unfold neighborReads at hx
  cases ret with
  | some v => simp at hx
  | none =>
    simp only at hx
    split_ifs at hx
    · simpa using hx
    · simp at hx

/-- `check_neighbors` reads only in the 3x3 block around its cell. -/
theorem check_neighborsReads_near (g : Grid) (r c : Int) :
    ∀ x ∈ check_neighborsReads g r c,
      r - 1 ≤ x.1 ∧ x.1 ≤ r + 1 ∧ c - 1 ≤ x.2 ∧ x.2 ≤ c + 1 := by
  unfold check_neighborsReads
  apply forTo_logged_all
  · intro nr ret hnr0 hnr1
    apply forTo_logged_all
    · intro nc ret2 hnc0 hnc1 x hx
      rw [neighborReads_near r c nr nc ret2 x hx]
      exact ⟨hnr0, hnr1, hnc0, hnc1⟩
    · intro x hx
      simp at hx
  · intro x hx
    simp at hx

theorem evalCellAccesses_within (ROWS COLUMNS r c : Int) (s : Sim)
    (hr1 : 1 ≤ r) (hr2 : r ≤ ROWS) (hc1 : 1 ≤ c) (hc2 : c ≤ COLUMNS) :
    ∀ x ∈ evalCellAccesses r c s, withinGrid ROWS COLUMNS x := by
  intro x hx
  unfold evalCellAccesses at hx
  have hself : withinGrid ROWS COLUMNS (r, c) := by
    unfold withinGrid
    exact ⟨by omega, by omega, by omega, by omega⟩
  rcases List.mem_cons.mp hx with rfl | hx
  · exact hself
  rcases List.mem_append.mp hx with hx | hx
  · split_ifs at hx
    · have h := check_neighborsReads_near s.current_grid r c x hx
      unfold withinGrid
      omega
    · simp at hx
  · rw [List.mem_singleton.mp hx]
    exact hself

theorem evalGridAccesses_within (draws : Nat → ℚ) (ROWS COLUMNS : Int) (s : Sim) :
    ∀ x ∈ evalGridAccesses draws ROWS COLUMNS s, withinGrid ROWS COLUMNS x := by
  unfold evalGridAccesses
  apply forTo_logged_all
  · intro r t hr1 hr2
    apply forTo_logged_all
    · intro c u hc1 hc2
      exact evalCellAccesses_within ROWS COLUMNS r c u hr1 hr2 hc1 hc2
    · intro x hx
      simp at hx
  · intro x hx
    simp at hx

theorem ghostRowsAccesses_within (ROWS COLUMNS : Int) (g : Grid) (hR : 1 ≤ ROWS) :
    ∀ x ∈ ghostRowsAccesses ROWS COLUMNS g, withinGrid ROWS COLUMNS x := by
  unfold ghostRowsAccesses
  apply forTo_logged_all
  · intro c t hc0 hc1 x hx
    simp only [List.mem_cons, List.mem_singleton, List.mem_nil_iff, or_false] at hx
    unfold withinGrid
    rcases hx with rfl | rfl | rfl | rfl <;> exact ⟨by omega, by omega, by omega, by omega⟩
  · intro x hx
    simp at hx

theorem ghostColumnsAccesses_within (ROWS COLUMNS : Int) (g : Grid) (hC : 1 ≤ COLUMNS) :
    ∀ x ∈ ghostColumnsAccesses ROWS COLUMNS g, withinGrid ROWS COLUMNS x := by
  unfold ghostColumnsAccesses
  apply forTo_logged_all
  · intro r t hr0 hr1 x hx
    simp only [List.mem_cons, List.mem_singleton, List.mem_nil_iff, or_false] at hx
    unfold withinGrid
    rcases hx with rfl | rfl | rfl | rfl <;> exact ⟨by omega, by omega, by omega, by omega⟩
  · intro x hx
    simp at hx

theorem copyGridAccesses_within (ROWS COLUMNS : Int) (current_grid next_grid : Grid) :
    ∀ x ∈ copyGridAccesses ROWS COLUMNS current_grid next_grid,
      withinGrid ROWS COLUMNS x := by
  unfold copyGridAccesses
  apply forTo_logged_all
  · intro r t hr1 hr2
    apply forTo_logged_all
    · intro c u hc1 hc2 x hx
      simp only [List.mem_cons, List.mem_singleton, List.mem_nil_iff, or_false, or_self] at hx
      rw [hx]
      unfold withinGrid
      exact ⟨by omega, by omega, by omega, by omega⟩
    · intro x hx
      simp at hx
  · intro x hx
    simp at hx

theorem initializeGridAccesses_within (draws : Nat → ℚ) (ROWS COLUMNS : Int) (s : Seeding) :
    ∀ x ∈ initializeGridAccesses draws ROWS COLUMNS s, withinGrid ROWS COLUMNS x := by
  unfold initializeGridAccesses
  apply forTo_logged_all
  · intro r t hr1 hr2
    apply forTo_logged_all
    · intro c u hc1 hc2 x hx
      rw [List.mem_singleton.mp hx]
      unfold withinGrid
      exact ⟨by omega, by omega, by omega, by omega⟩
    · intro x hx
      simp at hx
  · intro x hx
    simp at hx

theorem timeStepAccesses_within (draws : Nat → ℚ) (ROWS COLUMNS : Int) (s : Sim)
    (hR : 1 ≤ ROWS) (hC : 1 ≤ COLUMNS) :
    ∀ x ∈ timeStepAccesses draws ROWS COLUMNS s, withinGrid ROWS COLUMNS x := by
  intro x hx
  unfold timeStepAccesses at hx
  rcases List.mem_append.mp hx with h | hx
  · exact ghostRowsAccesses_within ROWS COLUMNS _ hR x h
  rcases List.mem_append.mp hx with h | hx
  · exact ghostColumnsAccesses_within ROWS COLUMNS _ hC x h
  rcases List.mem_append.mp hx with h | h
  · exact evalGridAccesses_within draws ROWS COLUMNS _ x h
  · exact copyGridAccesses_within ROWS COLUMNS _ _ x h

theorem mushroomsAccesses_within (draws : Nat → ℚ) (ROWS COLUMNS TIME_STEPS : Int) (s : Sim)
    (hR : 1 ≤ ROWS) (hC : 1 ≤ COLUMNS) :
    ∀ x ∈ mushroomsAccesses draws ROWS COLUMNS TIME_STEPS s, withinGrid ROWS COLUMNS x := by
  unfold mushroomsAccesses
  apply forTo_logged_all
  · intro i t _ _
    exact timeStepAccesses_within draws ROWS COLUMNS t hR hC
  · intro x hx
    simp at hx

/-- The state the logging `mushrooms` ends in is the one `mushrooms` returns. -/
theorem mushrooms_logged (draws : Nat → ℚ) (ROWS COLUMNS TIME_STEPS : Int) (s : Sim)
    (hmax : TIME_STEPS < INT_MAX) :
    some (forTo 0 TIME_STEPS
      (logged (fun _ s => timeStep draws ROWS COLUMNS s)
        (fun _ s => timeStepAccesses draws ROWS COLUMNS s))
      (s, [])).1 = mushrooms draws ROWS COLUMNS TIME_STEPS s := by
  rw [mushrooms_eq draws ROWS COLUMNS TIME_STEPS s hmax, forTo_logged_fst]

theorem withinGrid_inBounds (heap : Int → Bool) (ROWS COLUMNS : Int) (fresh : Grid)
    (x : Int × Int) (h : withinGrid ROWS COLUMNS x)
    (a : Allocated) (ha : allocateGrid heap ROWS COLUMNS fresh = some a) :
    a.inBounds x.1 x.2 := by
  unfold withinGrid at h
  unfold Allocated.inBounds
  obtain ⟨e1, e2, _, _⟩ := allocateGrid_some heap ROWS COLUMNS fresh a ha
  rw [e1]
  exact ⟨h.1, by omega, COLUMNS + 2, e2 x.1 h.1 (by omega), h.2.2.1, by omega⟩

/-- C20.  For ROWS ≥ 1 and COLUMNS ≥ 1 and any TIME_STEPS, every index pair
that `initializeGrid`, the two wrap loops, the evaluation loop, `copyGrid` and
so the whole of `mushrooms` read or write, from any memory, has its row in
`0..ROWS+1` and its column in `0..COLUMNS+1`, and so lies inside the arrays of
every grid `allocateGrid` yields, whatever the heap and the memory handed out
(and it yields one when no sum exceeds INT_MAX and the heap has room); the
same holds of what `check_neighbors` reads when it is called on an interior
cell. -/
theorem accesses_within_grid (draws : Nat → ℚ) (ROWS COLUMNS TIME_STEPS : Int)
    (seed : Seeding) (s : Sim) (fresh : Grid) (heap : Int → Bool)
    (hR : 1 ≤ ROWS) (hC : 1 ≤ COLUMNS) :
    (∀ x ∈ initializeGridAccesses draws ROWS COLUMNS seed,
      withinGrid ROWS COLUMNS x ∧
      ∀ a, allocateGrid heap ROWS COLUMNS fresh = some a → a.inBounds x.1 x.2) ∧
    (∀ x ∈ mushroomsAccesses draws ROWS COLUMNS TIME_STEPS s,
      withinGrid ROWS COLUMNS x ∧
      ∀ a, allocateGrid heap ROWS COLUMNS fresh = some a → a.inBounds x.1 x.2) ∧
    (∀ x ∈ ghostRowsAccesses ROWS COLUMNS s.current_grid, withinGrid ROWS COLUMNS x) ∧
    (∀ x ∈ ghostColumnsAccesses ROWS COLUMNS s.current_grid, withinGrid ROWS COLUMNS x) ∧
    (∀ x ∈ evalGridAccesses draws ROWS COLUMNS s, withinGrid ROWS COLUMNS x) ∧
    (∀ x ∈ copyGridAccesses ROWS COLUMNS s.current_grid s.next_grid,
      withinGrid ROWS COLUMNS x) ∧
    (∀ r c, 1 ≤ r → r ≤ ROWS → 1 ≤ c → c ≤ COLUMNS →
      ∀ x ∈ check_neighborsReads s.current_grid r c, withinGrid ROWS COLUMNS x) ∧
    (ROWS + 2 ≤ INT_MAX → COLUMNS + 2 ≤ INT_MAX →
      (∀ k, 0 ≤ k → k ≤ ROWS + 2 → heap k = true) →
      ∃ a, allocateGrid heap ROWS COLUMNS fresh = some a) := by
  refine ⟨?_, ?_, ?_, ?_, ?_, ?_, ?_, ?_⟩
  · intro x hx
    have h := initializeGridAccesses_within draws ROWS COLUMNS seed x hx
    exact ⟨h, withinGrid_inBounds heap ROWS COLUMNS fresh x h⟩
  · intro x hx
    have h := mushroomsAccesses_within draws ROWS COLUMNS TIME_STEPS s hR hC x hx
    exact ⟨h, withinGrid_inBounds heap ROWS COLUMNS fresh x h⟩
  · exact ghostRowsAccesses_within ROWS COLUMNS _ hR
  · exact ghostColumnsAccesses_within ROWS COLUMNS _ hC
  · exact evalGridAccesses_within draws ROWS COLUMNS s
  · exact copyGridAccesses_within ROWS COLUMNS _ _
  · intro r c hr1 hr2 hc1 hc2 x hx
    have h := check_neighborsReads_near s.current_grid r c x hx
    unfold withinGrid
    omega
  · intro hR1 hC1 hheap
    exact allocateGrid_succeeds heap ROWS COLUMNS fresh hR1 (by omega) hC1 (by omega) hheap

/-- C20 on the 1x1 run `staleSim` with TIME_STEPS = 0: the corner (2,2), which
`check_neighbors` reads for the cell (1,1), and the border index (0,2) of the
wrap are among the indices `mushrooms` touches, and they lie in the grid; with
room on the heap `allocateGrid` yields a grid, and the corner (2,2) lies
inside its arrays. -/
theorem accesses_within_grid_witness :
    (2, 2) ∈ mushroomsAccesses zeroDraws 1 1 0 staleSim ∧
    (0, 2) ∈ mushroomsAccesses zeroDraws 1 1 0 staleSim ∧
    withinGrid 1 1 (2, 2) ∧ withinGrid 1 1 (0, 2) ∧
    ∃ a, allocateGrid (fun _ => true) 1 1 (fun _ _ => 0) = some a ∧ a.inBounds 2 2 :=
  ⟨by decide, by decide,
    ((accesses_within_grid zeroDraws 1 1 0 { grid := fun _ _ => 0, drawn := 0 } staleSim
      (fun _ _ => 0) (fun _ => true) (by decide) (by decide)).2.1 (2, 2) (by decide)).1,
    ((accesses_within_grid zeroDraws 1 1 0 { grid := fun _ _ => 0, drawn := 0 } staleSim
      (fun _ _ => 0) (fun _ => true) (by decide) (by decide)).2.1 (0, 2) (by decide)).1,
    ((accesses_within_grid zeroDraws 1 1 0 { grid := fun _ _ => 0, drawn := 0 } staleSim
      (fun _ _ => 0) (fun _ => true) (by decide) (by decide)).2.2.2.2.2.2.2
      (by decide) (by decide) (fun _ _ _ => rfl)).elim (fun a ha =>
      ⟨a, ha,
        ((accesses_within_grid zeroDraws 1 1 0 { grid := fun _ _ => 0, drawn := 0 } staleSim
          (fun _ _ => 0) (fun _ => true) (by decide) (by decide)).2.1 (2, 2)
          (by decide)).2 a ha⟩)⟩

/-! ## The border wrap, applied again -/

theorem wrapStage_interior (ROWS COLUMNS i j : Int) (s : Sim)
    (hi1 : 1 ≤ i) (hi2 : i ≤ ROWS) (hj1 : 1 ≤ j) (hj2 : j ≤ COLUMNS) :
    (wrapStage ROWS COLUMNS s).current_grid i j = s.current_grid i j := by
  show ghostColumns ROWS COLUMNS (ghostRows ROWS COLUMNS s.current_grid) i j = _
  rw [ghostColumns_other ROWS COLUMNS _ i j (by omega) (by omega),
    ghostRows_other ROWS COLUMNS _ i j (by omega) (by omega)]

/-- The two wrap loops leave every cell outside the rows `0..ROWS+1` and the
columns `0..COLUMNS+1` as it was. -/
theorem wrap_outside (ROWS COLUMNS : Int) (g : Grid) (hR : 1 ≤ ROWS) (hC : 1 ≤ COLUMNS)
    (i j : Int) (h : ¬ (0 ≤ i ∧ i ≤ ROWS + 1 ∧ 0 ≤ j ∧ j ≤ COLUMNS + 1)) :
    ghostColumns ROWS COLUMNS (ghostRows ROWS COLUMNS g) i j = g i j := by
  have e1 : ghostColumns ROWS COLUMNS (ghostRows ROWS COLUMNS g) i j
      = ghostRows ROWS COLUMNS g i j := by
    by_cases hi : 0 ≤ i ∧ i ≤ ROWS + 1
    · exact ghostColumns_other ROWS COLUMNS _ i j (by omega) (by omega)
    · rw [ghostColumns_apply, if_neg hi]
  rw [e1]
  by_cases hj : 0 ≤ j ∧ j ≤ COLUMNS + 1
  · exact ghostRows_other ROWS COLUMNS g i j (by omega) (by omega)
  · rw [ghostRows_apply, if_neg hj]

theorem wrapIndex_range (n i : Int) (h : 1 ≤ n) : 1 ≤ (i - 1) % n + 1 ∧ (i - 1) % n + 1 ≤ n := by
  have h1 := Int.emod_nonneg (i - 1) (by omega : n ≠ 0)
  have h2 := Int.emod_lt_of_pos (i - 1) (by omega : 0 < n)
  omega

/-- The two wrap loops, run on a grid they have already wrapped, change
nothing. -/
theorem wrap_idempotent (ROWS COLUMNS : Int) (g : Grid) (hR : 1 ≤ ROWS) (hC : 1 ≤ COLUMNS) :
    ghostColumns ROWS COLUMNS
        (ghostRows ROWS COLUMNS (ghostColumns ROWS COLUMNS (ghostRows ROWS COLUMNS g)))
      = ghostColumns ROWS COLUMNS (ghostRows ROWS COLUMNS g) := by
  funext i j
  by_cases h : 0 ≤ i ∧ i ≤ ROWS + 1 ∧ 0 ≤ j ∧ j ≤ COLUMNS + 1
  · obtain ⟨hi0, hi1, hj0, hj1⟩ := h
    obtain ⟨a1, a2⟩ := wrapIndex_range ROWS i hR
    obtain ⟨b1, b2⟩ := wrapIndex_range COLUMNS j hC
    rw [wrap_apply ROWS COLUMNS _ hR hC i j hi0 hi1 hj0 hj1,
      wrap_apply ROWS COLUMNS g hR hC i j hi0 hi1 hj0 hj1,
      ghostColumns_other ROWS COLUMNS _ _ _ (by omega) (by omega),
      ghostRows_other ROWS COLUMNS _ _ _ (by omega) (by omega)]
  · rw [wrap_outside ROWS COLUMNS _ hR hC i j h]

/-- C25.  For ROWS ≥ 1 and COLUMNS ≥ 1 the border wrap leaves every interior
cell of `current_grid` as it was and touches neither `next_grid` nor the
engine; and it is idempotent: the ghost-row and ghost-column loops run twice
leave the same grid, so the same memory, as run once. -/
theorem wrap_interior_idempotent (ROWS COLUMNS : Int) (s : Sim)
    (hR : 1 ≤ ROWS) (hC : 1 ≤ COLUMNS) :
    (∀ r c, 1 ≤ r → r ≤ ROWS → 1 ≤ c → c ≤ COLUMNS →
      (wrapStage ROWS COLUMNS s).current_grid r c = s.current_grid r c) ∧
    (wrapStage ROWS COLUMNS s).next_grid = s.next_grid ∧
    (wrapStage ROWS COLUMNS s).drawn = s.drawn ∧
    ghostColumns ROWS COLUMNS
        (ghostRows ROWS COLUMNS (ghostColumns ROWS COLUMNS (ghostRows ROWS COLUMNS s.current_grid)))
      = ghostColumns ROWS COLUMNS (ghostRows ROWS COLUMNS s.current_grid) ∧
    wrapStage ROWS COLUMNS (wrapStage ROWS COLUMNS s) = wrapStage ROWS COLUMNS s := by
  refine ⟨?_, rfl, rfl, wrap_idempotent ROWS COLUMNS s.current_grid hR hC, ?_⟩
  · intro r c hr1 hr2 hc1 hc2
    exact wrapStage_interior ROWS COLUMNS r c s hr1 hr2 hc1 hc2
  · simp only [wrapStage, wrap_idempotent ROWS COLUMNS s.current_grid hR hC]

/-- C25 at ROWS = 1, COLUMNS = 2 on `spreadSim`: the interior cell (1,2) keeps
its YOUNG, and a second wrap returns the memory the first one left. -/
theorem wrap_interior_idempotent_witness :
    (wrapStage 1 2 spreadSim).current_grid 1 2 = YOUNG ∧
    wrapStage 1 2 (wrapStage 1 2 spreadSim) = wrapStage 1 2 spreadSim :=
  ⟨((wrap_interior_idempotent 1 2 spreadSim (by decide) (by decide)).1 1 2 (by decide)
      (by decide) (by decide) (by decide)).trans (by decide),
    (wrap_interior_idempotent 1 2 spreadSim (by decide) (by decide)).2.2.2.2⟩

/-! ## After the first step -/

theorem copyStage_synced (ROWS COLUMNS r c : Int) (s : Sim)
    (hr1 : 1 ≤ r) (hr2 : r ≤ ROWS) (hc1 : 1 ≤ c) (hc2 : c ≤ COLUMNS) :
    (copyStage ROWS COLUMNS s).next_grid r c = (copyStage ROWS COLUMNS s).current_grid r c := by
  rw [copyStage_interior ROWS COLUMNS r c s hr1 hr2 hc1 hc2]
  rfl

/-- After a time step the interior of `next_grid` equals the interior of
`current_grid`. -/
theorem timeStep_synced (draws : Nat → ℚ) (ROWS COLUMNS r c : Int) (s : Sim)
    (hr1 : 1 ≤ r) (hr2 : r ≤ ROWS) (hc1 : 1 ≤ c) (hc2 : c ≤ COLUMNS) :
    (timeStep draws ROWS COLUMNS s).next_grid r c
      = (timeStep draws ROWS COLUMNS s).current_grid r c :=
  copyStage_synced ROWS COLUMNS r c _ hr1 hr2 hc1 hc2

/-- A time step seen from one interior cell: the cell ends with what its own
pass of the `switch` stored, and that pass saw the cell as it was before the
step. -/
theorem timeStep_cell (draws : Nat → ℚ) (ROWS COLUMNS r c : Int) (s : Sim)
    (hr1 : 1 ≤ r) (hr2 : r ≤ ROWS) (hc1 : 1 ≤ c) (hc2 : c ≤ COLUMNS) :
    (timeStep draws ROWS COLUMNS s).current_grid r c
        = (evalCell draws r c
            (evalBefore draws COLUMNS r c (wrapStage ROWS COLUMNS s))).next_grid r c ∧
    (evalBefore draws COLUMNS r c (wrapStage ROWS COLUMNS s)).current_grid r c
        = s.current_grid r c ∧
    (evalBefore draws COLUMNS r c (wrapStage ROWS COLUMNS s)).current_grid
        = (wrapStage ROWS COLUMNS s).current_grid ∧
    (evalBefore draws COLUMNS r c (wrapStage ROWS COLUMNS s)).next_grid r c
        = s.next_grid r c := by
  refine ⟨(evalGrid_cell draws ROWS COLUMNS r c (wrapStage ROWS COLUMNS s) hr1 hr2 hc1 hc2).2,
    ?_, evalBefore_current draws COLUMNS r c _, ?_⟩
  · rw [evalBefore_current, wrapStage_interior ROWS COLUMNS r c s hr1 hr2 hc1 hc2]
  · rw [evalBefore_next_at]
    rfl

/-- An EMPTY interior cell without a YOUNG neighbour, in a memory whose
`next_grid` agrees with `current_grid` at the cell: the step leaves it EMPTY. -/
theorem timeStep_quiet_synced (draws : Nat → ℚ) (ROWS COLUMNS r c : Int) (t : Sim)
    (hr1 : 1 ≤ r) (hr2 : r ≤ ROWS) (hc1 : 1 ≤ c) (hc2 : c ≤ COLUMNS)
    (hsync : t.next_grid r c = t.current_grid r c)
    (hv : (wrapStage ROWS COLUMNS t).current_grid r c = EMPTY)
    (hy : ¬ hasYoungNeighbor (wrapStage ROWS COLUMNS t).current_grid r c) :
    (wrapStage ROWS COLUMNS t).next_grid r c = EMPTY ∧
    (evalGrid draws ROWS COLUMNS (wrapStage ROWS COLUMNS t)).next_grid r c = EMPTY ∧
    (timeStep draws ROWS COLUMNS t).current_grid r c = EMPTY := by
  have h1 : (wrapStage ROWS COLUMNS t).next_grid r c = EMPTY := by
    show t.next_grid r c = EMPTY
    rw [hsync, ← wrapStage_interior ROWS COLUMNS r c t hr1 hr2 hc1 hc2]
    exact hv
  have h2 : (evalGrid draws ROWS COLUMNS (wrapStage ROWS COLUMNS t)).next_grid r c = EMPTY := by
    rw [evalGrid_empty_quiet draws ROWS COLUMNS r c _ hr1 hr2 hc1 hc2 hv hy]
    exact h1
  refine ⟨h1, h2, ?_⟩
  show (copyStage ROWS COLUMNS _).current_grid r c = EMPTY
  rw [copyStage_interior ROWS COLUMNS r c _ hr1 hr2 hc1 hc2]
  exact h2

/-- C21.  After the `copyGrid` that ends a step the interior of `next_grid`
equals the interior of `current_grid`.  The border wrap that follows leaves
the interior of `current_grid` and all of `next_grid` as they were; for
ROWS ≥ 1 and COLUMNS ≥ 1 the cells it changes are border cells.  Hence in every step after the first (the memory
has gone through k + 1 steps), an interior cell that is EMPTY in the wrapped
`current_grid` with no YOUNG neighbour holds EMPTY in `next_grid` already,
the pass that stores nothing leaves it EMPTY there, and it is EMPTY in
`current_grid` after the step. -/
theorem quiet_cell_after_first_step (draws : Nat → ℚ) (ROWS COLUMNS : Int) (s : Sim) :
    (∀ r c, 1 ≤ r → r ≤ ROWS → 1 ≤ c → c ≤ COLUMNS →
      (copyStage ROWS COLUMNS s).next_grid r c = (copyStage ROWS COLUMNS s).current_grid r c) ∧
    (∀ r c, 1 ≤ r → r ≤ ROWS → 1 ≤ c → c ≤ COLUMNS →
      (wrapStage ROWS COLUMNS s).current_grid r c = s.current_grid r c) ∧
    (wrapStage ROWS COLUMNS s).next_grid = s.next_grid ∧
    (1 ≤ ROWS → 1 ≤ COLUMNS →
      ∀ i j, (wrapStage ROWS COLUMNS s).current_grid i j ≠ s.current_grid i j →
      (0 ≤ i ∧ i ≤ ROWS + 1 ∧ 0 ≤ j ∧ j ≤ COLUMNS + 1) ∧
      (i = 0 ∨ i = ROWS + 1 ∨ j = 0 ∨ j = COLUMNS + 1)) ∧
    (∀ (k : Nat) r c, 1 ≤ r → r ≤ ROWS → 1 ≤ c → c ≤ COLUMNS →
      (wrapStage ROWS COLUMNS ((timeStep draws ROWS COLUMNS)^[k + 1] s)).current_grid r c
        = EMPTY →
      ¬ hasYoungNeighbor
        (wrapStage ROWS COLUMNS ((timeStep draws ROWS COLUMNS)^[k + 1] s)).current_grid r c →
      (wrapStage ROWS COLUMNS ((timeStep draws ROWS COLUMNS)^[k + 1] s)).next_grid r c
        = EMPTY ∧
      (evalGrid draws ROWS COLUMNS
        (wrapStage ROWS COLUMNS ((timeStep draws ROWS COLUMNS)^[k + 1] s))).next_grid r c
        = EMPTY ∧
      (timeStep draws ROWS COLUMNS
        ((timeStep draws ROWS COLUMNS)^[k + 1] s)).current_grid r c = EMPTY) := by
  refine ⟨?_, ?_, rfl, ?_, ?_⟩
  · intro r c hr1 hr2 hc1 hc2
    exact copyStage_synced ROWS COLUMNS r c s hr1 hr2 hc1 hc2
  · intro r c hr1 hr2 hc1 hc2
    exact wrapStage_interior ROWS COLUMNS r c s hr1 hr2 hc1 hc2
  · intro hR hC i j hne
    by_cases hbox : 0 ≤ i ∧ i ≤ ROWS + 1 ∧ 0 ≤ j ∧ j ≤ COLUMNS + 1
    · refine ⟨hbox, ?_⟩
      by_contra hb
      exact hne (wrapStage_interior ROWS COLUMNS i j s (by omega) (by omega) (by omega)
        (by omega))
    · exact absurd (wrap_outside ROWS COLUMNS s.current_grid hR hC i j hbox) hne
  · intro k r c hr1 hr2 hc1 hc2 hv hy
    apply timeStep_quiet_synced draws ROWS COLUMNS r c _ hr1 hr2 hc1 hc2 _ hv hy
    rw [Function.iterate_succ_apply']
    exact timeStep_synced draws ROWS COLUMNS r c _ hr1 hr2 hc1 hc2

/-- C21 on the 1x1 memory `cleanSim`: in the second step the EMPTY cell (1,1),
which has no YOUNG neighbour, already holds EMPTY in `next_grid` and is EMPTY
after the step. -/
theorem quiet_cell_after_first_step_witness :
    (wrapStage 1 1 (timeStep zeroDraws 1 1 cleanSim)).current_grid 1 1 = EMPTY ∧
    ¬ hasYoungNeighbor (wrapStage 1 1 (timeStep zeroDraws 1 1 cleanSim)).current_grid 1 1 ∧
    (wrapStage 1 1 (timeStep zeroDraws 1 1 cleanSim)).next_grid 1 1 = EMPTY ∧
    (timeStep zeroDraws 1 1 (timeStep zeroDraws 1 1 cleanSim)).current_grid 1 1 = EMPTY :=
  ⟨by decide, by decide,
    ((quiet_cell_after_first_step zeroDraws 1 1 cleanSim).2.2.2.2 0 1 1
      (by decide) (by decide) (by decide) (by decide) (by decide) (by decide)).1,
    ((quiet_cell_after_first_step zeroDraws 1 1 cleanSim).2.2.2.2 0 1 1
      (by decide) (by decide) (by decide) (by decide) (by decide) (by decide)).2.2⟩

/-! ## The life of a YOUNG cell -/

/-- One time step on an interior cell in one of the states YOUNG to DEADER. -/
theorem timeStep_ageing (draws : Nat → ℚ) (ROWS COLUMNS r c : Int) (s : Sim)
    (hr1 : 1 ≤ r) (hr2 : r ≤ ROWS) (hc1 : 1 ≤ c) (hc2 : c ≤ COLUMNS) :
    (s.current_grid r c = YOUNG →
      (timeStep draws ROWS COLUMNS s).current_grid r c = MATURING) ∧
    (s.current_grid r c = MATURING →
      (timeStep draws ROWS COLUMNS s).current_grid r c = MUSHROOMS ∨
      (timeStep draws ROWS COLUMNS s).current_grid r c = OLDER) ∧
    (s.current_grid r c = MUSHROOMS →
      (timeStep draws ROWS COLUMNS s).current_grid r c = DECAYING) ∧
    (s.current_grid r c = OLDER →
      (timeStep draws ROWS COLUMNS s).current_grid r c = DECAYING) ∧
    (s.current_grid r c = DECAYING →
      (timeStep draws ROWS COLUMNS s).current_grid r c = DEAD) ∧
    (s.current_grid r c = DEAD →
      (timeStep draws ROWS COLUMNS s).current_grid r c = DEADER) ∧
    (s.current_grid r c = DEADER →
      (timeStep draws ROWS COLUMNS s).current_grid r c = DEPLETED) := by
  obtain ⟨e, hb, _, _⟩ := timeStep_cell draws ROWS COLUMNS r c s hr1 hr2 hc1 hc2
  rw [e]
  refine ⟨?_, ?_, ?_, ?_, ?_, ?_, ?_⟩
  · intro hv
    rw [evalCell_young draws r c _ (by rw [hb]; exact hv)]
    simp [store_next]
  · intro hv
    rw [evalCell_maturing draws r c _ (by rw [hb]; exact hv)]
    split_ifs
    · exact Or.inl (by simp [store_next])
    · exact Or.inr (by simp [store_next])
  · intro hv
    rw [evalCell_mushrooms draws r c _ (by rw [hb]; exact hv)]
    simp [store_next]
  · intro hv
    rw [evalCell_older draws r c _ (by rw [hb]; exact hv)]
    simp [store_next]
  · intro hv
    rw [evalCell_decaying draws r c _ (by rw [hb]; exact hv)]
    simp [store_next]
  · intro hv
    rw [evalCell_dead draws r c _ (by rw [hb]; exact hv)]
    simp [store_next]
  · intro hv
    rw [evalCell_deader draws r c _ (by rw [hb]; exact hv)]
    simp [store_next]

/-- C22.  For every draw sequence and whatever the other cells hold, an
interior cell that is YOUNG at the start of a step is MATURING after 1 step,
MUSHROOMS or OLDER after 2, DECAYING after 3, DEAD after 4, DEADER after 5 and
DEPLETED after 6; after 1 to 5 steps it is none of EMPTY, SPORE, YOUNG and
DEPLETED. -/
theorem young_cell_lifecycle (draws : Nat → ℚ) (ROWS COLUMNS r c : Int) (s : Sim)
    (hr1 : 1 ≤ r) (hr2 : r ≤ ROWS) (hc1 : 1 ≤ c) (hc2 : c ≤ COLUMNS)
    (hv : s.current_grid r c = YOUNG) :
    ((timeStep draws ROWS COLUMNS)^[1] s).current_grid r c = MATURING ∧
    (((timeStep draws ROWS COLUMNS)^[2] s).current_grid r c = MUSHROOMS ∨
      ((timeStep draws ROWS COLUMNS)^[2] s).current_grid r c = OLDER) ∧
    ((timeStep draws ROWS COLUMNS)^[3] s).current_grid r c = DECAYING ∧
    ((timeStep draws ROWS COLUMNS)^[4] s).current_grid r c = DEAD ∧
    ((timeStep draws ROWS COLUMNS)^[5] s).current_grid r c = DEADER ∧
    ((timeStep draws ROWS COLUMNS)^[6] s).current_grid r c = DEPLETED ∧
    (∀ n, 1 ≤ n → n ≤ 5 →
      ((timeStep draws ROWS COLUMNS)^[n] s).current_grid r c ≠ EMPTY ∧
      ((timeStep draws ROWS COLUMNS)^[n] s).current_grid r c ≠ SPORE ∧
      ((timeStep draws ROWS COLUMNS)^[n] s).current_grid r c ≠ YOUNG ∧
      ((timeStep draws ROWS COLUMNS)^[n] s).current_grid r c ≠ DEPLETED) := by
  have step := fun t => timeStep_ageing draws ROWS COLUMNS r c t hr1 hr2 hc1 hc2
  have a1 : ((timeStep draws ROWS COLUMNS)^[1] s).current_grid r c = MATURING :=
    (step s).1 hv
  have a2 : ((timeStep draws ROWS COLUMNS)^[2] s).current_grid r c = MUSHROOMS ∨
      ((timeStep draws ROWS COLUMNS)^[2] s).current_grid r c = OLDER := by
    rw [Function.iterate_succ_apply']
    exact (step _).2.1 a1
  have a3 : ((timeStep draws ROWS COLUMNS)^[3] s).current_grid r c = DECAYING := by
    rw [Function.iterate_succ_apply']
    rcases a2 with h | h
    · exact (step _).2.2.1 h
    · exact (step _).2.2.2.1 h
  have a4 : ((timeStep draws ROWS COLUMNS)^[4] s).current_grid r c = DEAD := by
    rw [Function.iterate_succ_apply']
    exact (step _).2.2.2.2.1 a3
  have a5 : ((timeStep draws ROWS COLUMNS)^[5] s).current_grid r c = DEADER := by
    rw [Function.iterate_succ_apply']
    exact (step _).2.2.2.2.2.1 a4
  have a6 : ((timeStep draws ROWS COLUMNS)^[6] s).current_grid r c = DEPLETED := by
    rw [Function.iterate_succ_apply']
    exact (step _).2.2.2.2.2.2 a5
  refine ⟨a1, a2, a3, a4, a5, a6, ?_⟩
  intro n hn1 hn5
  interval_cases n
  · rw [a1]; decide
  · rcases a2 with h | h <;> rw [h] <;> decide
  · rw [a3]; decide
  · rw [a4]; decide
  · rw [a5]; decide

/-- C22 on a 1x1 interior whose cell is YOUNG, with every draw 0: the cell is
DEPLETED after six steps, and MUSHROOMS or OLDER after two. -/
theorem young_cell_lifecycle_witness :
    (singleSim YOUNG).current_grid 1 1 = YOUNG ∧
    ((timeStep zeroDraws 1 1)^[6] (singleSim YOUNG)).current_grid 1 1 = DEPLETED ∧
    (((timeStep zeroDraws 1 1)^[2] (singleSim YOUNG)).current_grid 1 1 = MUSHROOMS ∨
      ((timeStep zeroDraws 1 1)^[2] (singleSim YOUNG)).current_grid 1 1 = OLDER) :=
  ⟨by decide,
    (young_cell_lifecycle zeroDraws 1 1 1 1 (singleSim YOUNG) (by decide) (by decide)
      (by decide) (by decide) (by decide)).2.2.2.2.2.1,
    (young_cell_lifecycle zeroDraws 1 1 1 1 (singleSim YOUNG) (by decide) (by decide)
      (by decide) (by decide) (by decide)).2.1⟩

/-! ## Where a YOUNG cell comes from -/

/-- An interior cell whose `next_grid` entry agrees with its `current_grid`
entry and that is YOUNG after the step was SPORE, or EMPTY with a YOUNG
neighbour in the wrapped grid. -/
theorem timeStep_young_origin (draws : Nat → ℚ) (ROWS COLUMNS r c : Int) (s : Sim)
    (hr1 : 1 ≤ r) (hr2 : r ≤ ROWS) (hc1 : 1 ≤ c) (hc2 : c ≤ COLUMNS)
    (hsync : s.next_grid r c = s.current_grid r c)
    (hy : (timeStep draws ROWS COLUMNS s).current_grid r c = YOUNG) :
    s.current_grid r c = SPORE ∨
    (s.current_grid r c = EMPTY ∧
      hasYoungNeighbor (wrapStage ROWS COLUMNS s).current_grid r c) := by
  obtain ⟨e, hb, hg, hn⟩ := timeStep_cell draws ROWS COLUMNS r c s hr1 hr2 hc1 hc2
  rw [e] at hy
  by_cases h0 : s.current_grid r c = 0
  · by_cases hq : hasYoungNeighbor (wrapStage ROWS COLUMNS s).current_grid r c
    · exact Or.inr ⟨h0, hq⟩
    · rw [evalCell_empty_quiet draws r c _ (by rw [hb]; exact h0)
        (by rw [hg, check_neighbors_eq, if_neg hq]), hn, hsync, h0] at hy
      exact absurd hy (by decide)
  by_cases h1 : s.current_grid r c = 1
  · exact Or.inl h1
  exfalso
  by_cases h2 : s.current_grid r c = 2
  · rw [evalCell_young draws r c _ (by rw [hb]; exact h2)] at hy
    simp [store_next, MATURING, YOUNG] at hy
  by_cases h3 : s.current_grid r c = 3
  · rw [evalCell_maturing draws r c _ (by rw [hb]; exact h3)] at hy
    split_ifs at hy <;> simp [store_next, MUSHROOMS, OLDER, YOUNG] at hy
  by_cases h4 : s.current_grid r c = 4
  · rw [evalCell_mushrooms draws r c _ (by rw [hb]; exact h4)] at hy
    simp [store_next, DECAYING, YOUNG] at hy
  by_cases h5 : s.current_grid r c = 5
  · rw [evalCell_older draws r c _ (by rw [hb]; exact h5)] at hy
    simp [store_next, DECAYING, YOUNG] at hy
  by_cases h6 : s.current_grid r c = 6
  · rw [evalCell_decaying draws r c _ (by rw [hb]; exact h6)] at hy
    simp [store_next, DEAD, YOUNG] at hy
  by_cases h7 : s.current_grid r c = 7
  · rw [evalCell_dead draws r c _ (by rw [hb]; exact h7)] at hy
    simp [store_next, DEADER, YOUNG] at hy
  by_cases h8 : s.current_grid r c = 8
  · rw [evalCell_deader draws r c _ (by rw [hb]; exact h8)] at hy
    simp [store_next, DEPLETED, YOUNG] at hy
  by_cases h9 : s.current_grid r c = 9
  · rw [evalCell_depleted draws r c _ (by rw [hb]; exact h9)] at hy
    split_ifs at hy <;> simp [store_next, SPORE, EMPTY, DEPLETED, YOUNG] at hy
  by_cases h10 : s.current_grid r c = 10
  · rw [evalCell_inert draws r c _ (by rw [hb]; exact h10)] at hy
    simp [store_next, INERT, YOUNG] at hy
  rw [evalCell_default draws r c _ (by rw [hb]; omega), hn, hsync] at hy
  exact h2 hy

/-- C23.  One step started with the interior of `next_grid` equal to the
interior of `current_grid`: an interior cell that is YOUNG after the step was,
before it, SPORE, or EMPTY with at least one YOUNG cell among its eight
neighbours in the wrapped `current_grid`.  So a cell in any other state, and
an EMPTY cell without a YOUNG neighbour, is not YOUNG after the step. -/
theorem young_cell_origin (draws : Nat → ℚ) (ROWS COLUMNS r c : Int) (s : Sim)
    (hr1 : 1 ≤ r) (hr2 : r ≤ ROWS) (hc1 : 1 ≤ c) (hc2 : c ≤ COLUMNS)
    (hsync : ∀ i j, 1 ≤ i → i ≤ ROWS → 1 ≤ j → j ≤ COLUMNS →
      s.next_grid i j = s.current_grid i j) :
    ((timeStep draws ROWS COLUMNS s).current_grid r c = YOUNG →
      s.current_grid r c = SPORE ∨
      (s.current_grid r c = EMPTY ∧
        ∃ dr dc : Int, (dr = -1 ∨ dr = 0 ∨ dr = 1) ∧ (dc = -1 ∨ dc = 0 ∨ dc = 1) ∧
          (dr ≠ 0 ∨ dc ≠ 0) ∧
          (wrapStage ROWS COLUMNS s).current_grid (r + dr) (c + dc) = YOUNG)) ∧
    (s.current_grid r c ≠ SPORE →
      ¬ (s.current_grid r c = EMPTY ∧
        ∃ dr dc : Int, (dr = -1 ∨ dr = 0 ∨ dr = 1) ∧ (dc = -1 ∨ dc = 0 ∨ dc = 1) ∧
          (dr ≠ 0 ∨ dc ≠ 0) ∧
          (wrapStage ROWS COLUMNS s).current_grid (r + dr) (c + dc) = YOUNG) →
      (timeStep draws ROWS COLUMNS s).current_grid r c ≠ YOUNG) := by
  have key : (timeStep draws ROWS COLUMNS s).current_grid r c = YOUNG →
      s.current_grid r c = SPORE ∨
      (s.current_grid r c = EMPTY ∧
        ∃ dr dc : Int, (dr = -1 ∨ dr = 0 ∨ dr = 1) ∧ (dc = -1 ∨ dc = 0 ∨ dc = 1) ∧
          (dr ≠ 0 ∨ dc ≠ 0) ∧
          (wrapStage ROWS COLUMNS s).current_grid (r + dr) (c + dc) = YOUNG) := by
    intro hy
    rcases timeStep_young_origin draws ROWS COLUMNS r c s hr1 hr2 hc1 hc2
      (hsync r c hr1 hr2 hc1 hc2) hy with h | ⟨h, hn⟩
    · exact Or.inl h
    · exact Or.inr ⟨h, (hasYoungNeighbor_iff _ r c).mp hn⟩
  refine ⟨key, ?_⟩
  intro h1 h2 hy
  rcases key hy with h | h
  · exact h1 h
  · exact h2 h

/-- C23 on a 1x2 interior with cell (1,1) EMPTY and cell (1,2) YOUNG, the two
grids equal and every draw 0: cell (1,1) is YOUNG after the step, and it was
EMPTY with the YOUNG neighbour (1,2). -/
theorem young_cell_origin_witness :
    (timeStep zeroDraws 1 2 (syncedSim spreadSim.current_grid)).current_grid 1 1 = YOUNG ∧
    ((syncedSim spreadSim.current_grid).current_grid 1 1 = SPORE ∨
      ((syncedSim spreadSim.current_grid).current_grid 1 1 = EMPTY ∧
        ∃ dr dc : Int, (dr = -1 ∨ dr = 0 ∨ dr = 1) ∧ (dc = -1 ∨ dc = 0 ∨ dc = 1) ∧
          (dr ≠ 0 ∨ dc ≠ 0) ∧
          (wrapStage 1 2 (syncedSim spreadSim.current_grid)).current_grid (1 + dr) (1 + dc)
            = YOUNG)) :=
  have hy : (timeStep zeroDraws 1 2 (syncedSim spreadSim.current_grid)).current_grid 1 1
      = YOUNG :=
    (timeStep_spread zeroDraws 1 2 1 1 (syncedSim spreadSim.current_grid) (by decide)
      (by decide) (by decide) (by decide) (by decide) (by decide)
      (fun k _ => by norm_num [zeroDraws])).2.1 (by decide)
      ⟨0, 1, by decide, by decide, by decide, by decide⟩
  ⟨hy, (young_cell_origin zeroDraws 1 2 1 1 (syncedSim spreadSim.current_grid) (by decide)
    (by decide) (by decide) (by decide) (fun _ _ _ _ _ _ => rfl)).1 hy⟩

/-! ## The order of the draws -/

theorem range_succ_flatMap {β : Type} (F : Int → List β) (n : Nat) (i : Int) :
    (List.range (n + 1)).flatMap (fun k => F (i + (k : Int)))
      = F i ++ (List.range n).flatMap (fun k => F (i + 1 + (k : Int))) := by
  rw [List.range_succ_eq_map, List.flatMap_cons, List.flatMap_map]
  have e0 : i + ((0 : Nat) : Int) = i := by simp
  rw [e0]
  congr 1
  congr 1
  funext k
  congr 1
  push_cast
  ring

/-- A logging loop in which the pass `j` moves a counter on by the length of a
list `L j` and logs `L j` numbered from the counter: the log is the lists of
the passes, in order, numbered from where the counter started. -/
theorem forLoop_enum {σ β : Type} (body : Int → σ → σ) (idx : Int → σ → List (Nat × β))
    (f : σ → Nat) (Inv : σ → Prop) (L : Int → List β)
    (h : ∀ j t, Inv t →
      Inv (body j t) ∧ f (body j t) = f t + (L j).length ∧ idx j t = (L j).enumFrom (f t))
    (n : Nat) (i : Int) (s : σ) (log : List (Nat × β)) (hs : Inv s) :
    Inv (forLoop (loggedWith body idx) n i (s, log)).1 ∧
    f (forLoop (loggedWith body idx) n i (s, log)).1
      = f s + ((List.range n).flatMap (fun k => L (i + (k : Int)))).length ∧
    (forLoop (loggedWith body idx) n i (s, log)).2
      = log ++ ((List.range n).flatMap (fun k => L (i + (k : Int)))).enumFrom (f s) := by
  induction n generalizing i s log with
  | zero => simpa [forLoop] using hs
  | succ m ih =>
    obtain ⟨h1, h2, h3⟩ := h i s hs
    obtain ⟨a1, a2, a3⟩ := ih (i + 1) (body i s) (log ++ idx i s) h1
    have e : forLoop (loggedWith body idx) (m + 1) i (s, log)
        = forLoop (loggedWith body idx) m (i + 1) (body i s, log ++ idx i s) := rfl
    rw [e, range_succ_flatMap]
    refine ⟨a1, ?_, ?_⟩
    · rw [a2, h2, List.length_append]
      omega
    · rw [a3, h2, h3, List.enumFrom_append, List.append_assoc]

/-- A pass of the `switch` takes one draw when its cell is SPORE, MATURING,
DEPLETED, or EMPTY with a YOUNG neighbour, and none otherwise. -/
theorem evalCell_drawn_eq (draws : Nat → ℚ) (r c : Int) (t : Sim) :
    (evalCell draws r c t).drawn
      = t.drawn + (if needsDraw t.current_grid (r, c) then 1 else 0) := by
  by_cases hN : needsDraw t.current_grid (r, c)
  · rw [if_pos hN]
    rcases hN with h | h | h | ⟨h, hq⟩
    · rw [evalCell_spore draws r c t h]
      split_ifs <;> rfl
    · rw [evalCell_maturing draws r c t h]
      split_ifs <;> rfl
    · rw [evalCell_depleted draws r c t h]
      split_ifs <;> rfl
    · rw [evalCell_empty_spread draws r c t h (by rw [check_neighbors_eq, if_pos hq]; decide)]
      split_ifs <;> rfl
  · rw [if_neg hN]
    by_cases h0 : t.current_grid r c = 0
    · have hq : ¬ hasYoungNeighbor t.current_grid r c :=
        fun hq => hN (Or.inr (Or.inr (Or.inr ⟨h0, hq⟩)))
      rw [evalCell_empty_quiet draws r c t h0 (by rw [check_neighbors_eq, if_neg hq])]
      rfl
    by_cases h1 : t.current_grid r c = 1
    · exact absurd (Or.inl h1) hN
    by_cases h3 : t.current_grid r c = 3
    · exact absurd (Or.inr (Or.inl h3)) hN
    by_cases h9 : t.current_grid r c = 9
    · exact absurd (Or.inr (Or.inr (Or.inl h9))) hN
    by_cases h2 : t.current_grid r c = 2
    · rw [evalCell_young draws r c t h2]; rfl
    by_cases h4 : t.current_grid r c = 4
    · rw [evalCell_mushrooms draws r c t h4]; rfl
    by_cases h5 : t.current_grid r c = 5
    · rw [evalCell_older draws r c t h5]; rfl
    by_cases h6 : t.current_grid r c = 6
    · rw [evalCell_decaying draws r c t h6]; rfl
    by_cases h7 : t.current_grid r c = 7
    · rw [evalCell_dead draws r c t h7]; rfl
    by_cases h8 : t.current_grid r c = 8
    · rw [evalCell_deader draws r c t h8]; rfl
    by_cases h10 : t.current_grid r c = 10
    · rw [evalCell_inert draws r c t h10]; rfl
    rw [evalCell_default draws r c t (by omega)]
    rfl

theorem cellDraw_eq (draws : Nat → ℚ) (r c : Int) (t : Sim) :
    cellDraw draws r c t
      = (if needsDraw t.current_grid (r, c) then [(r, c)] else []).enumFrom t.drawn := by
  unfold cellDraw
  rw [evalCell_drawn_eq]
  by_cases h : needsDraw t.current_grid (r, c)
  · simp [h]
  · simp [h]

/-- A logging loop moves the state as the plain loop does. -/
theorem forLoop_loggedWith_fst {σ α : Type} (body : Int → σ → σ) (idx : Int → σ → List α)
    (n : Nat) (i : Int) (p : σ × List α) :
    (forLoop (loggedWith body idx) n i p).1 = forLoop body n i p.1 := by
  induction n generalizing i p with
  | zero => rfl
  | succ k ih =>
    simp only [forLoop]
    rw [ih]
    rfl

/-- The draws of one row of the evaluation loop. -/
theorem evalRow_enum (draws : Nat → ℚ) (COLUMNS r : Int) (t : Sim) :
    (evalRowFrom draws 1 COLUMNS r t).current_grid = t.current_grid ∧
    (evalRowFrom draws 1 COLUMNS r t).drawn
      = t.drawn + ((List.range COLUMNS.toNat).flatMap (fun k =>
          if needsDraw t.current_grid (r, 1 + (k : Int)) then [(r, 1 + (k : Int))]
          else [])).length ∧
    (forTo 1 COLUMNS
      (loggedWith (fun current_column s => evalCell draws r current_column s)
        (fun current_column s => cellDraw draws r current_column s))
      (t, [])).2
      = ((List.range COLUMNS.toNat).flatMap (fun k =>
          if needsDraw t.current_grid (r, 1 + (k : Int)) then [(r, 1 + (k : Int))]
          else [])).enumFrom t.drawn := by
  have key := forLoop_enum (fun current_column s => evalCell draws r current_column s)
    (fun current_column s => cellDraw draws r current_column s)
    (fun s : Sim => s.drawn) (fun s : Sim => s.current_grid = t.current_grid)
    (fun j => if needsDraw t.current_grid (r, j) then [(r, j)] else [])
    (by
      intro j u hu
      refine ⟨?_, ?_, ?_⟩
      · show (evalCell draws r j u).current_grid = t.current_grid
        rw [evalCell_current, hu]
      · show (evalCell draws r j u).drawn = _
        rw [evalCell_drawn_eq, hu]
        by_cases hn : needsDraw t.current_grid (r, j) <;> simp [hn]
      · show cellDraw draws r j u = _
        rw [cellDraw_eq, hu])
    (COLUMNS + 1 - 1).toNat 1 t [] rfl
  have en : (COLUMNS + 1 - 1).toNat = COLUMNS.toNat := by omega
  rw [forLoop_loggedWith_fst, en] at key
  obtain ⟨_, k2, k3⟩ := key
  refine ⟨evalRowFrom_current draws 1 COLUMNS r t, ?_, ?_⟩
  · unfold evalRowFrom forTo
    rw [en]
    exact k2
  · unfold forTo
    rw [en, k3]
    rfl

theorem filter_map_flatMap {α β : Type} (p : β → Prop) [DecidablePred p] (F : α → β)
    (l : List α) :
    (l.map F).filter (fun x => decide (p x))
      = l.flatMap (fun a => if p (F a) then [F a] else []) := by
  induction l with
  | nil => rfl
  | cons a rest ih =>
    rw [List.map_cons, List.flatMap_cons, ← ih]
    by_cases h : p (F a)
    · simp [List.filter_cons, h]
    · simp [List.filter_cons, h]

/-- The interior cells that draw, row by row. -/
theorem drawingCells_eq (g : Grid) (ROWS COLUMNS : Int) :
    drawingCells g ROWS COLUMNS
      = (List.range ROWS.toNat).flatMap (fun i =>
          (List.range COLUMNS.toNat).flatMap (fun k =>
            if needsDraw g (1 + (i : Int), 1 + (k : Int)) then [(1 + (i : Int), 1 + (k : Int))]
            else [])) := by
  unfold drawingCells interiorCells
  rw [List.filter_flatMap]
  congr 1
  funext i
  exact filter_map_flatMap (fun x => needsDraw g x) (fun j : Nat => (1 + (i : Int), 1 + (j : Int)))
    (List.range COLUMNS.toNat)

/-- The draws of the evaluation loop: their number is the number of interior
cells that draw, and the draws, in the order taken, go to those cells in
row-major order. -/
theorem evalGrid_enum (draws : Nat → ℚ) (ROWS COLUMNS : Int) (s : Sim) :
    (evalGrid draws ROWS COLUMNS s).drawn
      = s.drawn + (drawingCells s.current_grid ROWS COLUMNS).length ∧
    evalGridDraws draws ROWS COLUMNS s
      = (drawingCells s.current_grid ROWS COLUMNS).enumFrom s.drawn := by
  have key := forLoop_enum
    (fun current_row t => evalRowFrom draws 1 COLUMNS current_row t)
    (fun current_row t =>
      (forTo 1 COLUMNS
        (loggedWith (fun current_column u => evalCell draws current_row current_column u)
          (fun current_column u => cellDraw draws current_row current_column u))
        (t, [])).2)
    (fun t : Sim => t.drawn) (fun t : Sim => t.current_grid = s.current_grid)
    (fun r => (List.range COLUMNS.toNat).flatMap (fun k =>
      if needsDraw s.current_grid (r, 1 + (k : Int)) then [(r, 1 + (k : Int))] else []))
    (by
      intro r t ht
      obtain ⟨b1, b2, b3⟩ := evalRow_enum draws COLUMNS r t
      rw [ht] at b1 b2 b3
      exact ⟨b1, b2, b3⟩)
    (ROWS + 1 - 1).toNat 1 s [] rfl
  have en : (ROWS + 1 - 1).toNat = ROWS.toNat := by omega
  rw [forLoop_loggedWith_fst, en, ← drawingCells_eq] at key
  obtain ⟨_, k2, k3⟩ := key
  refine ⟨?_, ?_⟩
  · unfold evalGrid forTo
    rw [en]
    exact k2
  · unfold evalGridDraws
    rw [forTo, en, k3]
    rfl

theorem forTo_loggedWith_fst {σ α : Type} (body : Int → σ → σ) (idx : Int → σ → List α)
    (lo hi : Int) (p : σ × List α) :
    (forTo lo hi (loggedWith body idx) p).1 = forTo lo hi body p.1 :=
  forLoop_loggedWith_fst body idx _ lo p

/-- The last pass of a loop that runs at least once. -/
theorem forTo_last {σ : Type} (body : Int → σ → σ) (lo hi : Int) (s : σ) (h : lo ≤ hi) :
    forTo lo hi body s = body hi (forTo lo (hi - 1) body s) := by
  rw [forTo_split body lo hi hi s h (le_refl _), forTo_empty body (hi + 1) hi _ (by omega)]

/-- Every entry of the log of a logging loop was logged by some pass `j`, in
the state the plain loop has reached when it comes to `j`. -/
theorem forTo_loggedWith_mem {σ α : Type} (body : Int → σ → σ) (idx : Int → σ → List α)
    (lo hi : Int) (s : σ) (x : α)
    (hx : x ∈ (forTo lo hi (loggedWith body idx) (s, [])).2) :
    ∃ j, lo ≤ j ∧ j ≤ hi ∧ x ∈ idx j (forTo lo (j - 1) body s) := by
  generalize hn : (hi + 1 - lo).toNat = n
  induction n generalizing hi with
  | zero =>
    rw [forTo_empty _ lo hi _ (by omega)] at hx
    simp at hx
  | succ m ih =>
    rw [forTo_last _ lo hi _ (by omega)] at hx
    rcases List.mem_append.mp hx with h | h
    · obtain ⟨j, h1, h2, h3⟩ := ih (hi - 1) h (by omega)
      exact ⟨j, h1, by omega, h3⟩
    · rw [forTo_loggedWith_fst] at h
      exact ⟨hi, by omega, le_refl _, h⟩

/-- Every draw the evaluation loop logs is taken by the pass over an interior
cell that draws, at the engine position the loop has when it reaches the
cell. -/
theorem evalGridDraws_mem (draws : Nat → ℚ) (ROWS COLUMNS : Int) (s : Sim) (k : Nat)
    (r c : Int) (hx : (k, (r, c)) ∈ evalGridDraws draws ROWS COLUMNS s) :
    1 ≤ r ∧ r ≤ ROWS ∧ 1 ≤ c ∧ c ≤ COLUMNS ∧ needsDraw s.current_grid (r, c) ∧
    (evalBefore draws COLUMNS r c s).drawn = k ∧
    (evalCell draws r c (evalBefore draws COLUMNS r c s)).drawn = k + 1 := by
  unfold evalGridDraws at hx
  obtain ⟨i, hi1, hi2, hx2⟩ := forTo_loggedWith_mem _ _ 1 ROWS s _ hx
  obtain ⟨j, hj1, hj2, hx3⟩ := forTo_loggedWith_mem _ _ 1 COLUMNS _ _ hx2
  have hx4 : (k, (r, c)) ∈ cellDraw draws i j (evalBefore draws COLUMNS i j s) := hx3
  rw [cellDraw_eq, evalBefore_current] at hx4
  by_cases hN : needsDraw s.current_grid (i, j)
  · rw [if_pos hN] at hx4
    simp only [List.enumFrom_cons, List.enumFrom_nil, List.mem_singleton, Prod.mk.injEq] at hx4
    obtain ⟨hk, hr, hc⟩ := hx4
    subst hr hc
    refine ⟨hi1, hi2, hj1, hj2, hN, hk.symm, ?_⟩
    rw [evalCell_drawn_eq, evalBefore_current, if_pos hN, hk]
  · rw [if_neg hN] at hx4
    simp at hx4

/-- C24.  The draws of the evaluation loop, in the order taken, are those of
the interior cells that are SPORE, MATURING, DEPLETED, or EMPTY with a YOUNG
neighbour, in row-major order: the draw number `k` of the step (counted from
0, so the draw at the engine position `s.drawn + k`) is taken for the cell
number `k` of that list.  The loop, and so the step (where the loop runs on
the wrapped grid), takes as many draws as there are such cells.  Each logged draw is the one the pass over its cell
takes, at the engine position the loop has when it reaches the cell. -/
theorem draws_in_row_major_order (draws : Nat → ℚ) (ROWS COLUMNS : Int) (s : Sim) :
    evalGridDraws draws ROWS COLUMNS s
      = (drawingCells s.current_grid ROWS COLUMNS).enumFrom s.drawn ∧
    (∀ (k : Nat) (x : Int × Int), (drawingCells s.current_grid ROWS COLUMNS)[k]? = some x →
      (evalGridDraws draws ROWS COLUMNS s)[k]? = some (s.drawn + k, x)) ∧
    (evalGrid draws ROWS COLUMNS s).drawn
      = s.drawn + (drawingCells s.current_grid ROWS COLUMNS).length ∧
    evalGridDraws draws ROWS COLUMNS (wrapStage ROWS COLUMNS s)
      = (drawingCells (wrapStage ROWS COLUMNS s).current_grid ROWS COLUMNS).enumFrom s.drawn ∧
    (timeStep draws ROWS COLUMNS s).drawn
      = s.drawn + (drawingCells (wrapStage ROWS COLUMNS s).current_grid ROWS COLUMNS).length ∧
    (∀ (k : Nat) (r c : Int), (k, (r, c)) ∈ evalGridDraws draws ROWS COLUMNS s →
      1 ≤ r ∧ r ≤ ROWS ∧ 1 ≤ c ∧ c ≤ COLUMNS ∧ needsDraw s.current_grid (r, c) ∧
      (evalBefore draws COLUMNS r c s).drawn = k ∧
      (evalCell draws r c (evalBefore draws COLUMNS r c s)).drawn = k + 1) := by
  obtain ⟨h1, h2⟩ := evalGrid_enum draws ROWS COLUMNS s
  refine ⟨h2, ?_, h1, ?_, ?_, ?_⟩
  · intro k x hk
    rw [h2, List.getElem?_enumFrom, hk]
    rfl
  · exact (evalGrid_enum draws ROWS COLUMNS (wrapStage ROWS COLUMNS s)).2
  · exact (evalGrid_enum draws ROWS COLUMNS (wrapStage ROWS COLUMNS s)).1
  · intro k r c hx
    exact evalGridDraws_mem draws ROWS COLUMNS s k r c hx

/-- C24 on the 1x3 interior `orderSim` (SPORE, YOUNG, MATURING; five draws
taken before): the loop takes two draws, number 5 for cell (1,1) and number 6
for cell (1,3), and none for the YOUNG cell (1,2). -/
theorem draws_in_row_major_order_witness :
    drawingCells orderSim.current_grid 1 3 = [(1, 1), (1, 3)] ∧
    evalGridDraws zeroDraws 1 3 orderSim = [(5, (1, 1)), (6, (1, 3))] ∧
    (evalGrid zeroDraws 1 3 orderSim).drawn = 7 :=
  ⟨by decide,
    (draws_in_row_major_order zeroDraws 1 3 orderSim).1.trans (by decide),
    (draws_in_row_major_order zeroDraws 1 3 orderSim).2.2.1.trans (by decide)⟩

end Fungi
